import Mathlib

/-! Saturn Kubernetes agent: the CronJob reconciliation controller.

A shallow embedding of `integrations/kubernetes/agent/pkg/watcher/cronjob_watcher.go`
(and of the collaborator interface of `pkg/monitor/manager.go`) together with the
properties of the reconciliation controller.

Conventions of the embedding:

* Go strings are Lean `String`s (sequences of runes).
* A Go `map[string]string` is an optional association list: `none` is the nil map,
  `some l` a non-nil map in which the first binding of a key is its value.
* A Go `error` is an `Option String` (`none` is `nil`); a `(T, error)` result is an
  `Except String T`.
* The cluster API and the remote monitor manager are external collaborators.  They are
  given by an environment `Env σ` of state-passing functions over an arbitrary state `σ`;
  every call the controller makes to them is appended to a trace of `Effect`s.
* `klog` output at error and warning level is part of the trace (it is the channel on
  which the loops report failures); informational output is not modelled.
* The manager of `pkg/monitor/manager.go` is also embedded on its own, over an environment
  `HTTPEnv σ` for the HTTP client; the requests it sends are recorded in an `HTTPWorld`.
* The unbounded loops of the event watcher take a bound on their iterations, and the case
  taken by a `select` statement is given by the environment `WatchEnv σ`.
* A run of the controller (`Run`) is taken along a schedule that interleaves the iterations of
  the ticker loop and of the watcher goroutine.
* The two sidecars (`integrations/kubernetes/sidecar` and `integrations/k8s-sidecar`) are
  embedded under the names `Sidecar.*` and `JobSidecar.*`.
-/

namespace Saturn

/-! ## Data model -/

/-- A Go `map[string]string`; `none` is the nil map. -/
abbrev GoMap := Option (List (String × String))

namespace GoMap

/-- The two-result lookup `v, ok := m[k]` (`none` when `ok` is false). -/
def lookup (m : GoMap) (k : String) : Option String :=
  match m with
  | none => none
  | some l => List.lookup k l

/-- The one-result lookup `m[k]`: the zero value `""` when the key is absent. -/
def get (m : GoMap) (k : String) : String :=
  (m.lookup k).getD ""

/-- Assignment `m[k] = v` on a non-nil map. -/
def set (l : List (String × String)) (k v : String) : List (String × String) :=
  (k, v) :: l.filter (fun p => !(p.1 == k))

end GoMap

/-- The fields of `batchv1.CronJobSpec` read by the controller. -/
structure CronJobSpec where
  Schedule : String
  TimeZone : Option String
  deriving DecidableEq, Repr

/-- A `batchv1.CronJob`.  `Remainder` stands for every field the controller neither reads
nor writes (labels, resource version, job template, status, ...). -/
structure CronJob where
  Namespace : String
  Name : String
  Annotations : GoMap
  Spec : CronJobSpec
  Remainder : String
  deriving DecidableEq, Repr

/-- The type `monitor.MonitorSpec` of `manager.go`. -/
structure MonitorSpec where
  Name : String
  ScheduleType : String
  CronExpr : String
  Timezone : Option String
  GraceSec : Int
  Tags : List String
  deriving DecidableEq, Repr

def AnnotationEnabled : String := "saturn.co/enabled"
def AnnotationMonitorID : String := "saturn.co/monitor-id"
def AnnotationGraceSec : String := "saturn.co/grace-sec"
def AnnotationTags : String := "saturn.co/tags"

def DefaultGraceSec : Int := 300

/-! ## Eligibility -/

/-- The method `shouldSync` of `cronjob_watcher.go`. -/
def shouldSync (cronJob : CronJob) : Bool :=
  if (match cronJob.Annotations.lookup AnnotationEnabled with
      | some enabled => enabled == "true"
      | none => false) then
    true
  else if (cronJob.Annotations.lookup AnnotationMonitorID).isSome then
    true
  else
    false

/-! ## `fmt.Sscanf(str, "%d", &g)`

The scanner of the Go standard library, specialised to the format `"%d"` and one `*int`
operand, as `syncCronJob` calls it.  A scan state is the list of runes still unread. -/

/-- The constant `hugeWid` of `fmt/scan.go`: the scanner reads at most this many runes. -/
def hugeWid : Nat := 2 ^ 30

/-- The width of a Go `int` on the 64-bit platforms the agent is built for. -/
def intBits : Nat := 64

/-- The table `space` of `fmt/scan.go` (inclusive ranges of code points). -/
def space : List (Nat × Nat) :=
  [(0x0009, 0x000d), (0x0020, 0x0020), (0x0085, 0x0085), (0x00a0, 0x00a0), (0x1680, 0x1680),
   (0x2000, 0x200a), (0x2028, 0x2029), (0x202f, 0x202f), (0x205f, 0x205f), (0x3000, 0x3000)]

/-- The loop of `isSpace` over the sorted range table. -/
def isSpaceIn : List (Nat × Nat) → Nat → Bool
  | [], _ => false
  | rng :: rest, rx =>
    if rx < rng.1 then false
    else if rx ≤ rng.2 then true
    else isSpaceIn rest rx

/-- The function `isSpace` of `fmt/scan.go`. -/
def isSpace (r : Char) : Bool :=
  if r.toNat ≥ 2 ^ 16 then false else isSpaceIn space r.toNat

/-- The method `SkipSpace` in the mode of `Sscanf` (`nlIsSpace = false`): the input left after
the skipped blanks, or `none` for the error "unexpected newline". -/
def SkipSpace : List Char → Option (List Char)
  | [] => some []
  | r :: rest =>
    if r == '\r' && rest.head? == some '\n' then SkipSpace rest
    else if r == '\n' then none
    else if !isSpace r then some (r :: rest)
    else SkipSpace rest

/-- The digit set `decimalDigits` that `getBase` selects for the verb `d`. -/
def decimalDigits : List Char := "0123456789".toList

/-- The character set `sign`. -/
def sign : List Char := "+-".toList

/-- The method `scanNumber(decimalDigits, false)`: the token of digits at the head of the input,
`none` at end of input or when the first rune is not a digit ("expected integer"). -/
def scanNumber : List Char → Option (List Char)
  | [] => none
  | r :: rest =>
    if decimalDigits.contains r then some (r :: rest.takeWhile decimalDigits.contains)
    else none

/-- The digit loop of `strconv.ParseUint(s, 10, 64)`: `none` for a syntax or range error. -/
def ParseUint.loop : List Char → Nat → Option Nat
  | [], n => some n
  | c :: cs, n =>
    if '0' ≤ c ∧ c ≤ '9' then
      let n1 := n * 10 + (c.toNat - '0'.toNat)
      if n1 ≥ 2 ^ 64 then none else ParseUint.loop cs n1
    else none

/-- The function `strconv.ParseUint(s, 10, 64)`. -/
def ParseUint (s : List Char) : Option Nat :=
  match s with
  | [] => none
  | _ => ParseUint.loop s 0

/-- The function `strconv.ParseInt(s, 10, 64)`. -/
def ParseInt (s : List Char) : Option Int :=
  match s with
  | [] => none
  | c :: rest =>
    let neg := c == '-'
    let s1 := if c == '+' || c == '-' then rest else c :: rest
    match ParseUint s1 with
    | none => none
    | some un =>
      let cutoff : Nat := 2 ^ 63
      if !neg && un ≥ cutoff then none
      else if neg && un > cutoff then none
      else some (if neg then -(un : Int) else (un : Int))

/-- The method `scanInt('d', bitSize)`: skip blanks, accept an optional sign, scan the digits,
convert with `ParseInt` and check that the value fits `bitSize` bits. -/
def scanInt (input : List Char) (bitSize : Nat) : Option Int :=
  match SkipSpace input with
  | none => none
  | some [] => none
  | some (r :: rest) =>
    let signTok := if sign.contains r then [r] else []
    let afterSign := if sign.contains r then rest else r :: rest
    match scanNumber afterSign with
    | none => none
    | some tok =>
      match ParseInt (signTok ++ tok) with
      | none => none
      | some i =>
        if -(2 ^ (bitSize - 1) : Int) ≤ i ∧ i < (2 ^ (bitSize - 1) : Int) then some i else none

/-- The call `fmt.Sscanf(str, "%d", &g)`: `some g` when it returns a nil error, `none` when it
returns an error.  Input after the scanned integer is not examined. -/
def Sscanf_d (str : String) : Option Int :=
  match SkipSpace (str.toList.take hugeWid) with
  | none => none
  | some input => scanInt input intBits

/-! ## Translation to a monitor specification -/

/-- The value of `monitorName` in `syncCronJob`. -/
def syncCronJob.monitorName (cronJob : CronJob) : String :=
  cronJob.Namespace ++ "/" ++ cronJob.Name

/-- The value of `graceSec` in `syncCronJob` once the annotation has been examined. -/
def syncCronJob.graceSec (cronJob : CronJob) : Int :=
  match cronJob.Annotations.lookup AnnotationGraceSec with
  | some graceStr =>
    match Sscanf_d graceStr with
    | some g => if g > 0 then g else DefaultGraceSec
    | none => DefaultGraceSec
  | none => DefaultGraceSec

/-- The value of `tags` in `syncCronJob`. -/
def syncCronJob.tags (cronJob : CronJob) : List String :=
  let tags := ["kubernetes", "namespace:" ++ cronJob.Namespace]
  match cronJob.Annotations.lookup AnnotationTags with
  | some tagsStr => tags ++ [tagsStr]
  | none => tags

/-- The value of `monitorSpec` in `syncCronJob`. -/
def syncCronJob.monitorSpec (cronJob : CronJob) : MonitorSpec :=
  { Name := syncCronJob.monitorName cronJob
    ScheduleType := "CRON"
    CronExpr := cronJob.Spec.Schedule
    Timezone := cronJob.Spec.TimeZone
    GraceSec := syncCronJob.graceSec cronJob
    Tags := syncCronJob.tags cronJob }

/-! ## External collaborators and effects -/

/-- One observable action of the controller: a call to the remote monitor manager, a call to
the cluster API (`watchStop` is the call `watcher.Stop()` on an open subscription), a line of
`klog` output at error or warning level, or a `time.Sleep` of a number of seconds. -/
inductive Effect where
  | remoteCreate (spec : MonitorSpec)
  | remoteUpdate (id : String) (spec : MonitorSpec)
  | remoteDelete (id : String)
  | clusterList (ns : String)
  | clusterGet (ns : String) (name : String)
  | clusterUpdate (ns : String) (obj : CronJob)
  | logError (msg : String)
  | logWarning (msg : String)
  | clusterWatch (ns : String)
  | watchStop
  | sleep (seconds : Nat)
  deriving DecidableEq, Repr

/-- Whether an action is a call to the remote monitor manager. -/
def Effect.isRemote : Effect → Bool
  | .remoteCreate _ => true
  | .remoteUpdate _ _ => true
  | .remoteDelete _ => true
  | _ => false

/-- Whether an action writes to the cluster. -/
def Effect.isClusterWrite : Effect → Bool
  | .clusterUpdate _ _ => true
  | _ => false

/-- Whether an action opens a watch subscription or is a sleep. -/
def Effect.isWatchStep : Effect → Bool
  | .clusterWatch _ => true
  | .sleep _ => true
  | _ => false

/-- Whether an action is a read or write of one object of the cluster or a log line. -/
def Effect.isLocal : Effect → Bool
  | .clusterGet _ _ => true
  | .clusterUpdate _ _ => true
  | .logError _ => true
  | .logWarning _ => true
  | _ => false

/-- Whether an action is a listing of the objects of the cluster, the start of a resync. -/
def Effect.isList : Effect → Bool
  | .clusterList _ => true
  | _ => false

/-- The listings of the cluster in a trace, in order: one for each resync. -/
def listCalls (trace : List Effect) : List Effect :=
  trace.filter Effect.isList

/-- The calls to the remote monitor manager in a trace, in order. -/
def remoteCalls (trace : List Effect) : List Effect :=
  trace.filter Effect.isRemote

/-- The writes to the cluster in a trace, in order. -/
def clusterWrites (trace : List Effect) : List Effect :=
  trace.filter Effect.isClusterWrite

/-- The subscription attempts and sleeps in a trace, in order. -/
def watchSteps (trace : List Effect) : List Effect :=
  trace.filter Effect.isWatchStep

/-- The collaborators of the watcher: the three operations of `monitor.Manager` and the
`List`, `Get` and `Update` operations of the cluster client on CronJobs.  Each takes the
state of the outside world and returns its result with the next state. -/
structure Env (σ : Type) where
  CreateMonitor : MonitorSpec → σ → Except String String × σ
  UpdateMonitor : String → MonitorSpec → σ → Option String × σ
  DeleteMonitor : String → σ → Option String × σ
  List : String → σ → Except String (List CronJob) × σ
  Get : String → String → σ → Except String CronJob × σ
  Update : String → CronJob → σ → Except String CronJob × σ

/-- The state of the outside world together with the actions performed so far, oldest first. -/
structure World (σ : Type) where
  state : σ
  trace : List Effect

/-- The type `watch.EventType`. -/
inductive EventType where
  | Added
  | Modified
  | Deleted
  | Bookmark
  | Error
  deriving DecidableEq, Repr

/-- The payload of a watch event: a CronJob, or an object of another type. -/
inductive RuntimeObject where
  | cronJob (cj : CronJob)
  | other (kind : String)
  deriving DecidableEq, Repr

/-- The type `watch.Event`; `Typ` is its field `Type`. -/
structure Event where
  Typ : EventType
  Object : RuntimeObject
  deriving DecidableEq, Repr

/-! ## The reconciler -/

/-- The mutation of the fresh copy in `addMonitorAnnotation`: the annotation map is made when
it is nil, then `fresh.Annotations[AnnotationMonitorID] = monitorID`. -/
def withMonitorID (fresh : CronJob) (monitorID : String) : CronJob :=
  let annotations := match fresh.Annotations with
    | none => []
    | some l => l
  { fresh with Annotations := some (GoMap.set annotations AnnotationMonitorID monitorID) }

/-- The method `addMonitorAnnotation`. -/
def addMonitorAnnotation {σ : Type} (E : Env σ) (cronJob : CronJob) (monitorID : String)
    (w : World σ) : Option String × World σ :=
  let r := E.Get cronJob.Namespace cronJob.Name w.state
  let w1 : World σ := ⟨r.2, w.trace ++ [Effect.clusterGet cronJob.Namespace cronJob.Name]⟩
  match r.1 with
  | .error err => (some err, w1)
  | .ok fresh =>
    let fresh := withMonitorID fresh monitorID
    let r2 := E.Update cronJob.Namespace fresh w1.state
    let w2 : World σ := ⟨r2.2, w1.trace ++ [Effect.clusterUpdate cronJob.Namespace fresh]⟩
    match r2.1 with
    | .error err => (some err, w2)
    | .ok _ => (none, w2)

/-- The method `syncCronJob`. -/
def syncCronJob {σ : Type} (E : Env σ) (cronJob : CronJob) (w : World σ) :
    Option String × World σ :=
  let monitorID := cronJob.Annotations.get AnnotationMonitorID
  let monitorSpec := syncCronJob.monitorSpec cronJob
  if monitorID != "" then
    let r := E.UpdateMonitor monitorID monitorSpec w.state
    let w1 : World σ := ⟨r.2, w.trace ++ [Effect.remoteUpdate monitorID monitorSpec]⟩
    match r.1 with
    | some err => (some ("failed to update monitor: " ++ err), w1)
    | none => (none, w1)
  else
    let r := E.CreateMonitor monitorSpec w.state
    let w1 : World σ := ⟨r.2, w.trace ++ [Effect.remoteCreate monitorSpec]⟩
    match r.1 with
    | .error err => (some ("failed to create monitor: " ++ err), w1)
    | .ok newMonitorID =>
      let r2 := addMonitorAnnotation E cronJob newMonitorID w1
      match r2.1 with
      | some err =>
        (none, { r2.2 with trace := r2.2.trace ++
          [Effect.logWarning ("Failed to add monitor ID annotation: " ++ err)] })
      | none => (none, r2.2)

/-- The method `deleteCronJobMonitor`. -/
def deleteCronJobMonitor {σ : Type} (E : Env σ) (cronJob : CronJob) (w : World σ) :
    Option String × World σ :=
  let monitorID := cronJob.Annotations.get AnnotationMonitorID
  if monitorID == "" then (none, w)
  else
    let r := E.DeleteMonitor monitorID w.state
    (r.1, ⟨r.2, w.trace ++ [Effect.remoteDelete monitorID]⟩)

/-- The method `handleEvent`. -/
def handleEvent {σ : Type} (E : Env σ) (event : Event) (w : World σ) : World σ :=
  match event.Object with
  | .other _ =>
    { w with trace := w.trace ++ [Effect.logWarning "Received non-CronJob object in watch event"] }
  | .cronJob cronJob =>
    match event.Typ with
    | .Added | .Modified =>
      if shouldSync cronJob then
        let r := syncCronJob E cronJob w
        match r.1 with
        | some err =>
          { r.2 with trace := r.2.trace ++ [Effect.logError ("Failed to sync CronJob " ++
              cronJob.Namespace ++ "/" ++ cronJob.Name ++ ": " ++ err)] }
        | none => r.2
      else w
    | .Deleted =>
      if shouldSync cronJob then
        let r := deleteCronJobMonitor E cronJob w
        match r.1 with
        | some err =>
          { r.2 with trace := r.2.trace ++ [Effect.logError ("Failed to delete monitor for CronJob "
              ++ cronJob.Namespace ++ "/" ++ cronJob.Name ++ ": " ++ err)] }
        | none => r.2
      else w
    | _ => w

/-- The body of the `for ... range cronJobs.Items` loop of `syncAll`, on the loop state made
of the counter `synced` and the world. -/
def syncAll.body {σ : Type} (E : Env σ) (st : Nat × World σ) (cronJob : CronJob) :
    Nat × World σ :=
  if shouldSync cronJob then
    let r := syncCronJob E cronJob st.2
    match r.1 with
    | some err =>
      (st.1, { r.2 with trace := r.2.trace ++ [Effect.logError ("Failed to sync CronJob " ++
          cronJob.Namespace ++ "/" ++ cronJob.Name ++ ": " ++ err)] })
    | none => (st.1 + 1, r.2)
  else st

/-- The loop of `syncAll` over the listed items, in list order. -/
def syncAll.loop {σ : Type} (E : Env σ) (items : List CronJob) (st : Nat × World σ) :
    Nat × World σ :=
  items.foldl (syncAll.body E) st

/-- The method `syncAll` of a watcher configured with namespace `ns`. -/
def syncAll {σ : Type} (E : Env σ) (ns : String) (w : World σ) : Option String × World σ :=
  let r := E.List ns w.state
  let w1 : World σ := ⟨r.2, w.trace ++ [Effect.clusterList ns]⟩
  match r.1 with
  | .error err => (some ("failed to list CronJobs: " ++ err), w1)
  | .ok items => (none, (syncAll.loop E items (0, w1)).2)

/-! ## The monitor manager (`pkg/monitor/manager.go`)

The HTTP client, the construction of requests and the JSON decoder are collaborators, given by
an environment `HTTPEnv σ`.  A request body is kept as the JSON object that `json.Marshal`
produces, a list of keys and values in the order of the struct fields. -/

/-- The fields of `config.Config` that the manager reads. -/
structure Config where
  Endpoint : String
  APIKey : String
  deriving DecidableEq, Repr

/-- The type `monitor.Monitor`. -/
structure Monitor where
  ID : String
  Name : String
  ScheduleType : String
  CronExpr : String
  Timezone : String
  GraceSec : Int
  Tags : List String
  deriving DecidableEq, Repr

/-- The JSON values that occur in an encoded `Monitor`. -/
inductive JSONValue where
  | string (s : String)
  | number (n : Int)
  | strings (xs : List String)
  deriving DecidableEq, Repr

/-- The result of `json.Marshal` on a `Monitor`, following its struct tags: `id`, `name`,
`scheduleType` and `graceSec` are always written, while `cronExpr`, `timezone` and `tags` carry
`omitempty` and are left out when empty.  The encoder cannot fail on this struct. -/
def Monitor.marshal (m : Monitor) : List (String × JSONValue) :=
  [("id", JSONValue.string m.ID), ("name", JSONValue.string m.Name),
    ("scheduleType", JSONValue.string m.ScheduleType)] ++
  (if m.CronExpr = "" then [] else [("cronExpr", JSONValue.string m.CronExpr)]) ++
  (if m.Timezone = "" then [] else [("timezone", JSONValue.string m.Timezone)]) ++
  [("graceSec", JSONValue.number m.GraceSec)] ++
  (if m.Tags = [] then [] else [("tags", JSONValue.strings m.Tags)])

/-- An HTTP request as the manager builds it. -/
structure Request where
  Method : String
  URL : String
  Header : List (String × String)
  Body : Option (List (String × JSONValue))
  deriving DecidableEq, Repr

/-- An HTTP response as the manager reads it: the status code, and the bytes and the error that
`io.ReadAll(resp.Body)` returns. -/
structure Response where
  StatusCode : Int
  Body : String
  ReadErr : Option String
  deriving DecidableEq, Repr

/-- The collaborators of the manager: `RequestError method url` is the error of
`http.NewRequestWithContext`, if any; `Do` is the round trip of the HTTP client; `Unmarshal` is
`json.Unmarshal` of a response body into a `Monitor`. -/
structure HTTPEnv (σ : Type) where
  RequestError : String → String → Option String
  Do : Request → σ → Except String Response × σ
  Unmarshal : String → Except String Monitor

/-- The state of the remote side together with the requests sent so far, oldest first. -/
structure HTTPWorld (σ : Type) where
  state : σ
  sent : List Request

/-- The value of `monitor` in `CreateMonitor` once the time zone has been copied. -/
def Manager.CreateMonitor.monitor (spec : MonitorSpec) : Monitor :=
  let monitor : Monitor :=
    { ID := "", Name := spec.Name, ScheduleType := spec.ScheduleType, CronExpr := spec.CronExpr,
      Timezone := "", GraceSec := spec.GraceSec, Tags := spec.Tags }
  match spec.Timezone with
  | some tz => { monitor with Timezone := tz }
  | none => monitor

/-- The request that `CreateMonitor` builds. -/
def Manager.CreateMonitor.request (config : Config) (spec : MonitorSpec) : Request :=
  { Method := "POST"
    URL := config.Endpoint ++ "/api/monitors"
    Header := [("Authorization", "Bearer " ++ config.APIKey),
      ("Content-Type", "application/json")]
    Body := some (Manager.CreateMonitor.monitor spec).marshal }

/-- The method `CreateMonitor` of the manager; the result is the pair of the identifier and the
error that the Go function returns. -/
def Manager.CreateMonitor {σ : Type} (H : HTTPEnv σ) (config : Config) (spec : MonitorSpec)
    (w : HTTPWorld σ) : (String × Option String) × HTTPWorld σ :=
  let req := Manager.CreateMonitor.request config spec
  match H.RequestError req.Method req.URL with
  | some err => (("", some ("failed to create request: " ++ err)), w)
  | none =>
    let r := H.Do req w.state
    let w1 : HTTPWorld σ := ⟨r.2, w.sent ++ [req]⟩
    match r.1 with
    | .error err => (("", some ("failed to send request: " ++ err)), w1)
    | .ok resp =>
      match resp.ReadErr with
      | some err => (("", some ("failed to read response: " ++ err)), w1)
      | none =>
        if resp.StatusCode < 200 ∨ resp.StatusCode ≥ 300 then
          (("", some ("API error " ++ toString resp.StatusCode ++ ": " ++ resp.Body)), w1)
        else
          match H.Unmarshal resp.Body with
          | .error err => (("", some ("failed to unmarshal response: " ++ err)), w1)
          | .ok created => ((created.ID, none), w1)

/-- The value of `monitor` in `UpdateMonitor` once the time zone has been copied. -/
def Manager.UpdateMonitor.monitor (spec : MonitorSpec) : Monitor :=
  let monitor : Monitor :=
    { ID := "", Name := spec.Name, ScheduleType := spec.ScheduleType, CronExpr := spec.CronExpr,
      Timezone := "", GraceSec := spec.GraceSec, Tags := spec.Tags }
  match spec.Timezone with
  | some tz => { monitor with Timezone := tz }
  | none => monitor

/-- The request that `UpdateMonitor` builds. -/
def Manager.UpdateMonitor.request (config : Config) (id : String) (spec : MonitorSpec) :
    Request :=
  { Method := "PATCH"
    URL := config.Endpoint ++ "/api/monitors/" ++ id
    Header := [("Authorization", "Bearer " ++ config.APIKey),
      ("Content-Type", "application/json")]
    Body := some (Manager.UpdateMonitor.monitor spec).marshal }

/-- The method `UpdateMonitor` of the manager.  The error of reading the body of a rejected
response is ignored and the bytes read are used. -/
def Manager.UpdateMonitor {σ : Type} (H : HTTPEnv σ) (config : Config) (id : String)
    (spec : MonitorSpec) (w : HTTPWorld σ) : Option String × HTTPWorld σ :=
  let req := Manager.UpdateMonitor.request config id spec
  match H.RequestError req.Method req.URL with
  | some err => (some ("failed to create request: " ++ err), w)
  | none =>
    let r := H.Do req w.state
    let w1 : HTTPWorld σ := ⟨r.2, w.sent ++ [req]⟩
    match r.1 with
    | .error err => (some ("failed to send request: " ++ err), w1)
    | .ok resp =>
      if resp.StatusCode < 200 ∨ resp.StatusCode ≥ 300 then
        (some ("API error " ++ toString resp.StatusCode ++ ": " ++ resp.Body), w1)
      else (none, w1)

/-- The request that `DeleteMonitor` builds. -/
def Manager.DeleteMonitor.request (config : Config) (id : String) : Request :=
  { Method := "DELETE"
    URL := config.Endpoint ++ "/api/monitors/" ++ id
    Header := [("Authorization", "Bearer " ++ config.APIKey)]
    Body := none }

/-- The method `DeleteMonitor` of the manager. -/
def Manager.DeleteMonitor {σ : Type} (H : HTTPEnv σ) (config : Config) (id : String)
    (w : HTTPWorld σ) : Option String × HTTPWorld σ :=
  let req := Manager.DeleteMonitor.request config id
  match H.RequestError req.Method req.URL with
  | some err => (some ("failed to create request: " ++ err), w)
  | none =>
    let r := H.Do req w.state
    let w1 : HTTPWorld σ := ⟨r.2, w.sent ++ [req]⟩
    match r.1 with
    | .error err => (some ("failed to send request: " ++ err), w1)
    | .ok resp =>
      if resp.StatusCode < 200 ∨ resp.StatusCode ≥ 300 then
        (some ("API error " ++ toString resp.StatusCode ++ ": " ++ resp.Body), w1)
      else (none, w1)

/-- The configuration used in the examples. -/
def exampleConfig : Config := ⟨"https://saturn.co", "key"⟩


/-! ## The event watcher

The loops `watchOnce` and `watchCronJobs` block on channels.  What a `select` statement
yields is decided by the outside world, so it is a collaborator: `Select` gives the case taken
by the `select` of `watchOnce`, `Done` tells whether `ctx.Done()` is ready when
`watchCronJobs` polls it.  Both loops are unbounded; they take a bound `fuel` on the number of
iterations and return `none` when it is exhausted before the loop is left. -/

/-- The case taken by the `select` statement of `watchOnce`: the context is done, the result
channel is closed, or an event is received. -/
inductive Selected where
  | done
  | closed
  | event (e : Event)
  deriving DecidableEq, Repr

/-- The collaborators of the event watcher: those of the reconciler, the state of the context,
the `Watch` operation of the cluster client (its error, if any), the `select` of `watchOnce`,
and the passing of time during `time.Sleep`. -/
structure WatchEnv (σ : Type) extends Env σ where
  Done : σ → Bool
  Watch : String → σ → Option String × σ
  Select : σ → Selected × σ
  Sleep : Nat → σ → σ

/-- The `for { select { ... } }` loop of `watchOnce` on an open subscription; the deferred
`watcher.Stop()` runs when it is left. -/
def watchOnce.loop {σ : Type} (E : WatchEnv σ) :
    Nat → World σ → Option (Option String × World σ)
  | 0, _ => none
  | fuel + 1, w =>
    match E.Select w.state with
    | (Selected.done, s) => some (none, ⟨s, w.trace ++ [Effect.watchStop]⟩)
    | (Selected.closed, s) =>
      some (some "watch channel closed", ⟨s, w.trace ++ [Effect.watchStop]⟩)
    | (Selected.event e, s) => watchOnce.loop E fuel (handleEvent E.toEnv e ⟨s, w.trace⟩)

/-- The method `watchOnce` of a watcher configured with namespace `ns`. -/
def watchOnce {σ : Type} (E : WatchEnv σ) (ns : String) (fuel : Nat) (w : World σ) :
    Option (Option String × World σ) :=
  let r := E.Watch ns w.state
  let w1 : World σ := ⟨r.2, w.trace ++ [Effect.clusterWatch ns]⟩
  match r.1 with
  | some err => some (some ("failed to create watcher: " ++ err), w1)
  | none => watchOnce.loop E fuel w1

/-- The method `watchCronJobs` of a watcher configured with namespace `ns`; the result is the
world in which it returns. -/
def watchCronJobs {σ : Type} (E : WatchEnv σ) (ns : String) : Nat → World σ → Option (World σ)
  | 0, _ => none
  | fuel + 1, w =>
    if E.Done w.state then some w
    else
      match watchOnce E ns fuel w with
      | none => none
      | some (some err, w1) =>
        watchCronJobs E ns fuel
          ⟨E.Sleep 5 w1.state,
            w1.trace ++ [Effect.logError ("Watch error: " ++ err), Effect.sleep 5]⟩
      | some (none, w1) => watchCronJobs E ns fuel w1

/-- A watch environment driven by a script: the state is the list of the cases that the
coming `select` statements of `watchOnce` take.  The context is done once the script is
exhausted or a `done` case has been taken; every other call succeeds and leaves the script as
it is. -/
def scriptEnv : WatchEnv (List Selected) where
  CreateMonitor := fun _ s => (Except.ok "m-1", s)
  UpdateMonitor := fun _ _ s => (none, s)
  DeleteMonitor := fun _ s => (none, s)
  List := fun _ s => (Except.ok [], s)
  Get := fun _ _ s => (Except.error "not found", s)
  Update := fun _ obj s => (Except.ok obj, s)
  Done := fun s => s.isEmpty
  Watch := fun _ s => (none, s)
  Select := fun s =>
    match s with
    | [] => (Selected.done, [])
    | Selected.done :: _ => (Selected.done, [])
    | c :: rest => (c, rest)
  Sleep := fun _ s => s


/-! ## The Kubernetes sidecar (`integrations/kubernetes/sidecar`)

The captured output is cut by byte offsets, so it is a list of bytes here.  A slice expression
whose bounds are out of range panics; a computation that may panic returns an `Option`, where
`none` is the panic. -/

/-- The type `Config` of the sidecar. -/
structure Sidecar.Config where
  SaturnAPI : String
  MonitorToken : String
  CronJobName : String
  Namespace : String
  PodName : String
  MainContainerName : String
  CaptureOutput : Bool
  MaxOutputBytes : Int
  deriving DecidableEq, Repr

/-- The Go slice expression `s[i:]` on a string: `none` when `i` is out of range. -/
def goSliceFrom (s : List UInt8) (i : Int) : Option (List UInt8) :=
  if 0 ≤ i ∧ i ≤ (s.length : Int) then some (s.drop i.toNat) else none

/-- The request that `sendPing` builds: `URL` is `pingURL`, `Params` are the query values in
the order in which they are added (the request is sent to `pingURL + "?" + params.Encode()`). -/
structure Sidecar.PingRequest where
  Method : String
  URL : String
  Params : List (String × String)
  Header : List (String × String)
  Body : Option (List UInt8)
  deriving DecidableEq, Repr

/-- The value of `params` in `sendPing`; `durationMs` is `none` for a nil pointer. -/
def Sidecar.sendPing.params (state : String) (exitCode : Int) (durationMs : Option Int) :
    List (String × String) :=
  [("state", state)] ++
  (if exitCode ≠ 0 ∨ state = "fail" then [("exitCode", toString exitCode)] else []) ++
  (match durationMs with
    | some d => [("durationMs", toString d)]
    | none => [])

/-- The request that `sendPing` builds, up to the call of `http.NewRequest`; `none` when the
truncation of the output panics. -/
def Sidecar.sendPing.request (config : Sidecar.Config) (state : String) (exitCode : Int)
    (output : List UInt8) (durationMs : Option Int) : Option Sidecar.PingRequest :=
  let pingURL := config.SaturnAPI ++ "/api/ping/" ++ config.MonitorToken
  let params := Sidecar.sendPing.params state exitCode durationMs
  if output ≠ [] ∧ config.CaptureOutput = true ∧ (state = "fail" ∨ state = "success") then
    match (if (output.length : Int) > config.MaxOutputBytes then
        goSliceFrom output ((output.length : Int) - config.MaxOutputBytes)
      else some output) with
    | none => none
    | some output =>
      some ⟨"POST", pingURL, params,
        [("Content-Type", "text/plain"), ("User-Agent", "Saturn-K8s-Sidecar/1.0")], some output⟩
  else
    some ⟨"GET", pingURL, params, [("User-Agent", "Saturn-K8s-Sidecar/1.0")], none⟩

/-- The collaborators of `sendPing`: the error of `http.NewRequest` for a method and the
request, if any, and the round trip of the HTTP client. -/
structure Sidecar.HTTP (σ : Type) where
  RequestError : Sidecar.PingRequest → Option String
  Do : Sidecar.PingRequest → σ → Except String Response × σ

/-- The function `sendPing` of the sidecar on a state of the outside world and the list of the
requests sent so far: its error, if any; `none` when it panics. -/
def Sidecar.sendPing {σ : Type} (H : Sidecar.HTTP σ) (config : Sidecar.Config) (state : String)
    (exitCode : Int) (output : List UInt8) (durationMs : Option Int)
    (w : σ × List Sidecar.PingRequest) :
    Option (Option String × (σ × List Sidecar.PingRequest)) :=
  match Sidecar.sendPing.request config state exitCode output durationMs with
  | none => none
  | some req =>
    match H.RequestError req with
    | some err =>
      some (some ("failed to create " ++ req.Method ++ " request: " ++ err), w)
    | none =>
      let r := H.Do req w.1
      let w1 := (r.2, w.2 ++ [req])
      match r.1 with
      | .error err => some (some ("failed to send ping: " ++ err), w1)
      | .ok resp =>
        if resp.StatusCode < 200 ∨ resp.StatusCode ≥ 300 then
          some (some ("ping API returned status " ++ toString resp.StatusCode ++ ": " ++
            resp.Body), w1)
        else some (none, w1)

/-- The method `captureContainerLogs`; `kubectl` gives the combined output of the `kubectl`
command run with the given arguments, or its error.  The result is `none` when the truncation
panics. -/
def Sidecar.captureContainerLogs (kubectl : List String → Except String (List UInt8))
    (config : Sidecar.Config) : Option (Except String (List UInt8)) :=
  match kubectl ["logs", config.PodName, "-n", config.Namespace, "-c",
      config.MainContainerName, "--tail=" ++ toString (Int.tdiv config.MaxOutputBytes 100)] with
  | .error err => some (Except.error ("failed to get logs: " ++ err))
  | .ok output =>
    let logs := output
    match (if (logs.length : Int) > config.MaxOutputBytes then
        goSliceFrom logs ((logs.length : Int) - config.MaxOutputBytes)
      else some logs) with
    | none => none
    | some logs => some (Except.ok logs)

/-- The state and the exit code that `main` passes to the final ping, decided from the exit
code and the error that `WatchMainContainer` returned. -/
def Sidecar.main.outcome (exitCode : Int) (err : Option String) : String × Int :=
  match err with
  | some _ => ("fail", if exitCode = 0 then 1 else exitCode)
  | none => if exitCode = 0 then ("success", exitCode) else ("fail", exitCode)

/-- The request of the final ping of `main`, for the results of `WatchMainContainer` and the
measured duration. -/
def Sidecar.main.finalPing (config : Sidecar.Config) (exitCode : Int) (output : List UInt8)
    (err : Option String) (durationMs : Int) : Option Sidecar.PingRequest :=
  Sidecar.sendPing.request config (Sidecar.main.outcome exitCode err).1
    (Sidecar.main.outcome exitCode err).2 output (some durationMs)

/-- The part of `main` from the decision on the state to the final ping: the error of the call
of `sendPing`, if any, on which `main` exits with status 1, and the requests sent; `none` when
`sendPing` panics. -/
def Sidecar.main.finish {σ : Type} (H : Sidecar.HTTP σ) (config : Sidecar.Config)
    (exitCode : Int) (output : List UInt8) (err : Option String) (durationMs : Int)
    (w : σ × List Sidecar.PingRequest) :
    Option (Option String × (σ × List Sidecar.PingRequest)) :=
  Sidecar.sendPing H config (Sidecar.main.outcome exitCode err).1
    (Sidecar.main.outcome exitCode err).2 output (some durationMs) w

/-- The configuration that `loadConfig` returns for the token `"tok"` with output capture
enabled and no other variable set, with a limit of 4 bytes in place of 10240. -/
def Sidecar.exampleConfig : Sidecar.Config :=
  ⟨"https://api.saturnmonitor.com", "tok", "unknown-cronjob", "default", "pod-1", "main", true, 4⟩

/-- An HTTP collaborator that accepts every request and answers each round trip with status
200; the state counts the round trips. -/
def Sidecar.okHTTP : Sidecar.HTTP Nat where
  RequestError := fun _ => none
  Do := fun _ s => (Except.ok ⟨200, "", none⟩, s + 1)


/-! ## The job-polling sidecar (`integrations/k8s-sidecar`)

Times are kept abstract: a time is an integer, the zero value of `time.Time` is `none`, and the
number of milliseconds between two times is given by the environment. -/

/-- The type `Config` of the job-polling sidecar (the durations are in seconds). -/
structure JobSidecar.Config where
  SaturnURL : String
  MonitorToken : String
  JobName : String
  Namespace : String
  CheckInterval : Int
  Timeout : Int
  deriving DecidableEq, Repr

/-- The fields of a `batchv1.Job` that `getJobStatus` reads. -/
structure JobSidecar.Job where
  Name : String
  Namespace : String
  Succeeded : Int
  Failed : Int
  Active : Int
  StartTime : Option Int
  CompletionTime : Option Int
  deriving DecidableEq, Repr

/-- The type `JobStatus`. -/
structure JobSidecar.JobStatus where
  Name : String
  Namespace : String
  Status : String
  StartTime : Option Int
  EndTime : Option Int
  Duration : Int
  ExitCode : Int
  Output : String
  deriving DecidableEq, Repr

/-- The type `SaturnPing`. -/
structure JobSidecar.SaturnPing where
  Token : String
  Status : String
  Duration : Int
  ExitCode : Int
  Output : String
  Timestamp : String
  deriving DecidableEq, Repr

/-- The collaborators of the job-polling sidecar: the `Get` of the job from the cluster, the
function `getJobOutput` (which lists the pods of the job and reads the logs of the first one),
the milliseconds of `EndTime.Sub(StartTime)`, the formatted current time, the error of
`http.NewRequest` for a URL, if any, and the round trip of the HTTP client for a ping. -/
structure JobSidecar.Env (σ : Type) where
  GetJob : String → String → σ → Except String JobSidecar.Job × σ
  JobOutput : σ → Except String String × σ
  Milliseconds : Option Int → Int → Int
  Now : σ → String
  RequestError : String → Option String
  Do : String → JobSidecar.SaturnPing → σ → Except String Response × σ

/-- The state of the outside world together with the pings sent so far, oldest first. -/
structure JobSidecar.World (σ : Type) where
  state : σ
  pings : List JobSidecar.SaturnPing

/-- The function `getJobStatus`. -/
def JobSidecar.getJobStatus {σ : Type} (E : JobSidecar.Env σ) (config : JobSidecar.Config)
    (w : JobSidecar.World σ) : Except String JobSidecar.JobStatus × JobSidecar.World σ :=
  let r := E.GetJob config.Namespace config.JobName w.state
  match r.1 with
  | .error err => (Except.error ("failed to get job: " ++ err), { w with state := r.2 })
  | .ok job =>
    let status : JobSidecar.JobStatus :=
      { Name := job.Name, Namespace := job.Namespace, Status := "unknown", StartTime := none,
        EndTime := none, Duration := 0, ExitCode := 0, Output := "" }
    let status :=
      if job.Succeeded > 0 then { status with Status := "success", ExitCode := 0 }
      else if job.Failed > 0 then { status with Status := "failed", ExitCode := 1 }
      else if job.Active > 0 then { status with Status := "running" }
      else { status with Status := "pending" }
    let status :=
      match job.StartTime with
      | some t => { status with StartTime := some t }
      | none => status
    let status :=
      match job.CompletionTime with
      | some t =>
        { status with EndTime := some t, Duration := E.Milliseconds status.StartTime t }
      | none => status
    if status.Status = "success" ∨ status.Status = "failed" then
      let o := E.JobOutput r.2
      match o.1 with
      | .ok output => (Except.ok { status with Output := output }, { w with state := o.2 })
      | .error _ => (Except.ok status, { w with state := o.2 })
    else (Except.ok status, { w with state := r.2 })

/-- The function `sendPing` of the job-polling sidecar. -/
def JobSidecar.sendPing {σ : Type} (E : JobSidecar.Env σ) (config : JobSidecar.Config)
    (status : String) (duration : Int) (exitCode : Int) (output : String)
    (w : JobSidecar.World σ) : Option String × JobSidecar.World σ :=
  let ping : JobSidecar.SaturnPing :=
    { Token := config.MonitorToken, Status := status, Duration := duration,
      ExitCode := exitCode, Output := output, Timestamp := E.Now w.state }
  let url := config.SaturnURL ++ "/api/ping"
  match E.RequestError url with
  | some err => (some ("failed to create request: " ++ err), w)
  | none =>
    let r := E.Do url ping w.state
    let w1 : JobSidecar.World σ := ⟨r.2, w.pings ++ [ping]⟩
    match r.1 with
    | .error err => (some ("failed to send ping: " ++ err), w1)
    | .ok resp =>
      if resp.StatusCode ≥ 400 then
        (some ("ping failed with status " ++ toString resp.StatusCode ++ ": " ++ resp.Body), w1)
      else (none, w1)

/-- The function `handleJobStatus`. -/
def JobSidecar.handleJobStatus {σ : Type} (E : JobSidecar.Env σ) (config : JobSidecar.Config)
    (status : JobSidecar.JobStatus) (w : JobSidecar.World σ) :
    Option String × JobSidecar.World σ :=
  if status.Status = "success" then
    JobSidecar.sendPing E config "success" status.Duration status.ExitCode status.Output w
  else if status.Status = "failed" then
    JobSidecar.sendPing E config "failed" status.Duration status.ExitCode status.Output w
  else if status.Status = "running" then (none, w)
  else if status.Status = "pending" then (none, w)
  else (none, w)

/-- An environment of the job-polling sidecar in which the cluster returns `job`, the logs are
`"done"`, and every ping is accepted with status 200. -/
def JobSidecar.okEnv (job : JobSidecar.Job) : JobSidecar.Env Nat where
  GetJob := fun _ _ s => (Except.ok job, s + 1)
  JobOutput := fun s => (Except.ok "done", s + 1)
  Milliseconds := fun start stop => stop - start.getD 0
  Now := fun _ => "2024-01-01T00:00:00Z"
  RequestError := fun _ => none
  Do := fun _ _ s => (Except.ok ⟨200, "", none⟩, s + 1)

/-- The configuration of the job-polling sidecar used in the examples. -/
def JobSidecar.exampleConfig : JobSidecar.Config :=
  ⟨"https://api.saturn.sh", "tok", "backup", "default", 30, 300⟩


/-! ## The controller (`Run`)

`Run` performs the initial resync, starts the event watcher as a goroutine and enters its
ticker loop; from then on the two run concurrently.  What happens next, the next iteration of
the ticker loop or the next iteration of the loop of the watcher, is decided by the Go
scheduler, the ticker and the context: it is given by a schedule, a list of turns, each turn
being one iteration of one of the two loops taken as a whole.  A run is observed until `Run`
returns or the schedule ends. -/

/-- One turn of a run once the watcher has been started: the `select` of `Run` receives a tick
and runs a periodic resync; the `select` of `Run` finds the context done and `Run` returns; or
the watcher goroutine runs one iteration of the loop of `watchCronJobs`, in which `watchOnce`
handles at most `fuel` events. -/
inductive Turn where
  | tick
  | stop
  | watch (fuel : Nat)
  deriving DecidableEq, Repr

/-- One iteration of the loop of `watchCronJobs`: the world after it and whether the loop has
returned; `none` when `fuel` does not suffice for the call of `watchOnce`. -/
def watchCronJobs.iteration {σ : Type} (E : WatchEnv σ) (ns : String) (fuel : Nat)
    (w : World σ) : Option (Bool × World σ) :=
  if E.Done w.state then some (true, w)
  else
    match watchOnce E ns fuel w with
    | none => none
    | some (some err, w1) =>
      some (false, ⟨E.Sleep 5 w1.state,
        w1.trace ++ [Effect.logError ("Watch error: " ++ err), Effect.sleep 5]⟩)
    | some (none, w1) => some (false, w1)

/-- The part of `Run` before the watcher is started: the initial resync and the logging of its
error. -/
def Run.initial {σ : Type} (E : WatchEnv σ) (ns : String) (w : World σ) : World σ :=
  let r := syncAll E.toEnv ns w
  match r.1 with
  | some err => { r.2 with trace := r.2.trace ++ [Effect.logError ("Initial sync failed: " ++ err)] }
  | none => r.2

/-- The part of `Run` after the watcher has been started, along a schedule; `watching` tells
whether the watcher goroutine is still running. -/
def Run.loop {σ : Type} (E : WatchEnv σ) (ns : String) :
    List Turn → Bool → World σ → Option (World σ)
  | [], _, w => some w
  | Turn.stop :: _, _, w => some w
  | Turn.tick :: rest, watching, w =>
    let r := syncAll E.toEnv ns w
    let w1 : World σ :=
      match r.1 with
      | some err =>
        { r.2 with trace := r.2.trace ++ [Effect.logError ("Periodic sync failed: " ++ err)] }
      | none => r.2
    Run.loop E ns rest watching w1
  | Turn.watch fuel :: rest, watching, w =>
    if watching then
      match watchCronJobs.iteration E ns fuel w with
      | none => none
      | some (returned, w1) => Run.loop E ns rest (!returned) w1
    else Run.loop E ns rest watching w

/-- The method `Run` of a watcher configured with namespace `ns`, along a schedule. -/
def Run {σ : Type} (E : WatchEnv σ) (ns : String) (schedule : List Turn) (w : World σ) :
    Option (World σ) :=
  Run.loop E ns schedule true (Run.initial E ns w)

/-- A watch environment in which the cluster lists no object, the first call of `Watch` (in
state 0) is refused and the later ones succeed, and the context is done once the `select` of
`watchOnce` has run. -/
def flakyWatchEnv : WatchEnv Nat where
  CreateMonitor := fun _ s => (Except.ok "m-1", s)
  UpdateMonitor := fun _ _ s => (none, s)
  DeleteMonitor := fun _ s => (none, s)
  List := fun _ s => (Except.ok [], s)
  Get := fun _ _ s => (Except.error "not found", s)
  Update := fun _ obj s => (Except.ok obj, s)
  Done := fun s => decide (2 ≤ s)
  Watch := fun _ s => if s = 0 then (some "forbidden", 1) else (none, s)
  Select := fun _ => (Selected.done, 2)
  Sleep := fun _ s => s


/-! ## A concrete environment -/

/-- An environment in which every call succeeds: the remote create returns `id`, the cluster
returns `fresh` on `Get` and as the only listed object, and `Update` returns the object it is
given.  The state counts the calls made. -/
def okEnv (id : String) (fresh : CronJob) : Env Nat where
  CreateMonitor := fun _ s => (Except.ok id, s + 1)
  UpdateMonitor := fun _ _ s => (none, s + 1)
  DeleteMonitor := fun _ s => (none, s + 1)
  List := fun _ s => (Except.ok [fresh], s + 1)
  Get := fun _ _ s => (Except.ok fresh, s + 1)
  Update := fun _ obj s => (Except.ok obj, s + 1)

/-- An eligible CronJob without a monitor-id annotation. -/
def pendingJob : CronJob :=
  ⟨"ops", "backup", some [("saturn.co/enabled", "true")], ⟨"0 3 * * *", none⟩, "rv1"⟩

/-- An eligible CronJob with the monitor-id annotation `"m-1"`. -/
def managedJob : CronJob :=
  ⟨"ops", "backup", some [("saturn.co/monitor-id", "m-1"), ("saturn.co/enabled", "true")],
    ⟨"0 3 * * *", none⟩, "rv2"⟩

/-- A CronJob whose monitor-id annotation is present with the empty string as value. -/
def emptyIdJob : CronJob :=
  ⟨"ops", "backup", some [("saturn.co/monitor-id", ""), ("saturn.co/enabled", "true")],
    ⟨"0 3 * * *", none⟩, "rv1"⟩

/-- A newer copy of `pendingJob` as the cluster holds it: another schedule, other remaining
fields, and a nil annotation map. -/
def fresherJob : CronJob :=
  ⟨"ops", "backup", none, ⟨"30 3 * * *", some "Europe/Paris"⟩, "rv4"⟩

/-- A CronJob that is not eligible. -/
def unmanagedJob : CronJob :=
  ⟨"ops", "report", some [("saturn.co/enabled", "false")], ⟨"*/5 * * * *", none⟩, "rv7"⟩

/-! ## Environments in which calls fail -/

/-- An environment in which the remote calls succeed (the create returns `id`) and every call
to the cluster API fails. -/
def noPersistEnv (id : String) : Env Nat where
  CreateMonitor := fun _ s => (Except.ok id, s + 1)
  UpdateMonitor := fun _ _ s => (none, s + 1)
  DeleteMonitor := fun _ s => (none, s + 1)
  List := fun _ s => (Except.error "connection refused", s + 1)
  Get := fun _ _ s => (Except.error "connection refused", s + 1)
  Update := fun _ _ s => (Except.error "connection refused", s + 1)

/-- An environment in which every remote call fails, while the cluster lists `items` and
accepts every write. -/
def remoteDownEnv (items : List CronJob) : Env Nat where
  CreateMonitor := fun _ s => (Except.error "API error 503: unavailable", s + 1)
  UpdateMonitor := fun _ _ s => (some "API error 503: unavailable", s + 1)
  DeleteMonitor := fun _ s => (some "API error 503: unavailable", s + 1)
  List := fun _ s => (Except.ok items, s + 1)
  Get := fun _ _ s => (Except.error "not found", s + 1)
  Update := fun _ obj s => (Except.ok obj, s + 1)

/-! ## Spec-side notions used by the properties -/

/-- Whether a list of runes starts, after leading blanks other than a newline and an optional
`+`, with a run of decimal digits one of which is not `0`, that is, with the decimal digits of
a positive integer. -/
def positiveDecimalPrefix (l : List Char) : Bool :=
  let s := l.dropWhile (fun c => isSpace c && c != '\n')
  let s1 := if s.head? = some '+' then s.tail else s
  (s1.takeWhile decimalDigits.contains).any (fun c => c != '0')

/-- Whether an annotation value starts with a positive decimal integer in the sense of
`positiveDecimalPrefix`. -/
def startsWithPositiveDecimal (v : String) : Bool :=
  positiveDecimalPrefix v.toList

/-- The one remote call by which an object is reconciled: the update of the monitor whose
identifier the object records, or the create of a monitor when it records none. -/
def upsertCall (cronJob : CronJob) : Effect :=
  if cronJob.Annotations.get AnnotationMonitorID = "" then
    Effect.remoteCreate (syncCronJob.monitorSpec cronJob)
  else
    Effect.remoteUpdate (cronJob.Annotations.get AnnotationMonitorID)
      (syncCronJob.monitorSpec cronJob)

/-- The subscription attempts and sleeps of `k` rounds of the watcher that end in a backoff:
in each round one subscription attempt, then one sleep of 5 seconds. -/
def backoffRounds (ns : String) : Nat → List Effect
  | 0 => []
  | k + 1 => Effect.clusterWatch ns :: Effect.sleep 5 :: backoffRounds ns k

/-- The world in which the loop of `watchOnce` stands after its `select` has received `n`
events in a row and each of them has been handled; `none` when one of these `select`s takes
another case. -/
def afterEvents {σ : Type} (E : WatchEnv σ) : Nat → World σ → Option (World σ)
  | 0, w => some w
  | n + 1, w =>
    match E.Select w.state with
    | (Selected.event e, s) => afterEvents E n (handleEvent E.toEnv e ⟨s, w.trace⟩)
    | _ => none

/-- The last `min (length s) n` bytes of a string of bytes. -/
def lastBytes (s : List UInt8) (n : Nat) : List UInt8 :=
  s.drop (s.length - min s.length n)

/-- The value denoted by a run of decimal digits read after the accumulated value `acc`. -/
def decimalValue (ds : List Char) (acc : Nat) : Nat :=
  ds.foldl (fun n c => n * 10 + (c.toNat - '0'.toNat)) acc

/-! ## Properties -/

/-! ### Decimal digits -/

theorem decimalDigits_eq :
    decimalDigits = ['0', '1', '2', '3', '4', '5', '6', '7', '8', '9'] := by
  decide

theorem digit_cases {c : Char} (h : decimalDigits.contains c = true) :
    c = '0' ∨ c = '1' ∨ c = '2' ∨ c = '3' ∨ c = '4' ∨ c = '5' ∨ c = '6' ∨ c = '7' ∨
      c = '8' ∨ c = '9' := by
  rw [decimalDigits_eq] at h
  simpa using h

theorem digit_range {c : Char} (h : decimalDigits.contains c = true) : '0' ≤ c ∧ c ≤ '9' := by
  rcases digit_cases h with h | h | h | h | h | h | h | h | h | h <;> subst h <;> decide

theorem digit_not_space {c : Char} (h : decimalDigits.contains c = true) : isSpace c = false := by
  rcases digit_cases h with h | h | h | h | h | h | h | h | h | h <;> subst h <;> decide

theorem digit_not_sign {c : Char} (h : decimalDigits.contains c = true) :
    sign.contains c = false := by
  rcases digit_cases h with h | h | h | h | h | h | h | h | h | h <;> subst h <;> decide

theorem digit_not_newline {c : Char} (h : decimalDigits.contains c = true) :
    (c == '\r') = false ∧ (c == '\n') = false := by
  rcases digit_cases h with h | h | h | h | h | h | h | h | h | h <;> subst h <;> decide

theorem digitChar_mem {d : Nat} (h : d < 10) : decimalDigits.contains (Nat.digitChar d) = true := by
  interval_cases d <;> decide

theorem digitChar_val {d : Nat} (h : d < 10) : (Nat.digitChar d).toNat - '0'.toNat = d := by
  interval_cases d <;> decide

theorem digit_not_plus_minus {c : Char} (h : decimalDigits.contains c = true) :
    (c == '+') = false ∧ (c == '-') = false := by
  rcases digit_cases h with h | h | h | h | h | h | h | h | h | h <;> subst h <;> decide

theorem decimalValue_cons (c : Char) (cs : List Char) (acc : Nat) :
    decimalValue (c :: cs) acc = decimalValue cs (acc * 10 + (c.toNat - '0'.toNat)) := rfl

theorem decimalValue_append (xs ys : List Char) (acc : Nat) :
    decimalValue (xs ++ ys) acc = decimalValue ys (decimalValue xs acc) := by
  simp [decimalValue, List.foldl_append]

theorem le_decimalValue (ds : List Char) (acc : Nat) : acc ≤ decimalValue ds acc := by
  induction ds generalizing acc with
  | nil => simp [decimalValue]
  | cons c cs ih =>
    rw [decimalValue_cons]
    have := ih (acc * 10 + (c.toNat - '0'.toNat))
    omega

/-- On a run of digits whose value fits 64 bits, the digit loop of `ParseUint` returns the value. -/
theorem ParseUint_loop_eq (ds : List Char) (acc : Nat)
    (hd : ∀ c ∈ ds, decimalDigits.contains c = true) (hv : decimalValue ds acc < 2 ^ 64) :
    ParseUint.loop ds acc = some (decimalValue ds acc) := by
  induction ds generalizing acc with
  | nil => simp [ParseUint.loop, decimalValue]
  | cons c cs ih =>
    have hc := digit_range (hd c (List.mem_cons_self c cs))
    rw [decimalValue_cons] at hv ⊢
    have hle := le_decimalValue cs (acc * 10 + (c.toNat - '0'.toNat))
    have hlt : ¬ (acc * 10 + (c.toNat - '0'.toNat) ≥ 2 ^ 64) := by omega
    simp only [ParseUint.loop, hc, and_self, if_true, hlt, if_false]
    exact ih _ (fun x hx => hd x (List.mem_cons_of_mem c hx)) hv

/-- The digits that `Nat.toDigitsCore` puts in front of its accumulator are decimal digits
denoting the number. -/
theorem toDigitsCore_spec (fuel n : Nat) (ds : List Char) (h : n < fuel) :
    ∃ pre, Nat.toDigitsCore 10 fuel n ds = pre ++ ds ∧ pre ≠ [] ∧
      (∀ c ∈ pre, decimalDigits.contains c = true) ∧ decimalValue pre 0 = n := by
  induction fuel generalizing n ds with
  | zero => omega
  | succ fuel ih =>
    have hmod : n % 10 < 10 := Nat.mod_lt _ (by decide)
    unfold Nat.toDigitsCore
    by_cases h0 : n / 10 = 0
    · refine ⟨[Nat.digitChar (n % 10)], by simp [h0], by simp, ?_, ?_⟩
      · intro c hc
        rw [List.mem_singleton] at hc
        subst hc
        exact digitChar_mem hmod
      · simp only [decimalValue, List.foldl_cons, List.foldl_nil, digitChar_val hmod]
        omega
    · obtain ⟨pre, hpre, -, hdig, hval⟩ :=
        ih (n / 10) (Nat.digitChar (n % 10) :: ds) (by omega)
      refine ⟨pre ++ [Nat.digitChar (n % 10)], by simp [h0, hpre], by simp, ?_, ?_⟩
      · intro c hc
        rcases List.mem_append.1 hc with hc | hc
        · exact hdig c hc
        · rw [List.mem_singleton] at hc
          subst hc
          exact digitChar_mem hmod
      · rw [decimalValue_append, hval]
        simp only [decimalValue, List.foldl_cons, List.foldl_nil, digitChar_val hmod]
        omega

/-- The decimal string of a natural number is a non-empty run of decimal digits denoting it. -/
theorem toString_nat_spec (n : Nat) :
    (toString n).toList ≠ [] ∧ (∀ c ∈ (toString n).toList, decimalDigits.contains c = true) ∧
      decimalValue (toString n).toList 0 = n := by
  obtain ⟨pre, hpre, hne, hdig, hval⟩ := toDigitsCore_spec (n + 1) n [] (Nat.lt_succ_self n)
  have : (toString n).toList = pre := by
    show (Nat.toDigits 10 n) = pre
    simpa [Nat.toDigits] using hpre
  rw [this]
  exact ⟨hne, hdig, hval⟩

theorem SkipSpace_digit (c : Char) (cs : List Char) (h : decimalDigits.contains c = true) :
    SkipSpace (c :: cs) = some (c :: cs) := by
  have h1 := digit_not_newline h
  have h2 := digit_not_space h
  simp [SkipSpace, h1.1, h1.2, h2]

/-- Scanning the decimal string of a number that fits a Go `int` yields that number. -/
theorem Sscanf_d_toString (n : Nat) (hn : n < 2 ^ 63) : Sscanf_d (toString n) = some (n : Int) := by
  obtain ⟨hne, hdig, hval⟩ := toString_nat_spec n
  have hlen : (toString n).toList.length ≤ 19 := by
    have h19 : n < 10 ^ 19 := lt_trans hn (by norm_num)
    exact Nat.repr_length n 19 (by decide) h19
  have htake : (toString n).toList.take hugeWid = (toString n).toList :=
    List.take_of_length_le (le_trans hlen (by unfold hugeWid; norm_num))
  unfold Sscanf_d
  rw [htake]
  generalize (toString n).toList = l at hne hdig hval
  cases l with
  | nil => exact absurd rfl hne
  | cons c cs =>
    have hc : decimalDigits.contains c = true := hdig c (List.mem_cons_self c cs)
    have hcs : ∀ x ∈ cs, decimalDigits.contains x = true :=
      fun x hx => hdig x (List.mem_cons_of_mem c hx)
    have htw : cs.takeWhile decimalDigits.contains = cs := List.takeWhile_eq_self_iff.2 hcs
    have hpm := digit_not_plus_minus hc
    have hloop : ParseUint.loop (c :: cs) 0 = some n := by
      rw [ParseUint_loop_eq (c :: cs) 0 hdig (by rw [hval]; omega), hval]
    have hpow : (2 : Nat) ^ 63 = 9223372036854775808 := by norm_num
    have hcut : ¬ (9223372036854775808 ≤ n) := by omega
    have hr1 : -(9223372036854775808 : Int) ≤ (n : Int) := by omega
    have hr2 : (n : Int) < (9223372036854775808 : Int) := by omega
    have hc1 : c ∈ decimalDigits := by simpa using hc
    have hc2 : c ∉ sign := by simpa using digit_not_sign hc
    have hc3 : ¬ c = '+' := by simpa using hpm.1
    have hc4 : ¬ c = '-' := by simpa using hpm.2
    simp [SkipSpace_digit c cs hc, scanInt, scanNumber, hc1, hc2, hc3, hc4, htw, ParseInt,
      ParseUint, hloop, hcut, intBits, hr1, hr2]

/-! ### What the scanner accepts -/

theorem SkipSpace_eq_dropWhile (l l1 : List Char) (h : SkipSpace l = some l1) :
    l1 = l.dropWhile (fun c => isSpace c && c != '\n') := by
  induction l with
  | nil =>
    simp [SkipSpace] at h
    simp [h]
  | cons r rest ih =>
    rw [SkipSpace] at h
    split at h
    · rename_i hcr
      have hr : r = '\r' := by
        simp only [Bool.and_eq_true, beq_iff_eq] at hcr
        exact hcr.1
      subst hr
      rw [List.dropWhile_cons_of_pos (by decide)]
      exact ih h
    · split at h
      · exact absurd h (by simp)
      · rename_i hnl
        split at h
        · rename_i hsp
          have hb : (isSpace r && r != '\n') = false := by
            simp only [Bool.not_eq_true', ] at hsp
            simp [hsp]
          rw [List.dropWhile_cons_of_neg (by simp [hb])]
          exact (Option.some.inj h).symm
        · rename_i hsp
          have hb : (isSpace r && r != '\n') = true := by
            simp only [Bool.not_eq_true', Bool.not_eq_false] at hsp
            simp only [beq_iff_eq] at hnl
            simp [hsp, hnl]
          have e : List.dropWhile (fun c => isSpace c && c != '\n') (r :: rest) =
              List.dropWhile (fun c => isSpace c && c != '\n') rest := by
            simp only [List.dropWhile_cons, hb, if_true]
          rw [e]
          exact ih h

theorem SkipSpace_idem (l l1 : List Char) (h : SkipSpace l = some l1) :
    SkipSpace l1 = some l1 := by
  induction l with
  | nil =>
    simp [SkipSpace] at h
    subst h
    simp [SkipSpace]
  | cons r rest ih =>
    have h0 := h
    rw [SkipSpace] at h
    split at h
    · exact ih h
    · split at h
      · exact absurd h (by simp)
      · split at h
        · have := Option.some.inj h
          subst this
          exact h0
        · exact ih h

theorem ParseUint_loop_zeros (ds : List Char) (h : ds.any (fun c => c != '0') = false) :
    ParseUint.loop ds 0 = some 0 := by
  induction ds with
  | nil => simp [ParseUint.loop]
  | cons c cs ih =>
    simp only [List.any_cons, Bool.or_eq_false_iff] at h
    have hc : c = '0' := by simpa using h.1
    subst hc
    have : ParseUint.loop ('0' :: cs) 0 = ParseUint.loop cs 0 := by
      rw [ParseUint.loop]
      simp
    rw [this]
    exact ih h.2

theorem ParseUint_pos (s : List Char) (un : Nat) (h : ParseUint s = some un) (hpos : 0 < un) :
    s.any (fun c => c != '0') = true := by
  by_contra hany
  have hz := ParseUint_loop_zeros s (by simpa using hany)
  cases s with
  | nil => simp [ParseUint] at h
  | cons c cs =>
    simp only [ParseUint] at h
    rw [hz] at h
    have := Option.some.inj h
    omega

theorem ParseInt_minus (tok : List Char) (g : Int) (h : ParseInt ('-' :: tok) = some g) :
    g ≤ 0 := by
  simp [ParseInt] at h
  cases hu : ParseUint tok with
  | none => simp [hu] at h
  | some un =>
    simp only [hu] at h
    split at h
    · exact absurd h (by simp)
    · have hg := Option.some.inj h
      omega

theorem ParseInt_pos (c : Char) (tok : List Char) (g : Int) (hc : c ≠ '-')
    (h : ParseInt (c :: tok) = some g) (hg : 0 < g) :
    (if c = '+' then tok else c :: tok).any (fun c => c != '0') = true := by
  simp [ParseInt, hc] at h
  cases hu : ParseUint (if c = '+' then tok else c :: tok) with
  | none => simp [hu] at h
  | some un =>
    simp only [hu] at h
    split at h
    · exact absurd h (by simp)
    · have hgu := Option.some.inj h
      exact ParseUint_pos _ un hu (by omega)

theorem scanNumber_some (l tok : List Char) (h : scanNumber l = some tok) :
    tok = l.takeWhile decimalDigits.contains := by
  cases l with
  | nil => simp [scanNumber] at h
  | cons r rest =>
    simp only [scanNumber] at h
    split at h
    · rename_i hr
      rw [List.takeWhile_cons_of_pos hr]
      exact (Option.some.inj h).symm
    · exact absurd h (by simp)

theorem sign_cases {c : Char} (h : sign.contains c = true) : c = '+' ∨ c = '-' := by
  have : sign = ['+', '-'] := by decide
  rw [this] at h
  simpa using h

/-- A positive result of `scanInt` on input without leading blanks comes from a run of digits,
possibly after a `+`, one of which is not `0`. -/
theorem scanInt_positive (l1 : List Char) (bits : Nat) (g : Int) (hs : SkipSpace l1 = some l1)
    (h : scanInt l1 bits = some g) (hg : 0 < g) :
    (((if l1.head? = some '+' then l1.tail else l1).takeWhile decimalDigits.contains).any
      (fun c => c != '0')) = true := by
  cases l1 with
  | nil => simp [scanInt, hs] at h
  | cons r rest =>
    simp only [scanInt, hs] at h
    by_cases hsg : sign.contains r = true
    · simp only [hsg, if_true, List.singleton_append] at h
      cases hn : scanNumber rest with
      | none => simp [hn] at h
      | some tok =>
        simp only [hn] at h
        have htok := scanNumber_some rest tok hn
        cases hp : ParseInt (r :: tok) with
        | none => simp [hp] at h
        | some i =>
          simp only [hp] at h
          split at h
          · have hi := Option.some.inj h
            subst hi
            rcases sign_cases hsg with hr | hr
            · subst hr
              have hany := ParseInt_pos '+' tok i (by decide) hp hg
              simp only [if_true] at hany
              simpa [htok] using hany
            · subst hr
              have := ParseInt_minus tok i hp
              omega
          · exact absurd h (by simp)
    · have hplus : r ≠ '+' := by
        intro hr
        subst hr
        exact hsg (by decide)
      have hminus : r ≠ '-' := by
        intro hr
        subst hr
        exact hsg (by decide)
      have hsg1 : sign.contains r = false := by simpa using hsg
      simp only [hsg1, Bool.false_eq_true, if_false, List.nil_append] at h
      cases hn : scanNumber (r :: rest) with
      | none => simp [hn] at h
      | some tok =>
        simp only [hn] at h
        have htok := scanNumber_some (r :: rest) tok hn
        cases hp : ParseInt tok with
        | none => simp [hp] at h
        | some i =>
          simp only [hp] at h
          split at h
          · have hi := Option.some.inj h
            subst hi
            cases tok with
            | nil => simp [ParseInt] at hp
            | cons c tok1 =>
              have hcr : c = r := by
                cases hq : decimalDigits.contains r with
                | true =>
                  rw [List.takeWhile_cons_of_pos hq] at htok
                  exact (List.cons.inj htok).1
                | false =>
                  rw [List.takeWhile_cons_of_neg (by rw [hq]; simp)] at htok
                  exact absurd htok (by simp)
              subst hcr
              have hany := ParseInt_pos c tok1 i hminus hp hg
              simp only [hplus, if_false] at hany
              have hne : ¬ (some c = some '+') := by simpa using hplus
              simp only [List.head?_cons, hne, if_false]
              rw [← htok]
              exact hany
          · exact absurd h (by simp)

theorem dropWhile_append_of_ne_nil (p : Char → Bool) (a b : List Char)
    (h : a.dropWhile p ≠ []) : (a ++ b).dropWhile p = a.dropWhile p ++ b := by
  induction a with
  | nil => exact absurd rfl h
  | cons x xs ih =>
    by_cases hx : p x = true
    · rw [List.dropWhile_cons_of_pos hx] at h ⊢
      rw [List.cons_append, List.dropWhile_cons_of_pos hx]
      exact ih h
    · rw [List.dropWhile_cons_of_neg hx, List.cons_append, List.dropWhile_cons_of_neg hx]

theorem takeWhile_any_append (q f : Char → Bool) (x b : List Char)
    (h : (x.takeWhile q).any f = true) : ((x ++ b).takeWhile q).any f = true := by
  induction x with
  | nil => simp at h
  | cons y ys ih =>
    by_cases hy : q y = true
    · rw [List.takeWhile_cons_of_pos hy, List.any_cons] at h
      rw [List.cons_append, List.takeWhile_cons_of_pos hy, List.any_cons]
      rcases Bool.or_eq_true _ _ ▸ h with h1 | h1
      · simp [h1]
      · simp [ih h1]
    · rw [List.takeWhile_cons_of_neg hy] at h
      simp at h

theorem positiveDecimalPrefix_append (a b : List Char) (h : positiveDecimalPrefix a = true) :
    positiveDecimalPrefix (a ++ b) = true := by
  unfold positiveDecimalPrefix at h ⊢
  simp only at h ⊢
  cases hd : a.dropWhile (fun c => isSpace c && c != '\n') with
  | nil =>
    rw [hd] at h
    simp at h
  | cons c t =>
    rw [dropWhile_append_of_ne_nil _ a b (by simp [hd]), hd]
    rw [hd] at h
    simp only [List.head?_cons, List.tail_cons, List.cons_append] at h ⊢
    by_cases hc : c = '+'
    · subst hc
      simp only [if_true] at h ⊢
      exact takeWhile_any_append _ _ t b h
    · have hne : ¬ (some c = some '+') := by simpa using hc
      simp only [hne, if_false] at h ⊢
      exact takeWhile_any_append _ _ (c :: t) b h

/-- A positive result of `Sscanf_d` comes from a value that starts with a positive decimal. -/
theorem Sscanf_d_positive (v : String) (g : Int) (h : Sscanf_d v = some g) (hg : 0 < g) :
    startsWithPositiveDecimal v = true := by
  have hdef : Sscanf_d v = match SkipSpace (v.data.take hugeWid) with
    | none => none
    | some input => scanInt input intBits := rfl
  rw [hdef] at h
  show positiveDecimalPrefix v.data = true
  cases hsk : SkipSpace (v.data.take hugeWid) with
  | none =>
    rw [hsk] at h
    exact absurd h (by simp)
  | some l1 =>
    rw [hsk] at h
    have hdrop := SkipSpace_eq_dropWhile _ l1 hsk
    have hidem := SkipSpace_idem _ l1 hsk
    have hpos := scanInt_positive l1 intBits g hidem h hg
    have htake : positiveDecimalPrefix (v.data.take hugeWid) = true := by
      unfold positiveDecimalPrefix
      simp only
      rw [← hdrop]
      exact hpos
    have := positiveDecimalPrefix_append _ (v.data.drop hugeWid) htake
    rw [List.take_append_drop] at this
    exact this

/-! ### Reconciliation: shared lemmas -/

theorem syncCronJob_ok_of_remote_ok {σ : Type} (E : Env σ) (cronJob : CronJob) (w : World σ)
    (hu : ∀ id sp s, (E.UpdateMonitor id sp s).1 = none)
    (hc : ∀ sp s, ∃ id, (E.CreateMonitor sp s).1 = Except.ok id) :
    (syncCronJob E cronJob w).1 = none := by
  unfold syncCronJob
  simp only
  split
  · rw [hu]
  · obtain ⟨id, hid⟩ := hc (syncCronJob.monitorSpec cronJob) w.state
    rw [hid]
    simp only
    split <;> rfl

/-! ### Eligibility and translation -/

theorem shouldSync_true_iff (cronJob : CronJob) :
    shouldSync cronJob = true ↔
      (cronJob.Annotations.lookup AnnotationEnabled = some "true" ∨
        ∃ v, cronJob.Annotations.lookup AnnotationMonitorID = some v) := by
  unfold shouldSync
  cases he : cronJob.Annotations.lookup AnnotationEnabled with
  | none =>
    cases hm : cronJob.Annotations.lookup AnnotationMonitorID <;> simp
  | some enabled =>
    cases hm : cronJob.Annotations.lookup AnnotationMonitorID <;>
      by_cases ht : enabled = "true" <;> simp [ht]

/-- C1: `shouldSync` is true exactly when the annotations map the enabled key to the string
`"true"` or contain the monitor-id key, whatever its value; in particular it is false on the nil
map and on the empty map.  It is a total function, so it never fails. -/
theorem shouldSync_iff (cronJob : CronJob) :
    (shouldSync cronJob = true ↔
      (cronJob.Annotations.lookup AnnotationEnabled = some "true" ∨
        ∃ v, cronJob.Annotations.lookup AnnotationMonitorID = some v)) ∧
    shouldSync { cronJob with Annotations := none } = false ∧
    shouldSync { cronJob with Annotations := some [] } = false :=
  ⟨shouldSync_true_iff cronJob, by simp [shouldSync, GoMap.lookup],
    by simp [shouldSync, GoMap.lookup]⟩

/-- C2 (counterexample): the value `"120abc"` is not the decimal representation of an integer,
yet the grace period computed from it is 120 and not the default 300. -/
theorem graceSec_trailing_text_counterexample :
    (∀ n : Nat, toString n ≠ "120abc") ∧
    (syncCronJob.monitorSpec
      ⟨"ops", "backup", some [("saturn.co/grace-sec", "120abc")], ⟨"0 3 * * *", none⟩, ""⟩).GraceSec
      = 120 ∧
    (syncCronJob.monitorSpec
      ⟨"ops", "backup", some [("saturn.co/grace-sec", "120abc")], ⟨"0 3 * * *", none⟩, ""⟩).GraceSec
      ≠ DefaultGraceSec := by
  refine ⟨?_, by decide, by decide⟩
  intro n hn
  have hd := (toString_nat_spec n).2.1 'a' (by rw [hn]; decide)
  exact absurd hd (by decide)

/-- C2 (amended): when the grace-sec annotation is absent, or its value does not start (after
leading blanks and an optional `+`) with the decimal digits of a positive integer, the grace
period of the translated specification is the default 300; and `syncCronJob` reports no error
whenever the remote calls succeed, whatever the annotation holds. -/
theorem graceSec_default (cronJob : CronJob)
    (h : cronJob.Annotations.lookup AnnotationGraceSec = none ∨
      ∃ v, cronJob.Annotations.lookup AnnotationGraceSec = some v ∧
        startsWithPositiveDecimal v = false) :
    (syncCronJob.monitorSpec cronJob).GraceSec = 300 ∧
    ∀ (σ : Type) (E : Env σ) (w : World σ),
      (∀ id sp s, (E.UpdateMonitor id sp s).1 = none) →
      (∀ sp s, ∃ id, (E.CreateMonitor sp s).1 = Except.ok id) →
      (syncCronJob E cronJob w).1 = none := by
  refine ⟨?_, fun σ E w hu hc => syncCronJob_ok_of_remote_ok E cronJob w hu hc⟩
  show syncCronJob.graceSec cronJob = 300
  unfold syncCronJob.graceSec
  rcases h with h | ⟨v, hv, hnp⟩
  · rw [h]
    rfl
  · rw [hv]
    simp only
    cases hs : Sscanf_d v with
    | none => rfl
    | some g =>
      simp only
      split
      · rename_i hg
        have := Sscanf_d_positive v g hs hg
        rw [hnp] at this
        exact absurd this (by simp)
      · rfl

/-- C2 (witness): the values `"abc"` and `"-5"` and an absent annotation give the default. -/
theorem graceSec_default_witness :
    (syncCronJob.monitorSpec
      ⟨"ops", "backup", some [("saturn.co/grace-sec", "abc")], ⟨"0 3 * * *", none⟩, ""⟩).GraceSec
      = 300 ∧
    (syncCronJob.monitorSpec
      ⟨"ops", "backup", some [("saturn.co/grace-sec", "-5")], ⟨"0 3 * * *", none⟩, ""⟩).GraceSec
      = 300 ∧
    (syncCronJob.monitorSpec
      ⟨"ops", "backup", none, ⟨"0 3 * * *", none⟩, ""⟩).GraceSec = 300 :=
  ⟨(graceSec_default _ (Or.inr ⟨"abc", by decide, by decide⟩)).1,
   (graceSec_default _ (Or.inr ⟨"-5", by decide, by decide⟩)).1,
   (graceSec_default _ (Or.inl (by decide))).1⟩

/-- C3: when the grace-sec annotation is the decimal string of a positive integer `n` that fits
a Go `int`, the translated specification has `GraceSec = n`. -/
theorem graceSec_of_decimal (cronJob : CronJob) (n : Nat) (hpos : 0 < n)
    (hfit : n < 2 ^ (intBits - 1))
    (h : cronJob.Annotations.lookup AnnotationGraceSec = some (toString n)) :
    (syncCronJob.monitorSpec cronJob).GraceSec = (n : Int) := by
  show syncCronJob.graceSec cronJob = (n : Int)
  unfold syncCronJob.graceSec
  rw [h]
  simp only
  rw [Sscanf_d_toString n (by simpa [intBits] using hfit)]
  simp only
  have : (0 : Int) < (n : Int) := by exact_mod_cast hpos
  simp [this]

/-- C3 (witness): the value `"120"` gives a grace period of 120 seconds. -/
theorem graceSec_of_decimal_witness :
    (syncCronJob.monitorSpec
      ⟨"ops", "backup", some [("saturn.co/grace-sec", "120")], ⟨"0 3 * * *", none⟩, ""⟩).GraceSec
      = 120 :=
  graceSec_of_decimal _ 120 (by decide) (by decide) (by decide)

/-- C4: the tag list of the translated specification is `"kubernetes"`, then
`"namespace:" ++ ns`, then the raw value of the tags annotation as one element when that
annotation is present (also when the value is empty or contains commas), and nothing else. -/
theorem tags_eq (cronJob : CronJob) :
    (syncCronJob.monitorSpec cronJob).Tags =
      ["kubernetes", "namespace:" ++ cronJob.Namespace] ++
        (cronJob.Annotations.lookup AnnotationTags).toList := by
  show syncCronJob.tags cronJob = _
  unfold syncCronJob.tags
  cases cronJob.Annotations.lookup AnnotationTags <;> rfl

/-- C5: whatever the annotations are, the translated specification has the name
`namespace ++ "/" ++ name`, the schedule type `"CRON"`, the schedule string of the object as
cron expression and the optional time zone of the object as time zone. -/
theorem monitorSpec_fixed_fields (cronJob : CronJob) (annotations : GoMap) :
    (syncCronJob.monitorSpec { cronJob with Annotations := annotations }).Name =
      cronJob.Namespace ++ "/" ++ cronJob.Name ∧
    (syncCronJob.monitorSpec { cronJob with Annotations := annotations }).ScheduleType = "CRON" ∧
    (syncCronJob.monitorSpec { cronJob with Annotations := annotations }).CronExpr =
      cronJob.Spec.Schedule ∧
    (syncCronJob.monitorSpec { cronJob with Annotations := annotations }).Timezone =
      cronJob.Spec.TimeZone :=
  ⟨rfl, rfl, rfl, rfl⟩


/-! ### Annotation maps -/

theorem lookup_filter_ne (l : List (String × String)) (k k1 : String) (h : k1 ≠ k) :
    List.lookup k1 (l.filter (fun p => !(p.1 == k))) = List.lookup k1 l := by
  induction l with
  | nil => rfl
  | cons p ps ih =>
    obtain ⟨a, b⟩ := p
    by_cases ha : a = k
    · subst ha
      have hk : (k1 == a) = false := by simpa using h
      simp [List.filter_cons, List.lookup_cons, hk, ih]
    · have hf : (!(a == k)) = true := by simpa using ha
      rw [List.filter_cons_of_pos (by simpa using ha)]
      simp only [List.lookup_cons]
      rw [ih]

theorem lookup_set_self (l : List (String × String)) (k v : String) :
    List.lookup k (GoMap.set l k v) = some v := by
  simp [GoMap.set, List.lookup_cons]

theorem lookup_set_ne (l : List (String × String)) (k v k1 : String) (h : k1 ≠ k) :
    List.lookup k1 (GoMap.set l k v) = List.lookup k1 l := by
  have hk : (k1 == k) = false := by simpa using h
  simp only [GoMap.set, List.lookup_cons, hk]
  exact lookup_filter_ne l k k1 h

theorem annotate_lookup_self (fresh : CronJob) (id : String) :
    (withMonitorID fresh id).Annotations.lookup AnnotationMonitorID = some id := by
  simp [withMonitorID, GoMap.lookup, lookup_set_self]

theorem annotate_lookup_ne (fresh : CronJob) (id k : String) (h : k ≠ AnnotationMonitorID) :
    (withMonitorID fresh id).Annotations.lookup k = fresh.Annotations.lookup k := by
  unfold withMonitorID
  cases hf : fresh.Annotations with
  | none =>
    have hk : (k == AnnotationMonitorID) = false := by simpa using h
    simp [GoMap.lookup, GoMap.set, List.lookup_cons, hk]
  | some l => simp [GoMap.lookup, lookup_set_ne l _ id k h]

/-! ### Reconciliation: the update and the create path -/

theorem get_of_lookup {m : GoMap} {k v : String} (h : m.lookup k = some v) : m.get k = v := by
  simp [GoMap.get, h]

/-- With a non-empty recorded identifier `syncCronJob` makes one remote update and nothing else. -/
theorem syncCronJob_trace_of_id {σ : Type} (E : Env σ) (cronJob : CronJob) (w : World σ)
    (id : String) (h : cronJob.Annotations.get AnnotationMonitorID = id) (hne : id ≠ "") :
    (syncCronJob E cronJob w).2.trace =
      w.trace ++ [Effect.remoteUpdate id (syncCronJob.monitorSpec cronJob)] := by
  unfold syncCronJob
  simp only [h]
  have hb : (id != "") = true := by simpa using hne
  rw [if_pos hb]
  split <;> rfl

theorem shouldSync_of_id (cronJob : CronJob) (id : String)
    (h : cronJob.Annotations.lookup AnnotationMonitorID = some id) : shouldSync cronJob = true :=
  (shouldSync_true_iff cronJob).2 (Or.inr ⟨id, h⟩)


/-- Without a recorded identifier, after a successful remote create and a successful re-fetch,
`syncCronJob` reports success; it has made the create, the get and one update that writes the
annotated fresh copy, followed at most by a warning when that update failed. -/
theorem syncCronJob_create_path {σ : Type} (E : Env σ) (cronJob : CronJob) (w : World σ)
    (id : String) (fresh : CronJob) (s1 s2 : σ)
    (hno : cronJob.Annotations.get AnnotationMonitorID = "")
    (hcreate : E.CreateMonitor (syncCronJob.monitorSpec cronJob) w.state = (Except.ok id, s1))
    (hget : E.Get cronJob.Namespace cronJob.Name s1 = (Except.ok fresh, s2)) :
    (syncCronJob E cronJob w).1 = none ∧
    ∃ tail, (syncCronJob E cronJob w).2.trace =
        w.trace ++ [Effect.remoteCreate (syncCronJob.monitorSpec cronJob),
          Effect.clusterGet cronJob.Namespace cronJob.Name,
          Effect.clusterUpdate cronJob.Namespace (withMonitorID fresh id)] ++ tail ∧
      (∀ e ∈ tail, ∃ msg, e = Effect.logWarning msg) ∧
      (∀ echo, (E.Update cronJob.Namespace (withMonitorID fresh id) s2).1 =
        Except.ok echo → tail = []) := by
  unfold syncCronJob
  simp only [hno, hcreate]
  have hb : ¬ (("" : String) != "") = true := by decide
  rw [if_neg hb]
  unfold addMonitorAnnotation
  simp only [hget]
  cases hu : (E.Update cronJob.Namespace (withMonitorID fresh id) s2).1 with
  | error err =>
    refine ⟨rfl, [Effect.logWarning ("Failed to add monitor ID annotation: " ++ err)], ?_, ?_, ?_⟩
    · simp
    · intro e he
      exact ⟨_, List.mem_singleton.1 he⟩
    · intro echo h
      exact absurd h (by simp)
  | ok echo =>
    refine ⟨rfl, [], ?_, ?_, ?_⟩
    · simp
    · intro e he
      exact absurd he (List.not_mem_nil e)
    · intro _ _
      rfl

/-! ### Reconciliation: the claims -/

/-- C6 (counterexample): an eligible object whose annotations contain the monitor-id key with
the empty string as value is reconciled by a remote create (followed by the get and the
update that persist the new identifier), and no remote update is issued. -/
theorem empty_monitor_id_counterexample :
    emptyIdJob.Annotations.lookup AnnotationMonitorID = some "" ∧
    shouldSync emptyIdJob = true ∧
    (syncCronJob (okEnv "m-2" emptyIdJob) emptyIdJob ⟨0, []⟩).2.trace =
      [Effect.remoteCreate (syncCronJob.monitorSpec emptyIdJob),
       Effect.clusterGet "ops" "backup",
       Effect.clusterUpdate "ops" (withMonitorID emptyIdJob "m-2")] := by
  decide

/-- C6 (amended): for every object whose annotations contain the monitor-id key with a non-empty
value `id`, the object is eligible and `syncCronJob` issues exactly one remote update, carrying
`id` and the specification translated from the object, and nothing else (no remote create). -/
theorem update_when_id_recorded {σ : Type} (E : Env σ) (cronJob : CronJob) (w : World σ)
    (id : String) (h : cronJob.Annotations.lookup AnnotationMonitorID = some id)
    (hne : id ≠ "") :
    shouldSync cronJob = true ∧
    (syncCronJob E cronJob w).2.trace =
      w.trace ++ [Effect.remoteUpdate id (syncCronJob.monitorSpec cronJob)] :=
  ⟨shouldSync_of_id cronJob id h,
    syncCronJob_trace_of_id E cronJob w id (get_of_lookup h) hne⟩

/-- C6 (witness): the managed example object is reconciled by one remote update with `"m-1"`. -/
theorem update_when_id_recorded_witness :
    shouldSync managedJob = true ∧
    (syncCronJob (okEnv "m-9" managedJob) managedJob ⟨0, []⟩).2.trace =
      [] ++ [Effect.remoteUpdate "m-1" (syncCronJob.monitorSpec managedJob)] :=
  update_when_id_recorded (okEnv "m-9" managedJob) managedJob ⟨0, []⟩ "m-1" (by decide)
    (by decide)

/-- C8: for every Managed object, that is one whose monitor-id annotation records a non-empty
identifier `id` (such an object is eligible), each of two consecutive reconciles of the
unchanged object issues exactly one remote update, both with `id` and the same specification,
and nothing else: no remote create and no cluster get or update, so the annotations of the
object in the cluster are not touched. -/
theorem reconcile_idempotent {σ : Type} (E : Env σ) (cronJob : CronJob) (w : World σ)
    (id : String) (h : cronJob.Annotations.lookup AnnotationMonitorID = some id)
    (hne : id ≠ "") :
    shouldSync cronJob = true ∧
    (syncCronJob E cronJob w).2.trace =
      w.trace ++ [Effect.remoteUpdate id (syncCronJob.monitorSpec cronJob)] ∧
    (syncCronJob E cronJob (syncCronJob E cronJob w).2).2.trace =
      w.trace ++ [Effect.remoteUpdate id (syncCronJob.monitorSpec cronJob),
        Effect.remoteUpdate id (syncCronJob.monitorSpec cronJob)] := by
  have h1 := syncCronJob_trace_of_id E cronJob w id (get_of_lookup h) hne
  have h2 := syncCronJob_trace_of_id E cronJob (syncCronJob E cronJob w).2 id
    (get_of_lookup h) hne
  refine ⟨shouldSync_of_id cronJob id h, h1, ?_⟩
  rw [h2, h1]
  simp

/-- C8 (witness): two reconciles of the managed example object. -/
theorem reconcile_idempotent_witness :
    shouldSync managedJob = true ∧
    (syncCronJob (okEnv "m-9" managedJob) managedJob ⟨0, []⟩).2.trace =
      [] ++ [Effect.remoteUpdate "m-1" (syncCronJob.monitorSpec managedJob)] ∧
    (syncCronJob (okEnv "m-9" managedJob) managedJob
        (syncCronJob (okEnv "m-9" managedJob) managedJob ⟨0, []⟩).2).2.trace =
      [] ++ [Effect.remoteUpdate "m-1" (syncCronJob.monitorSpec managedJob),
        Effect.remoteUpdate "m-1" (syncCronJob.monitorSpec managedJob)] :=
  reconcile_idempotent (okEnv "m-9" managedJob) managedJob ⟨0, []⟩ "m-1" (by decide) (by decide)

theorem syncAll_body_ineligible {σ : Type} (E : Env σ) (cronJob : CronJob)
    (h : shouldSync cronJob = false) (st : Nat × World σ) : syncAll.body E st cronJob = st := by
  simp [syncAll.body, h]

/-- C9: for every object for which `shouldSync` is false, an Added and a Modified event in
`handleEvent` leave the world and the trace as they are (no remote call, no cluster call, no
error logged); the pass of the `syncAll` loop over the object leaves the loop state as it is, so
that a resync of a list containing the object performs exactly the actions of the resync of the
list without it and, like it, returns no error. -/
theorem ineligible_noop {σ : Type} (E : Env σ) (cronJob : CronJob)
    (h : shouldSync cronJob = false) :
    (∀ w : World σ, handleEvent E ⟨EventType.Added, RuntimeObject.cronJob cronJob⟩ w = w) ∧
    (∀ w : World σ, handleEvent E ⟨EventType.Modified, RuntimeObject.cronJob cronJob⟩ w = w) ∧
    (∀ st : Nat × World σ, syncAll.body E st cronJob = st) ∧
    (∀ (before after : List CronJob) (st : Nat × World σ),
      syncAll.loop E (before ++ cronJob :: after) st = syncAll.loop E (before ++ after) st) ∧
    (∀ (before after : List CronJob) (ns : String) (w : World σ),
      syncAll { E with List := fun _ s => (Except.ok (before ++ cronJob :: after), s) } ns w =
        syncAll { E with List := fun _ s => (Except.ok (before ++ after), s) } ns w ∧
      (syncAll { E with List := fun _ s => (Except.ok (before ++ cronJob :: after), s) } ns w).1 =
        none) ∧
    (∀ (ns : String) (w : World σ),
      syncAll { E with List := fun _ s => (Except.ok [cronJob], s) } ns w =
        (none, ⟨w.state, w.trace ++ [Effect.clusterList ns]⟩)) := by
  have hloop : ∀ (E1 : Env σ) (before after : List CronJob) (st : Nat × World σ),
      syncAll.loop E1 (before ++ cronJob :: after) st = syncAll.loop E1 (before ++ after) st := by
    intro E1 before after st
    simp only [syncAll.loop, List.foldl_append, List.foldl_cons]
    rw [syncAll_body_ineligible E1 cronJob h]
  refine ⟨?_, ?_, syncAll_body_ineligible E cronJob h, hloop E, ?_, ?_⟩
  · intro w
    simp [handleEvent, h]
  · intro w
    simp [handleEvent, h]
  · intro before after ns w
    refine ⟨?_, rfl⟩
    simp only [syncAll]
    rw [hloop]
    rfl
  · intro ns w
    simp only [syncAll, syncAll.loop, List.foldl_cons, List.foldl_nil]
    rw [syncAll_body_ineligible _ cronJob h]

/-- C9 (witness): the ineligible example object. -/
theorem ineligible_noop_witness :
    (∀ w : World Nat, handleEvent (okEnv "m-1" unmanagedJob)
      ⟨EventType.Added, RuntimeObject.cronJob unmanagedJob⟩ w = w) ∧
    (∀ w : World Nat, handleEvent (okEnv "m-1" unmanagedJob)
      ⟨EventType.Modified, RuntimeObject.cronJob unmanagedJob⟩ w = w) :=
  ⟨(ineligible_noop (okEnv "m-1" unmanagedJob) unmanagedJob (by decide)).1,
   (ineligible_noop (okEnv "m-1" unmanagedJob) unmanagedJob (by decide)).2.1⟩

/-- C10: for every object without a recorded monitor-id, every identifier `id` returned by a
successful remote create and every fresh copy returned by the re-fetch, `syncCronJob` issues
exactly one cluster update, and the object it writes is the fresh copy with the monitor-id
annotation set to `id`: namespace, name, schedule fields and all remaining fields are those of
the fresh copy, every other annotation is looked up as in the fresh copy, and a nil annotation
map becomes the map with the single entry for the monitor-id. -/
theorem annotation_written_on_fresh_copy {σ : Type} (E : Env σ) (cronJob : CronJob)
    (w : World σ) (id : String) (fresh : CronJob) (s1 s2 : σ)
    (hno : cronJob.Annotations.get AnnotationMonitorID = "")
    (hcreate : E.CreateMonitor (syncCronJob.monitorSpec cronJob) w.state = (Except.ok id, s1))
    (hget : E.Get cronJob.Namespace cronJob.Name s1 = (Except.ok fresh, s2)) :
    ∃ written tail,
      (syncCronJob E cronJob w).2.trace =
        w.trace ++ [Effect.remoteCreate (syncCronJob.monitorSpec cronJob),
          Effect.clusterGet cronJob.Namespace cronJob.Name,
          Effect.clusterUpdate cronJob.Namespace written] ++ tail ∧
      (∀ e ∈ tail, ∃ msg, e = Effect.logWarning msg) ∧
      written.Namespace = fresh.Namespace ∧ written.Name = fresh.Name ∧
      written.Spec = fresh.Spec ∧ written.Remainder = fresh.Remainder ∧
      written.Annotations.lookup AnnotationMonitorID = some id ∧
      (∀ k, k ≠ AnnotationMonitorID →
        written.Annotations.lookup k = fresh.Annotations.lookup k) ∧
      (fresh.Annotations = none → written.Annotations = some [(AnnotationMonitorID, id)]) := by
  obtain ⟨-, tail, htrace, hwarn, -⟩ :=
    syncCronJob_create_path E cronJob w id fresh s1 s2 hno hcreate hget
  refine ⟨withMonitorID fresh id, tail, htrace, hwarn, rfl, rfl, rfl, rfl,
    annotate_lookup_self fresh id, fun k hk => annotate_lookup_ne fresh id k hk, ?_⟩
  intro hnil
  simp [withMonitorID, hnil, GoMap.set]


/-- C10 (witness): the pending example object is observed while the cluster already holds a
newer copy with a nil annotation map; the object written is that copy with the single
monitor-id annotation. -/
theorem annotation_written_on_fresh_copy_witness :
    ∃ written tail,
      (syncCronJob (okEnv "m-1" fresherJob) pendingJob ⟨0, []⟩).2.trace =
        [] ++ [Effect.remoteCreate (syncCronJob.monitorSpec pendingJob),
          Effect.clusterGet pendingJob.Namespace pendingJob.Name,
          Effect.clusterUpdate pendingJob.Namespace written] ++ tail ∧
      (∀ e ∈ tail, ∃ msg, e = Effect.logWarning msg) ∧
      written.Namespace = fresherJob.Namespace ∧ written.Name = fresherJob.Name ∧
      written.Spec = fresherJob.Spec ∧ written.Remainder = fresherJob.Remainder ∧
      written.Annotations.lookup AnnotationMonitorID = some "m-1" ∧
      (∀ k, k ≠ AnnotationMonitorID →
        written.Annotations.lookup k = fresherJob.Annotations.lookup k) ∧
      (fresherJob.Annotations = none →
        written.Annotations = some [(AnnotationMonitorID, "m-1")]) :=
  annotation_written_on_fresh_copy (okEnv "m-1" fresherJob) pendingJob ⟨0, []⟩ "m-1" fresherJob
    1 2 (by decide) rfl rfl


/-! ### Reconciliation: failures -/

/-- Without a recorded identifier, after a successful remote create and a failed re-fetch,
`syncCronJob` reports success and has logged a warning after the create and the get. -/
theorem syncCronJob_get_error {σ : Type} (E : Env σ) (cronJob : CronJob) (w : World σ)
    (id err : String) (s1 s2 : σ)
    (hno : cronJob.Annotations.get AnnotationMonitorID = "")
    (hcreate : E.CreateMonitor (syncCronJob.monitorSpec cronJob) w.state = (Except.ok id, s1))
    (hget : E.Get cronJob.Namespace cronJob.Name s1 = (Except.error err, s2)) :
    syncCronJob E cronJob w =
      (none, ⟨s2, w.trace ++ [Effect.remoteCreate (syncCronJob.monitorSpec cronJob),
        Effect.clusterGet cronJob.Namespace cronJob.Name,
        Effect.logWarning ("Failed to add monitor ID annotation: " ++ err)]⟩) := by
  unfold syncCronJob
  simp only [hno, hcreate]
  have hb : ¬ (("" : String) != "") = true := by decide
  rw [if_neg hb]
  unfold addMonitorAnnotation
  simp [hget]

/-- C11: for every object without a recorded monitor-id, when the remote create succeeds and
the persistence of the identifier fails, because the cluster get returns an error or because
the cluster update returns one, `syncCronJob` returns no error; the failure is only logged as
a warning, the last action of the reconcile. -/
theorem persist_failure_is_success {σ : Type} (E : Env σ) (cronJob : CronJob) (w : World σ)
    (id : String) (s1 : σ)
    (hno : cronJob.Annotations.get AnnotationMonitorID = "")
    (hcreate : E.CreateMonitor (syncCronJob.monitorSpec cronJob) w.state = (Except.ok id, s1))
    (hfail : (∃ err s2, E.Get cronJob.Namespace cronJob.Name s1 = (Except.error err, s2)) ∨
      (∃ fresh s2 err, E.Get cronJob.Namespace cronJob.Name s1 = (Except.ok fresh, s2) ∧
        (E.Update cronJob.Namespace (withMonitorID fresh id) s2).1 = Except.error err)) :
    (syncCronJob E cronJob w).1 = none ∧
    ∃ err, (syncCronJob E cronJob w).2.trace.getLast? =
      some (Effect.logWarning ("Failed to add monitor ID annotation: " ++ err)) := by
  rcases hfail with ⟨err, s2, hget⟩ | ⟨fresh, s2, err, hget, hupd⟩
  · rw [syncCronJob_get_error E cronJob w id err s1 s2 hno hcreate hget]
    exact ⟨rfl, err, by simp⟩
  · refine ⟨(syncCronJob_create_path E cronJob w id fresh s1 s2 hno hcreate hget).1, err, ?_⟩
    unfold syncCronJob
    simp only [hno, hcreate]
    have hb : ¬ (("" : String) != "") = true := by decide
    rw [if_neg hb]
    unfold addMonitorAnnotation
    simp [hget, hupd]

/-- C11 (witness): the pending example object, created remotely while the cluster is
unreachable. -/
theorem persist_failure_is_success_witness :
    (syncCronJob (noPersistEnv "m-1") pendingJob ⟨0, []⟩).1 = none ∧
    ∃ err, (syncCronJob (noPersistEnv "m-1") pendingJob ⟨0, []⟩).2.trace.getLast? =
      some (Effect.logWarning ("Failed to add monitor ID annotation: " ++ err)) :=
  persist_failure_is_success (noPersistEnv "m-1") pendingJob ⟨0, []⟩ "m-1" 1 (by decide) rfl
    (Or.inl ⟨"connection refused", 2, rfl⟩)

/-- C12: for every Managed object (monitor-id recorded as the non-empty `id`), when the remote
update returns the error `err`, `syncCronJob` returns an error that wraps it, and the remote
update is the only action of the cycle: no remote create, no cluster get and no cluster update,
so nothing is written to the object. -/
theorem update_failure_reported {σ : Type} (E : Env σ) (cronJob : CronJob) (w : World σ)
    (id err : String) (s1 : σ)
    (h : cronJob.Annotations.lookup AnnotationMonitorID = some id) (hne : id ≠ "")
    (hfail : E.UpdateMonitor id (syncCronJob.monitorSpec cronJob) w.state = (some err, s1)) :
    syncCronJob E cronJob w =
      (some ("failed to update monitor: " ++ err),
        ⟨s1, w.trace ++ [Effect.remoteUpdate id (syncCronJob.monitorSpec cronJob)]⟩) := by
  unfold syncCronJob
  simp only [get_of_lookup h]
  have hb : (id != "") = true := by simpa using hne
  rw [if_pos hb]
  simp [hfail]

/-- C12 (witness): the managed example object while the remote API is down. -/
theorem update_failure_reported_witness :
    syncCronJob (remoteDownEnv []) managedJob ⟨0, []⟩ =
      (some ("failed to update monitor: " ++ "API error 503: unavailable"),
        ⟨1, [] ++ [Effect.remoteUpdate "m-1" (syncCronJob.monitorSpec managedJob)]⟩) :=
  update_failure_reported (remoteDownEnv []) managedJob ⟨0, []⟩ "m-1"
    "API error 503: unavailable" 1 (by decide) (by decide) rfl

/-! ### Deletion -/

theorem deleteCronJobMonitor_of_id {σ : Type} (E : Env σ) (cronJob : CronJob) (w : World σ)
    (id : String) (h : cronJob.Annotations.get AnnotationMonitorID = id) (hne : id ≠ "") :
    deleteCronJobMonitor E cronJob w =
      ((E.DeleteMonitor id w.state).1,
        ⟨(E.DeleteMonitor id w.state).2, w.trace ++ [Effect.remoteDelete id]⟩) := by
  unfold deleteCronJobMonitor
  simp only [h]
  have hb : ¬ (id == "") = true := by simpa using hne
  rw [if_neg hb]

theorem deleteCronJobMonitor_of_empty {σ : Type} (E : Env σ) (cronJob : CronJob) (w : World σ)
    (h : cronJob.Annotations.get AnnotationMonitorID = "") :
    deleteCronJobMonitor E cronJob w = (none, w) := by
  unfold deleteCronJobMonitor
  simp [h]

/-- C13: for every Deleted event on an object whose monitor-id annotation records the
non-empty identifier `id`, `deleteCronJobMonitor` makes exactly one remote delete, with `id`,
and returns the result of that call unchanged; `handleEvent` performs that remote delete and
nothing else but the logging of its error, if any: no remote create or update and no cluster
write. -/
theorem delete_with_recorded_id {σ : Type} (E : Env σ) (cronJob : CronJob) (w : World σ)
    (id : String) (h : cronJob.Annotations.lookup AnnotationMonitorID = some id)
    (hne : id ≠ "") :
    deleteCronJobMonitor E cronJob w =
      ((E.DeleteMonitor id w.state).1,
        ⟨(E.DeleteMonitor id w.state).2, w.trace ++ [Effect.remoteDelete id]⟩) ∧
    (handleEvent E ⟨EventType.Deleted, RuntimeObject.cronJob cronJob⟩ w).state =
      (E.DeleteMonitor id w.state).2 ∧
    ∃ tail, (handleEvent E ⟨EventType.Deleted, RuntimeObject.cronJob cronJob⟩ w).trace =
        w.trace ++ Effect.remoteDelete id :: tail ∧
      (∀ e ∈ tail, ∃ msg, e = Effect.logError msg) ∧
      ((E.DeleteMonitor id w.state).1 = none → tail = []) := by
  have hd := deleteCronJobMonitor_of_id E cronJob w id (get_of_lookup h) hne
  refine ⟨hd, ?_, ?_⟩
  · simp only [handleEvent, shouldSync_of_id cronJob id h, if_true, hd]
    cases (E.DeleteMonitor id w.state).1 <;> rfl
  · simp only [handleEvent, shouldSync_of_id cronJob id h, if_true, hd]
    cases hr : (E.DeleteMonitor id w.state).1 with
    | none => exact ⟨[], by simp, by simp, fun _ => rfl⟩
    | some err =>
      refine ⟨[Effect.logError ("Failed to delete monitor for CronJob " ++ cronJob.Namespace ++
        "/" ++ cronJob.Name ++ ": " ++ err)], by simp, ?_, by simp⟩
      intro e he
      exact ⟨_, List.mem_singleton.1 he⟩

/-- C13 (witness): deletion of the managed example object. -/
theorem delete_with_recorded_id_witness :
    deleteCronJobMonitor (okEnv "m-9" managedJob) managedJob ⟨0, []⟩ =
      (((okEnv "m-9" managedJob).DeleteMonitor "m-1" 0).1,
        ⟨((okEnv "m-9" managedJob).DeleteMonitor "m-1" 0).2, [] ++ [Effect.remoteDelete "m-1"]⟩) :=
  (delete_with_recorded_id (okEnv "m-9" managedJob) managedJob ⟨0, []⟩ "m-1" (by decide)
    (by decide)).1

/-- C14: for every Deleted event on an object that is ineligible, or whose monitor-id annotation
is absent or empty, `handleEvent` leaves the world and the trace as they are: no remote call, no
cluster call and no error logged; and on an object without a recorded monitor-id
`deleteCronJobMonitor` itself returns no error and does nothing. -/
theorem delete_without_id_noop {σ : Type} (E : Env σ) (cronJob : CronJob) (w : World σ)
    (h : shouldSync cronJob = false ∨ cronJob.Annotations.get AnnotationMonitorID = "") :
    handleEvent E ⟨EventType.Deleted, RuntimeObject.cronJob cronJob⟩ w = w ∧
    (cronJob.Annotations.get AnnotationMonitorID = "" →
      deleteCronJobMonitor E cronJob w = (none, w)) := by
  refine ⟨?_, fun h0 => deleteCronJobMonitor_of_empty E cronJob w h0⟩
  rcases h with h | h
  · simp [handleEvent, h]
  · by_cases hs : shouldSync cronJob = true
    · simp [handleEvent, hs, deleteCronJobMonitor_of_empty E cronJob w h]
    · simp [handleEvent, hs]

/-- C14 (witness): deletion of the ineligible, of the pending and of the empty-id example
objects. -/
theorem delete_without_id_noop_witness :
    handleEvent (remoteDownEnv []) ⟨EventType.Deleted, RuntimeObject.cronJob unmanagedJob⟩
      ⟨0, []⟩ = ⟨0, []⟩ ∧
    handleEvent (remoteDownEnv []) ⟨EventType.Deleted, RuntimeObject.cronJob pendingJob⟩
      ⟨0, []⟩ = ⟨0, []⟩ ∧
    handleEvent (remoteDownEnv []) ⟨EventType.Deleted, RuntimeObject.cronJob emptyIdJob⟩
      ⟨0, []⟩ = ⟨0, []⟩ :=
  ⟨(delete_without_id_noop _ unmanagedJob _ (Or.inl (by decide))).1,
   (delete_without_id_noop _ pendingJob _ (Or.inr (by decide))).1,
   (delete_without_id_noop _ emptyIdJob _ (Or.inr (by decide))).1⟩


/-! ### The shape of traces -/

theorem isRemote_of_isLocal {e : Effect} (h : e.isLocal = true) : e.isRemote = false := by
  cases e <;> simp_all [Effect.isLocal, Effect.isRemote]

theorem isWatchStep_of_isLocal {e : Effect} (h : e.isLocal = true) : e.isWatchStep = false := by
  cases e <;> simp_all [Effect.isLocal, Effect.isWatchStep]

theorem remoteCalls_of_local (ext : List Effect) (h : ∀ e ∈ ext, e.isLocal = true) :
    remoteCalls ext = [] := by
  unfold remoteCalls
  rw [List.filter_eq_nil_iff]
  intro e he
  simp [isRemote_of_isLocal (h e he)]

theorem watchSteps_of_local (ext : List Effect) (h : ∀ e ∈ ext, e.isLocal = true) :
    watchSteps ext = [] := by
  unfold watchSteps
  rw [List.filter_eq_nil_iff]
  intro e he
  simp [isWatchStep_of_isLocal (h e he)]

theorem remoteCalls_append (a b : List Effect) :
    remoteCalls (a ++ b) = remoteCalls a ++ remoteCalls b := by
  simp [remoteCalls]

theorem watchSteps_append (a b : List Effect) :
    watchSteps (a ++ b) = watchSteps a ++ watchSteps b := by
  simp [watchSteps]

theorem upsertCall_isRemote (cronJob : CronJob) : (upsertCall cronJob).isRemote = true := by
  unfold upsertCall
  split <;> rfl

theorem upsertCall_isWatchStep (cronJob : CronJob) :
    (upsertCall cronJob).isWatchStep = false := by
  unfold upsertCall
  split <;> rfl

/-- The actions of `addMonitorAnnotation` are reads and writes of the object. -/
theorem addMonitorAnnotation_trace {σ : Type} (E : Env σ) (cronJob : CronJob) (id : String)
    (w : World σ) :
    ∃ ext, ( addMonitorAnnotation E cronJob id w).2.trace = w.trace ++ ext ∧
      ∀ e ∈ ext, e.isLocal = true := by
  unfold addMonitorAnnotation
  simp only
  cases (E.Get cronJob.Namespace cronJob.Name w.state).1 with
  | error err =>
    exact ⟨[Effect.clusterGet cronJob.Namespace cronJob.Name], rfl, by simp [Effect.isLocal]⟩
  | ok fresh =>
    simp only
    refine ⟨[Effect.clusterGet cronJob.Namespace cronJob.Name,
      Effect.clusterUpdate cronJob.Namespace (withMonitorID fresh id)], ?_, ?_⟩
    · split <;> simp
    · simp [Effect.isLocal]

/-- The actions of `syncCronJob` are the one remote call `upsertCall`, followed only by reads
and writes of the object and log lines. -/
theorem syncCronJob_trace {σ : Type} (E : Env σ) (cronJob : CronJob) (w : World σ) :
    ∃ ext, (syncCronJob E cronJob w).2.trace = w.trace ++ upsertCall cronJob :: ext ∧
      ∀ e ∈ ext, e.isLocal = true := by
  unfold syncCronJob upsertCall
  simp only
  by_cases hid : cronJob.Annotations.get AnnotationMonitorID = ""
  · have hb : ¬ ((cronJob.Annotations.get AnnotationMonitorID != "") = true) := by simp [hid]
    rw [if_neg hb, if_pos hid]
    cases hc : (E.CreateMonitor (syncCronJob.monitorSpec cronJob) w.state).1 with
    | error err => exact ⟨[], by simp, by simp⟩
    | ok newID =>
      simp only
      obtain ⟨ext, hext, hloc⟩ := addMonitorAnnotation_trace E cronJob newID
        ⟨(E.CreateMonitor (syncCronJob.monitorSpec cronJob) w.state).2,
          w.trace ++ [Effect.remoteCreate (syncCronJob.monitorSpec cronJob)]⟩
      split
      · rename_i err _
        refine ⟨ext ++ [Effect.logWarning ("Failed to add monitor ID annotation: " ++ err)],
          ?_, ?_⟩
        · simp [hext]
        · intro e he
          rcases List.mem_append.1 he with he | he
          · exact hloc e he
          · rw [List.mem_singleton.1 he]
            rfl
      · exact ⟨ext, by simp [hext], hloc⟩
  · have hb : (cronJob.Annotations.get AnnotationMonitorID != "") = true := by simp [hid]
    rw [if_pos hb, if_neg hid]
    refine ⟨[], ?_, by simp⟩
    split <;> simp


/-- One pass of the `syncAll` loop adds the remote call of the object when it is eligible and
no other remote call, subscription or sleep. -/
theorem syncAll_body_trace {σ : Type} (E : Env σ) (st : Nat × World σ) (cronJob : CronJob) :
    ∃ ext, (syncAll.body E st cronJob).2.trace = st.2.trace ++ ext ∧
      remoteCalls ext = (if shouldSync cronJob = true then [upsertCall cronJob] else []) ∧
      watchSteps ext = [] := by
  unfold syncAll.body
  by_cases hs : shouldSync cronJob = true
  · simp only [hs, if_true]
    obtain ⟨ext, hext, hloc⟩ := syncCronJob_trace E cronJob st.2
    have hr : remoteCalls (upsertCall cronJob :: ext) = [upsertCall cronJob] := by
      have := remoteCalls_of_local ext hloc
      simp only [remoteCalls] at this ⊢
      rw [List.filter_cons_of_pos (upsertCall_isRemote cronJob), this]
    have hw : watchSteps (upsertCall cronJob :: ext) = [] := by
      have := watchSteps_of_local ext hloc
      simp only [watchSteps] at this ⊢
      rw [List.filter_cons_of_neg (by simp [upsertCall_isWatchStep cronJob]), this]
    split
    · rename_i err _
      refine ⟨upsertCall cronJob :: ext ++ [Effect.logError ("Failed to sync CronJob " ++
        cronJob.Namespace ++ "/" ++ cronJob.Name ++ ": " ++ err)], by simp [hext], ?_, ?_⟩
      · rw [remoteCalls_append, hr]
        rfl
      · rw [watchSteps_append, hw]
        rfl
    · exact ⟨upsertCall cronJob :: ext, hext, hr, hw⟩
  · simp only [hs]
    exact ⟨[], by simp, rfl, rfl⟩

/-- The `syncAll` loop makes, in list order, the remote call of every eligible object of the
list, whatever the results of these calls are. -/
theorem syncAll_loop_trace {σ : Type} (E : Env σ) (items : List CronJob) (st : Nat × World σ) :
    ∃ ext, (syncAll.loop E items st).2.trace = st.2.trace ++ ext ∧
      remoteCalls ext = (items.filter shouldSync).map upsertCall ∧
      watchSteps ext = [] := by
  induction items generalizing st with
  | nil => exact ⟨[], by simp [syncAll.loop], rfl, rfl⟩
  | cons cronJob rest ih =>
    obtain ⟨ext1, h1, hr1, hw1⟩ := syncAll_body_trace E st cronJob
    obtain ⟨ext2, h2, hr2, hw2⟩ := ih (syncAll.body E st cronJob)
    refine ⟨ext1 ++ ext2, ?_, ?_, ?_⟩
    · have : syncAll.loop E (cronJob :: rest) st =
          syncAll.loop E rest (syncAll.body E st cronJob) := rfl
      rw [this, h2, h1, List.append_assoc]
    · rw [remoteCalls_append, hr1, hr2]
      by_cases hs : shouldSync cronJob = true
      · simp [hs]
      · simp [hs]
    · rw [watchSteps_append, hw1, hw2]
      rfl

/-! ### Resync and events -/

/-- C15: for every list of objects returned by the cluster and every behaviour of the remote
manager and of the cluster (every pattern of failures), `syncAll` returns no error and, after
listing, makes exactly the remote calls that reconcile the eligible objects of the list, one
call for each, in list order; a failing call does not remove any later call.  Objects that are
not eligible are passed over without any action. -/
theorem resync_attempts_all {σ : Type} (E : Env σ) (ns : String) (w : World σ)
    (items : List CronJob) (s1 : σ) (hlist : E.List ns w.state = (Except.ok items, s1)) :
    (syncAll E ns w).1 = none ∧
    ∃ ext, (syncAll E ns w).2.trace = w.trace ++ Effect.clusterList ns :: ext ∧
      remoteCalls ext = (items.filter shouldSync).map upsertCall := by
  obtain ⟨ext, hext, hr, -⟩ :=
    syncAll_loop_trace E items (0, ⟨s1, w.trace ++ [Effect.clusterList ns]⟩)
  have hval : syncAll E ns w =
      (none, (syncAll.loop E items (0, ⟨s1, w.trace ++ [Effect.clusterList ns]⟩)).2) := by
    unfold syncAll
    simp only [hlist]
  rw [hval]
  refine ⟨rfl, ext, ?_, hr⟩
  rw [hext]
  simp

/-- C15 (witness): a resync of the pending, the ineligible and the managed example objects
while every remote call fails attempts the create of the first and the update of the third. -/
theorem resync_attempts_all_witness :
    (syncAll (remoteDownEnv [pendingJob, unmanagedJob, managedJob]) "ops" ⟨0, []⟩).1 = none ∧
    ∃ ext, (syncAll (remoteDownEnv [pendingJob, unmanagedJob, managedJob]) "ops" ⟨0, []⟩).2.trace
        = [] ++ Effect.clusterList "ops" :: ext ∧
      remoteCalls ext =
        ([pendingJob, unmanagedJob, managedJob].filter shouldSync).map upsertCall :=
  resync_attempts_all (remoteDownEnv [pendingJob, unmanagedJob, managedJob]) "ops" ⟨0, []⟩
    [pendingJob, unmanagedJob, managedJob] 1 rfl


theorem handleEvent_upsert {σ : Type} (E : Env σ) (cronJob : CronJob) (w : World σ)
    (hs : shouldSync cronJob = true) :
    (handleEvent E ⟨EventType.Added, RuntimeObject.cronJob cronJob⟩ w).state =
      (syncCronJob E cronJob w).2.state ∧
    ∃ tail, (handleEvent E ⟨EventType.Added, RuntimeObject.cronJob cronJob⟩ w).trace =
        (syncCronJob E cronJob w).2.trace ++ tail ∧
      (∀ e ∈ tail, ∃ msg, e = Effect.logError msg) ∧
      ((syncCronJob E cronJob w).1 = none → tail = []) := by
  simp only [handleEvent, hs, if_true]
  cases hr : (syncCronJob E cronJob w).1 with
  | none => exact ⟨rfl, [], by simp, by simp, fun _ => rfl⟩
  | some err =>
    refine ⟨rfl, [Effect.logError ("Failed to sync CronJob " ++ cronJob.Namespace ++ "/" ++
      cronJob.Name ++ ": " ++ err)], rfl, ?_, by simp⟩
    intro e he
    exact ⟨_, List.mem_singleton.1 he⟩

theorem handleEvent_deleted_trace {σ : Type} (E : Env σ) (cronJob : CronJob) (w : World σ) :
    ∃ ext, (handleEvent E ⟨EventType.Deleted, RuntimeObject.cronJob cronJob⟩ w).trace =
        w.trace ++ ext ∧
      remoteCalls ext =
        (if shouldSync cronJob = true ∧ cronJob.Annotations.get AnnotationMonitorID ≠ "" then
          [Effect.remoteDelete (cronJob.Annotations.get AnnotationMonitorID)] else []) ∧
      clusterWrites ext = [] := by
  by_cases hs : shouldSync cronJob = true
  · by_cases hid : cronJob.Annotations.get AnnotationMonitorID = ""
    · refine ⟨[], ?_, by simp [hid, remoteCalls], rfl⟩
      simp [handleEvent, hs, deleteCronJobMonitor_of_empty E cronJob w hid]
    · have hd := deleteCronJobMonitor_of_id E cronJob w _ rfl hid
      have hc : shouldSync cronJob = true ∧ cronJob.Annotations.get AnnotationMonitorID ≠ "" :=
        ⟨hs, hid⟩
      rw [if_pos hc]
      simp only [handleEvent, hs, if_true, hd]
      cases (E.DeleteMonitor (cronJob.Annotations.get AnnotationMonitorID) w.state).1 with
      | none =>
        exact ⟨[Effect.remoteDelete (cronJob.Annotations.get AnnotationMonitorID)], rfl, rfl, rfl⟩
      | some err =>
        refine ⟨[Effect.remoteDelete (cronJob.Annotations.get AnnotationMonitorID),
          Effect.logError ("Failed to delete monitor for CronJob " ++ cronJob.Namespace ++ "/" ++
            cronJob.Name ++ ": " ++ err)], ?_, rfl, rfl⟩
        simp
  · refine ⟨[], ?_, by simp [hs, remoteCalls], rfl⟩
    simp [handleEvent, hs]

/-- C16: for every watch notification that carries a CronJob, `handleEvent` does the same on an
Added and on a Modified notification, namely the upsert reconcile of the object (nothing when
the object is not eligible; otherwise `syncCronJob`, followed only by the logging of its error);
on a Deleted notification its only remote call is the delete of the recorded monitor, when the
object is eligible and records one, and it writes nothing to the cluster; on a notification of
another type it does nothing; and on a payload that is not a CronJob it only logs a warning,
whatever the type of the notification. -/
theorem handleEvent_dispatch {σ : Type} (E : Env σ) (cronJob : CronJob) (w : World σ) :
    handleEvent E ⟨EventType.Added, RuntimeObject.cronJob cronJob⟩ w =
      handleEvent E ⟨EventType.Modified, RuntimeObject.cronJob cronJob⟩ w ∧
    (shouldSync cronJob = false →
      handleEvent E ⟨EventType.Added, RuntimeObject.cronJob cronJob⟩ w = w) ∧
    (shouldSync cronJob = true →
      (handleEvent E ⟨EventType.Added, RuntimeObject.cronJob cronJob⟩ w).state =
        (syncCronJob E cronJob w).2.state ∧
      ∃ tail, (handleEvent E ⟨EventType.Added, RuntimeObject.cronJob cronJob⟩ w).trace =
          (syncCronJob E cronJob w).2.trace ++ tail ∧
        (∀ e ∈ tail, ∃ msg, e = Effect.logError msg) ∧
        ((syncCronJob E cronJob w).1 = none → tail = [])) ∧
    (∃ ext, (handleEvent E ⟨EventType.Deleted, RuntimeObject.cronJob cronJob⟩ w).trace =
        w.trace ++ ext ∧
      remoteCalls ext =
        (if shouldSync cronJob = true ∧ cronJob.Annotations.get AnnotationMonitorID ≠ "" then
          [Effect.remoteDelete (cronJob.Annotations.get AnnotationMonitorID)] else []) ∧
      clusterWrites ext = []) ∧
    handleEvent E ⟨EventType.Bookmark, RuntimeObject.cronJob cronJob⟩ w = w ∧
    handleEvent E ⟨EventType.Error, RuntimeObject.cronJob cronJob⟩ w = w ∧
    (∀ (typ : EventType) (kind : String),
      handleEvent E ⟨typ, RuntimeObject.other kind⟩ w =
        ⟨w.state, w.trace ++ [Effect.logWarning "Received non-CronJob object in watch event"]⟩) :=
  ⟨rfl, fun hs => by simp [handleEvent, hs], handleEvent_upsert E cronJob w,
    handleEvent_deleted_trace E cronJob w, rfl, rfl, fun _ _ => rfl⟩


/-! ### The monitor manager -/

/-- The request sent by `CreateMonitor`, when one can be built, is the request
`Manager.CreateMonitor.request`. -/
theorem CreateMonitor_sent {σ : Type} (H : HTTPEnv σ) (config : Config) (spec : MonitorSpec)
    (w : HTTPWorld σ) :
    (Manager.CreateMonitor H config spec w).2.sent =
      w.sent ++ (if H.RequestError "POST" (config.Endpoint ++ "/api/monitors") = none then
        [Manager.CreateMonitor.request config spec] else []) := by
  have hm : (Manager.CreateMonitor.request config spec).Method = "POST" := rfl
  have hu : (Manager.CreateMonitor.request config spec).URL =
      config.Endpoint ++ "/api/monitors" := rfl
  unfold Manager.CreateMonitor
  simp only [hm, hu]
  cases hreq : H.RequestError "POST" (config.Endpoint ++ "/api/monitors") with
  | some err => simp
  | none =>
    simp only [if_true]
    cases (H.Do (Manager.CreateMonitor.request config spec) w.state).1 with
    | error err => rfl
    | ok resp =>
      simp only
      cases resp.ReadErr with
      | some err => rfl
      | none =>
        simp only
        split
        · rfl
        · split <;> rfl

/-- C19 (counterexample): the body of the create request for the specification of the
pending example object contains the key `id`; with the empty string as time zone the
specification has a time zone but the body has no key `timezone`; and with an empty cron
expression the body has no key `cronExpr`. -/
theorem request_body_keys_counterexample :
    ((Manager.CreateMonitor.monitor (syncCronJob.monitorSpec pendingJob)).marshal.map Prod.fst) =
      ["id", "name", "scheduleType", "cronExpr", "graceSec", "tags"] ∧
    ((Manager.CreateMonitor.monitor
        ⟨"ops/backup", "CRON", "0 3 * * *", some "", 300, ["kubernetes"]⟩).marshal.map Prod.fst) =
      ["id", "name", "scheduleType", "cronExpr", "graceSec", "tags"] ∧
    ((Manager.CreateMonitor.monitor
        ⟨"ops/backup", "CRON", "", none, 300, ["kubernetes"]⟩).marshal.map Prod.fst) =
      ["id", "name", "scheduleType", "graceSec", "tags"] := by
  decide

/-- C19 (amended): the request that `CreateMonitor` sends is a POST to `/api/monitors` of the
endpoint whose body is the JSON object encoding the specification; apart from the key `id`,
the keys of that object are exactly `name`, `scheduleType` and `graceSec`, plus `cronExpr` only
when the cron expression is not empty, `timezone` only when the specification has a time zone
that is not the empty string, and `tags` only when the tag list is not empty. -/
theorem request_body_keys {σ : Type} (H : HTTPEnv σ) (config : Config) (spec : MonitorSpec)
    (w : HTTPWorld σ) :
    (Manager.CreateMonitor H config spec w).2.sent =
      w.sent ++ (if H.RequestError "POST" (config.Endpoint ++ "/api/monitors") = none then
        [Manager.CreateMonitor.request config spec] else []) ∧
    (Manager.CreateMonitor.request config spec).Method = "POST" ∧
    (Manager.CreateMonitor.request config spec).URL = config.Endpoint ++ "/api/monitors" ∧
    (Manager.CreateMonitor.request config spec).Body =
      some (Manager.CreateMonitor.monitor spec).marshal ∧
    ((Manager.CreateMonitor.monitor spec).marshal.map Prod.fst).filter (fun k => k != "id") =
      ["name", "scheduleType"] ++
      (if spec.CronExpr = "" then [] else ["cronExpr"]) ++
      (if spec.Timezone = none ∨ spec.Timezone = some "" then [] else ["timezone"]) ++
      ["graceSec"] ++
      (if spec.Tags = [] then [] else ["tags"]) := by
  refine ⟨CreateMonitor_sent H config spec w, rfl, rfl, rfl, ?_⟩
  have hk1 : (("name" : String) != "id") = true := by decide
  have hk2 : (("scheduleType" : String) != "id") = true := by decide
  have hk3 : (("cronExpr" : String) != "id") = true := by decide
  have hk4 : (("timezone" : String) != "id") = true := by decide
  have hk5 : (("graceSec" : String) != "id") = true := by decide
  have hk6 : (("tags" : String) != "id") = true := by decide
  have hk0 : (("id" : String) != "id") = false := by decide
  unfold Manager.CreateMonitor.monitor Monitor.marshal
  cases htz : spec.Timezone with
  | none =>
    by_cases hc : spec.CronExpr = "" <;> by_cases ht : spec.Tags = [] <;>
      simp [hc, ht, List.filter_cons, hk0, hk1, hk2, hk3, hk5, hk6]
  | some tz =>
    by_cases hz : tz = "" <;> by_cases hc : spec.CronExpr = "" <;>
      by_cases ht : spec.Tags = [] <;>
      simp [hz, hc, ht, List.filter_cons, hk0, hk1, hk2, hk3, hk4, hk5, hk6]


/-! ### The event watcher -/

theorem watchSteps_append_of_none (t ext : List Effect)
    (h : ∀ e ∈ ext, e.isWatchStep = false) : watchSteps (t ++ ext) = watchSteps t := by
  have : watchSteps ext = [] := by
    unfold watchSteps
    rw [List.filter_eq_nil_iff]
    intro e he
    simp [h e he]
  rw [watchSteps_append, this, List.append_nil]

theorem handleEvent_upsert_watchSteps {σ : Type} (E : Env σ) (cronJob : CronJob)
    (w : World σ) :
    watchSteps (handleEvent E ⟨EventType.Added, RuntimeObject.cronJob cronJob⟩ w).trace =
      watchSteps w.trace := by
  by_cases hs : shouldSync cronJob = true
  · obtain ⟨-, tail, htail, hlog, -⟩ := handleEvent_upsert E cronJob w hs
    obtain ⟨ext, hext, hloc⟩ := syncCronJob_trace E cronJob w
    rw [htail, hext, List.append_assoc]
    apply watchSteps_append_of_none
    intro e he
    rcases List.mem_append.1 he with he | he
    · rcases List.mem_cons.1 he with he | he
      · rw [he]
        exact upsertCall_isWatchStep cronJob
      · exact isWatchStep_of_isLocal (hloc e he)
    · obtain ⟨msg, hmsg⟩ := hlog e he
      rw [hmsg]
      rfl
  · have : handleEvent E ⟨EventType.Added, RuntimeObject.cronJob cronJob⟩ w = w := by
      simp [handleEvent, hs]
    rw [this]

theorem handleEvent_deleted_watchSteps {σ : Type} (E : Env σ) (cronJob : CronJob)
    (w : World σ) :
    watchSteps (handleEvent E ⟨EventType.Deleted, RuntimeObject.cronJob cronJob⟩ w).trace =
      watchSteps w.trace := by
  by_cases hs : shouldSync cronJob = true
  · by_cases hid : cronJob.Annotations.get AnnotationMonitorID = ""
    · simp [handleEvent, hs, deleteCronJobMonitor_of_empty E cronJob w hid]
    · have hd := deleteCronJobMonitor_of_id E cronJob w _ rfl hid
      simp only [handleEvent, hs, if_true, hd]
      cases (E.DeleteMonitor (cronJob.Annotations.get AnnotationMonitorID) w.state).1 with
      | none =>
        simp only
        apply watchSteps_append_of_none
        simp [Effect.isWatchStep]
      | some err =>
        simp only
        rw [List.append_assoc]
        apply watchSteps_append_of_none
        simp [Effect.isWatchStep]
  · simp [handleEvent, hs]

/-- Handling an event opens no subscription and does not sleep. -/
theorem handleEvent_watchSteps {σ : Type} (E : Env σ) (e : Event) (w : World σ) :
    watchSteps (handleEvent E e w).trace = watchSteps w.trace := by
  obtain ⟨typ, obj⟩ := e
  cases obj with
  | other kind =>
    show watchSteps (w.trace ++ [Effect.logWarning "Received non-CronJob object in watch event"])
      = watchSteps w.trace
    apply watchSteps_append_of_none
    simp [Effect.isWatchStep]
  | cronJob cronJob =>
    cases typ with
    | Added => exact handleEvent_upsert_watchSteps E cronJob w
    | Modified => exact handleEvent_upsert_watchSteps E cronJob w
    | Deleted => exact handleEvent_deleted_watchSteps E cronJob w
    | Bookmark => rfl
    | Error => rfl

/-- When the loop of `watchOnce` is left, it has opened no subscription and has not slept; it
is left without error after the `select` took the case of the done context, and with the error
`"watch channel closed"` after it took the case of the closed channel. -/
theorem watchOnce_loop_spec {σ : Type} (E : WatchEnv σ) (fuel : Nat) (w : World σ)
    (r : Option String) (w1 : World σ) (h : watchOnce.loop E fuel w = some (r, w1)) :
    watchSteps w1.trace = watchSteps w.trace ∧
    ((r = none ∧ ∃ s, E.Select s = (Selected.done, w1.state)) ∨
      (r = some "watch channel closed" ∧ ∃ s, E.Select s = (Selected.closed, w1.state))) := by
  induction fuel generalizing w with
  | zero => simp [watchOnce.loop] at h
  | succ fuel ih =>
    rw [watchOnce.loop] at h
    rcases hsel : E.Select w.state with ⟨c, s⟩
    rw [hsel] at h
    cases c with
    | done =>
      simp only [Option.some.injEq, Prod.mk.injEq] at h
      obtain ⟨hr, hw⟩ := h
      subst hw
      refine ⟨?_, Or.inl ⟨hr.symm, w.state, hsel⟩⟩
      apply watchSteps_append_of_none
      simp [Effect.isWatchStep]
    | closed =>
      simp only [Option.some.injEq, Prod.mk.injEq] at h
      obtain ⟨hr, hw⟩ := h
      subst hw
      refine ⟨?_, Or.inr ⟨hr.symm, w.state, hsel⟩⟩
      apply watchSteps_append_of_none
      simp [Effect.isWatchStep]
    | event e =>
      simp only at h
      obtain ⟨h1, h2⟩ := ih _ h
      refine ⟨?_, h2⟩
      rw [h1, handleEvent_watchSteps]

/-- When `watchOnce` returns it has made exactly one subscription attempt and has not slept. -/
theorem watchOnce_watchSteps {σ : Type} (E : WatchEnv σ) (ns : String) (fuel : Nat)
    (w : World σ) (r : Option String) (w1 : World σ)
    (h : watchOnce E ns fuel w = some (r, w1)) :
    watchSteps w1.trace = watchSteps w.trace ++ [Effect.clusterWatch ns] := by
  unfold watchOnce at h
  simp only at h
  cases hw : (E.Watch ns w.state).1 with
  | some err =>
    rw [hw] at h
    simp only [Option.some.injEq, Prod.mk.injEq] at h
    rw [← h.2]
    simp [watchSteps, Effect.isWatchStep]
  | none =>
    rw [hw] at h
    simp only at h
    rw [(watchOnce_loop_spec E fuel _ r w1 h).1]
    simp [watchSteps, Effect.isWatchStep]

/-- With a context that is done once a `select` has taken its case, `watchOnce` returns without
error only when the context is done. -/
theorem watchOnce_nil_done {σ : Type} (E : WatchEnv σ) (ns : String) (fuel : Nat)
    (w w1 : World σ)
    (hctx : ∀ s, (E.Select s).1 = Selected.done → E.Done (E.Select s).2 = true)
    (h : watchOnce E ns fuel w = some (none, w1)) :
    E.Done w1.state = true ∧ ∃ s, E.Select s = (Selected.done, w1.state) := by
  unfold watchOnce at h
  simp only at h
  cases hw : (E.Watch ns w.state).1 with
  | some err =>
    rw [hw] at h
    simp at h
  | none =>
    rw [hw] at h
    simp only at h
    rcases (watchOnce_loop_spec E fuel _ none w1 h).2 with ⟨-, s, hs⟩ | ⟨hr, -⟩
    · refine ⟨?_, s, hs⟩
      have := hctx s (by rw [hs])
      rw [hs] at this
      exact this
    · exact absurd hr (by simp)


theorem watchOnce_loop_mono {σ : Type} (E : WatchEnv σ) (fuel : Nat) (w : World σ)
    (x : Option String × World σ) (h : watchOnce.loop E fuel w = some x) :
    watchOnce.loop E (fuel + 1) w = some x := by
  induction fuel generalizing w with
  | zero => simp [watchOnce.loop] at h
  | succ fuel ih =>
    rw [watchOnce.loop] at h ⊢
    rcases hsel : E.Select w.state with ⟨c, s⟩
    rw [hsel] at h
    cases c with
    | done => exact h
    | closed => exact h
    | event e => exact ih _ h

theorem watchOnce_mono {σ : Type} (E : WatchEnv σ) (ns : String) (fuel : Nat) (w : World σ)
    (x : Option String × World σ) (h : watchOnce E ns fuel w = some x) :
    watchOnce E ns (fuel + 1) w = some x := by
  unfold watchOnce at h ⊢
  simp only at h ⊢
  cases hw : (E.Watch ns w.state).1 with
  | some err =>
    rw [hw] at h
    exact h
  | none =>
    rw [hw] at h
    exact watchOnce_loop_mono E fuel _ x h

theorem watchCronJobs_mono {σ : Type} (E : WatchEnv σ) (ns : String) (fuel : Nat)
    (w w1 : World σ) (h : watchCronJobs E ns fuel w = some w1) :
    watchCronJobs E ns (fuel + 1) w = some w1 := by
  induction fuel generalizing w with
  | zero => simp [watchCronJobs] at h
  | succ fuel ih =>
    rw [watchCronJobs] at h ⊢
    by_cases hd : E.Done w.state = true
    · rw [if_pos hd] at h ⊢
      exact h
    · rw [if_neg hd] at h ⊢
      cases ho : watchOnce E ns fuel w with
      | none =>
        rw [ho] at h
        exact absurd h (by simp)
      | some x =>
        rw [ho] at h
        rw [watchOnce_mono E ns fuel w x ho]
        obtain ⟨r, w2⟩ := x
        cases r with
        | none => exact ih _ h
        | some err => exact ih _ h

/-- When `watchCronJobs` returns, the context is done, and its subscription attempts and
sleeps are a number of rounds of one attempt and one sleep of 5 seconds, followed at most by
one last attempt. -/
theorem watchCronJobs_pattern {σ : Type} (E : WatchEnv σ) (ns : String)
    (hctx : ∀ s, (E.Select s).1 = Selected.done → E.Done (E.Select s).2 = true)
    (fuel : Nat) (w w1 : World σ) (h : watchCronJobs E ns fuel w = some w1) :
    E.Done w1.state = true ∧
    ∃ (k : Nat) (last : Bool), watchSteps w1.trace =
      watchSteps w.trace ++ backoffRounds ns k ++
        (if last = true then [Effect.clusterWatch ns] else []) := by
  induction fuel generalizing w with
  | zero => simp [watchCronJobs] at h
  | succ fuel ih =>
    rw [watchCronJobs] at h
    by_cases hd : E.Done w.state = true
    · rw [if_pos hd] at h
      have hw := Option.some.inj h
      subst hw
      exact ⟨hd, 0, false, by simp [backoffRounds]⟩
    · rw [if_neg hd] at h
      cases ho : watchOnce E ns fuel w with
      | none =>
        rw [ho] at h
        exact absurd h (by simp)
      | some x =>
        rw [ho] at h
        obtain ⟨r, w2⟩ := x
        have hsteps := watchOnce_watchSteps E ns fuel w r w2 ho
        cases r with
        | none =>
          simp only at h
          obtain ⟨hdone, -⟩ := watchOnce_nil_done E ns fuel w w2 hctx ho
          cases fuel with
          | zero => simp [watchCronJobs] at h
          | succ fuel =>
            rw [watchCronJobs, if_pos hdone] at h
            have hw := Option.some.inj h
            subst hw
            exact ⟨hdone, 0, true, by simp [backoffRounds, hsteps]⟩
        | some err =>
          simp only at h
          obtain ⟨hdone, k, last, hk⟩ := ih _ h
          refine ⟨hdone, k + 1, last, ?_⟩
          rw [hk]
          have : watchSteps (w2.trace ++
              [Effect.logError ("Watch error: " ++ err), Effect.sleep 5]) =
              watchSteps w.trace ++ [Effect.clusterWatch ns, Effect.sleep 5] := by
            rw [watchSteps_append, hsteps]
            simp [watchSteps, Effect.isWatchStep]
          rw [this]
          simp [backoffRounds]

/-- After `n` events in a row the loop of `watchOnce` goes on from the world reached, with the
rest of the bound. -/
theorem watchOnce_loop_afterEvents {σ : Type} (E : WatchEnv σ) (n fuel : Nat) (w w1 : World σ)
    (h : afterEvents E n w = some w1) :
    watchOnce.loop E (n + fuel) w = watchOnce.loop E fuel w1 := by
  induction n generalizing w with
  | zero =>
    rw [afterEvents] at h
    rw [Nat.zero_add, Option.some.inj h]
  | succ n ih =>
    rw [afterEvents] at h
    have e : n + 1 + fuel = (n + fuel) + 1 := by omega
    rw [e, watchOnce.loop]
    rcases hsel : E.Select w.state with ⟨c, s⟩
    rw [hsel] at h
    cases c with
    | done => exact absurd h (by simp)
    | closed => exact absurd h (by simp)
    | event ev => exact ih _ h

/-- Handling events in a row opens no subscription and does not sleep. -/
theorem afterEvents_watchSteps {σ : Type} (E : WatchEnv σ) (n : Nat) (w w1 : World σ)
    (h : afterEvents E n w = some w1) : watchSteps w1.trace = watchSteps w.trace := by
  induction n generalizing w with
  | zero =>
    rw [afterEvents] at h
    rw [Option.some.inj h]
  | succ n ih =>
    rw [afterEvents] at h
    rcases hsel : E.Select w.state with ⟨c, s⟩
    rw [hsel] at h
    cases c with
    | done => exact absurd h (by simp)
    | closed => exact absurd h (by simp)
    | event ev =>
      rw [ih _ h, handleEvent_watchSteps]

/-- On an open subscription on which `n` events arrive and the result channel is then found
closed, `watchOnce` returns the error `"watch channel closed"` after it has handled the events
and stopped the subscription, for every bound above `n`. -/
theorem watchOnce_returns_closed {σ : Type} (E : WatchEnv σ) (ns : String) (w : World σ)
    (s0 : σ) (n : Nat) (w1 : World σ) (s2 : σ) (fuel : Nat)
    (hw : E.Watch ns w.state = (none, s0))
    (hev : afterEvents E n ⟨s0, w.trace ++ [Effect.clusterWatch ns]⟩ = some w1)
    (hsel : E.Select w1.state = (Selected.closed, s2)) :
    watchOnce E ns (n + (fuel + 1)) w =
      some (some "watch channel closed", ⟨s2, w1.trace ++ [Effect.watchStop]⟩) := by
  unfold watchOnce
  simp only [hw]
  rw [watchOnce_loop_afterEvents E n (fuel + 1) _ w1 hev, watchOnce.loop, hsel]

/-- On an open subscription on which `n` events arrive and the context is then found done,
`watchOnce` returns without error after it has handled the events and stopped the
subscription, for every bound above `n`. -/
theorem watchOnce_returns_done {σ : Type} (E : WatchEnv σ) (ns : String) (w : World σ)
    (s0 : σ) (n : Nat) (w1 : World σ) (s2 : σ) (fuel : Nat)
    (hw : E.Watch ns w.state = (none, s0))
    (hev : afterEvents E n ⟨s0, w.trace ++ [Effect.clusterWatch ns]⟩ = some w1)
    (hsel : E.Select w1.state = (Selected.done, s2)) :
    watchOnce E ns (n + (fuel + 1)) w = some (none, ⟨s2, w1.trace ++ [Effect.watchStop]⟩) := by
  unfold watchOnce
  simp only [hw]
  rw [watchOnce_loop_afterEvents E n (fuel + 1) _ w1 hev, watchOnce.loop, hsel]

/-- When the subscription cannot be opened, `watchOnce` returns the wrapped error at once. -/
theorem watchOnce_returns_refused {σ : Type} (E : WatchEnv σ) (ns : String) (w : World σ)
    (err : String) (s1 : σ) (fuel : Nat) (hw : E.Watch ns w.state = (some err, s1)) :
    watchOnce E ns fuel w = some (some ("failed to create watcher: " ++ err),
      ⟨s1, w.trace ++ [Effect.clusterWatch ns]⟩) := by
  unfold watchOnce
  simp only [hw]

/-- C20: with a context that is done once a `select` has taken its case.  `watchOnce` returns:
when the subscription cannot be opened it returns the wrapped error at once, and on an open
subscription on which `n` events arrive before the result channel is found closed it returns
the error `"watch channel closed"`, after it has handled these events, for every bound on the
iterations above `n`; when instead the context is found done it returns without error.  It
returns without error only when the context is done.  After an error of `watchOnce`, be it a
refused subscription or a closed channel, `watchCronJobs` logs it, sleeps 5 seconds and goes on
from there, where it returns without any call when the context is done and otherwise calls
`watchOnce` again, which makes exactly one subscription attempt; after a `watchOnce` that ended
with the cancellation, `watchCronJobs` returns without another subscription.  So whenever
`watchCronJobs` returns, the context is done and the subscription attempts and sleeps it has
made are rounds of exactly one attempt followed by one sleep of 5 seconds, ended at most by one
last attempt, the one that was cancelled.  The results do not depend on the bound on the
iterations once it is large enough. -/
theorem watch_resilience {σ : Type} (E : WatchEnv σ) (ns : String)
    (hctx : ∀ s, (E.Select s).1 = Selected.done → E.Done (E.Select s).2 = true) :
    (∀ (w : World σ) (err : String) (s1 : σ) (fuel : Nat), E.Watch ns w.state = (some err, s1) →
      watchOnce E ns fuel w = some (some ("failed to create watcher: " ++ err),
        ⟨s1, w.trace ++ [Effect.clusterWatch ns]⟩)) ∧
    (∀ (w : World σ) (s1 : σ) (fuel : Nat), E.Select w.state = (Selected.closed, s1) →
      watchOnce.loop E (fuel + 1) w =
        some (some "watch channel closed", ⟨s1, w.trace ++ [Effect.watchStop]⟩)) ∧
    (∀ (w w1 : World σ) (fuel : Nat), watchOnce E ns fuel w = some (none, w1) →
      E.Done w1.state = true ∧ ∃ s, E.Select s = (Selected.done, w1.state)) ∧
    (∀ (w w1 : World σ) (fuel : Nat) (err : String), E.Done w.state = false →
      watchOnce E ns fuel w = some (some err, w1) →
      watchCronJobs E ns (fuel + 1) w = watchCronJobs E ns fuel
        ⟨E.Sleep 5 w1.state,
          w1.trace ++ [Effect.logError ("Watch error: " ++ err), Effect.sleep 5]⟩) ∧
    (∀ (w : World σ) (fuel : Nat), E.Done w.state = true →
      watchCronJobs E ns (fuel + 1) w = some w) ∧
    (∀ (w w1 : World σ) (fuel : Nat), E.Done w.state = false →
      watchOnce E ns (fuel + 1) w = some (none, w1) →
      watchCronJobs E ns (fuel + 2) w = some w1) ∧
    (∀ (w : World σ) (fuel : Nat) (r : Option String) (w1 : World σ),
      watchOnce E ns fuel w = some (r, w1) →
      watchSteps w1.trace = watchSteps w.trace ++ [Effect.clusterWatch ns]) ∧
    (∀ (w w1 : World σ) (fuel : Nat), watchCronJobs E ns fuel w = some w1 →
      E.Done w1.state = true ∧
      ∃ (k : Nat) (last : Bool), watchSteps w1.trace =
        watchSteps w.trace ++ backoffRounds ns k ++
          (if last = true then [Effect.clusterWatch ns] else [])) ∧
    (∀ (w w1 : World σ) (fuel : Nat), watchCronJobs E ns fuel w = some w1 →
      watchCronJobs E ns (fuel + 1) w = some w1) ∧
    (∀ (w : World σ) (s0 : σ) (n : Nat) (w1 : World σ) (s2 : σ) (fuel : Nat),
      E.Watch ns w.state = (none, s0) →
      afterEvents E n ⟨s0, w.trace ++ [Effect.clusterWatch ns]⟩ = some w1 →
      E.Select w1.state = (Selected.closed, s2) →
      watchOnce E ns (n + (fuel + 1)) w =
        some (some "watch channel closed", ⟨s2, w1.trace ++ [Effect.watchStop]⟩)) ∧
    (∀ (w : World σ) (s0 : σ) (n : Nat) (w1 : World σ) (s2 : σ) (fuel : Nat),
      E.Watch ns w.state = (none, s0) →
      afterEvents E n ⟨s0, w.trace ++ [Effect.clusterWatch ns]⟩ = some w1 →
      E.Select w1.state = (Selected.done, s2) →
      watchOnce E ns (n + (fuel + 1)) w =
        some (none, ⟨s2, w1.trace ++ [Effect.watchStop]⟩)) ∧
    (∀ (n : Nat) (w w1 : World σ), afterEvents E n w = some w1 →
      watchSteps w1.trace = watchSteps w.trace) ∧
    (∀ (w : World σ) (err : String) (s1 : σ) (fuel : Nat), E.Done w.state = false →
      E.Watch ns w.state = (some err, s1) →
      watchCronJobs E ns (fuel + 1) w = watchCronJobs E ns fuel
        ⟨E.Sleep 5 s1,
          (w.trace ++ [Effect.clusterWatch ns]) ++
            [Effect.logError ("Watch error: " ++ ("failed to create watcher: " ++ err)),
              Effect.sleep 5]⟩) ∧
    (∀ (w : World σ) (s0 : σ) (n : Nat) (w1 : World σ) (s2 : σ) (fuel : Nat),
      E.Done w.state = false → E.Watch ns w.state = (none, s0) →
      afterEvents E n ⟨s0, w.trace ++ [Effect.clusterWatch ns]⟩ = some w1 →
      E.Select w1.state = (Selected.closed, s2) →
      watchCronJobs E ns (n + (fuel + 1) + 1) w = watchCronJobs E ns (n + (fuel + 1))
        ⟨E.Sleep 5 s2,
          (w1.trace ++ [Effect.watchStop]) ++
            [Effect.logError ("Watch error: " ++ "watch channel closed"), Effect.sleep 5]⟩) ∧
    (∀ (w : World σ) (s0 : σ) (n : Nat) (w1 : World σ) (s2 : σ) (fuel : Nat),
      E.Done w.state = false → E.Watch ns w.state = (none, s0) →
      afterEvents E n ⟨s0, w.trace ++ [Effect.clusterWatch ns]⟩ = some w1 →
      E.Select w1.state = (Selected.done, s2) →
      watchCronJobs E ns (n + (fuel + 1) + 1) w =
        some ⟨s2, w1.trace ++ [Effect.watchStop]⟩) := by
  refine ⟨?_, ?_, ?_, ?_, ?_, ?_, ?_, ?_, ?_, ?_, ?_, ?_, ?_, ?_, ?_⟩
  · intro w err s1 fuel hw
    exact watchOnce_returns_refused E ns w err s1 fuel hw
  · intro w s1 fuel hsel
    rw [watchOnce.loop, hsel]
  · intro w w1 fuel h
    exact watchOnce_nil_done E ns fuel w w1 hctx h
  · intro w w1 fuel err hd ho
    have hd1 : ¬ (E.Done w.state = true) := by simp [hd]
    rw [watchCronJobs, if_neg hd1, ho]
  · intro w fuel hd
    rw [watchCronJobs, if_pos hd]
  · intro w w1 fuel hd ho
    have hd1 : ¬ (E.Done w.state = true) := by simp [hd]
    have hdone := (watchOnce_nil_done E ns (fuel + 1) w w1 hctx ho).1
    rw [watchCronJobs, if_neg hd1, ho]
    simp only
    rw [watchCronJobs, if_pos hdone]
  · intro w fuel r w1 ho
    exact watchOnce_watchSteps E ns fuel w r w1 ho
  · intro w w1 fuel h
    exact watchCronJobs_pattern E ns hctx fuel w w1 h
  · intro w w1 fuel h
    exact watchCronJobs_mono E ns fuel w w1 h
  · intro w s0 n w1 s2 fuel hw hev hsel
    exact watchOnce_returns_closed E ns w s0 n w1 s2 fuel hw hev hsel
  · intro w s0 n w1 s2 fuel hw hev hsel
    exact watchOnce_returns_done E ns w s0 n w1 s2 fuel hw hev hsel
  · intro n w w1 h
    exact afterEvents_watchSteps E n w w1 h
  · intro w err s1 fuel hd hw
    have hd1 : ¬ (E.Done w.state = true) := by simp [hd]
    rw [watchCronJobs, if_neg hd1, watchOnce_returns_refused E ns w err s1 fuel hw]
  · intro w s0 n w1 s2 fuel hd hw hev hsel
    have hd1 : ¬ (E.Done w.state = true) := by simp [hd]
    rw [watchCronJobs, if_neg hd1, watchOnce_returns_closed E ns w s0 n w1 s2 fuel hw hev hsel]
  · intro w s0 n w1 s2 fuel hd hw hev hsel
    have hd1 : ¬ (E.Done w.state = true) := by simp [hd]
    have hdone : E.Done s2 = true := by
      have := hctx w1.state (by rw [hsel])
      rw [hsel] at this
      exact this
    have e : n + (fuel + 1) = (n + fuel) + 1 := by omega
    rw [watchCronJobs, if_neg hd1, watchOnce_returns_done E ns w s0 n w1 s2 fuel hw hev hsel]
    simp only
    rw [e, watchCronJobs, if_pos hdone]

theorem scriptEnv_ctx (s : List Selected) :
    (scriptEnv.Select s).1 = Selected.done → scriptEnv.Done (scriptEnv.Select s).2 = true := by
  intro h
  cases s with
  | nil => rfl
  | cons c rest =>
    cases c with
    | done => rfl
    | closed => exact absurd h (by simp [scriptEnv])
    | event e => exact absurd h (by simp [scriptEnv])


/-- C20 (witness): the stream delivers a Modified event for the managed example object and
closes; after the backoff the watcher subscribes again, and that subscription ends with the
cancellation of the controller.  The run makes two subscription attempts with one sleep of 5
seconds between them; the first call of `watchOnce` returns the error of the closed channel
after it has handled the event, and `watchCronJobs` goes on from the world after the backoff. -/
theorem watch_resilience_witness :
    Option.map World.trace (watchCronJobs scriptEnv "ops" 6
      ⟨[Selected.event ⟨EventType.Modified, RuntimeObject.cronJob managedJob⟩, Selected.closed,
        Selected.done], []⟩) =
      some [Effect.clusterWatch "ops",
        Effect.remoteUpdate "m-1" (syncCronJob.monitorSpec managedJob),
        Effect.watchStop,
        Effect.logError "Watch error: watch channel closed",
        Effect.sleep 5,
        Effect.clusterWatch "ops",
        Effect.watchStop] ∧
    (scriptEnv.Done ([] : List Selected) = true ∧
      ∃ (k : Nat) (last : Bool),
        watchSteps [Effect.clusterWatch "ops",
          Effect.remoteUpdate "m-1" (syncCronJob.monitorSpec managedJob),
          Effect.watchStop,
          Effect.logError "Watch error: watch channel closed",
          Effect.sleep 5,
          Effect.clusterWatch "ops",
          Effect.watchStop] =
        watchSteps [] ++ backoffRounds "ops" k ++
          (if last = true then [Effect.clusterWatch "ops"] else [])) ∧
    watchOnce scriptEnv "ops" (1 + (0 + 1))
      ⟨[Selected.event ⟨EventType.Modified, RuntimeObject.cronJob managedJob⟩, Selected.closed,
        Selected.done], []⟩ =
      some (some "watch channel closed",
        ⟨[Selected.done],
          [Effect.clusterWatch "ops",
            Effect.remoteUpdate "m-1" (syncCronJob.monitorSpec managedJob)] ++
          [Effect.watchStop]⟩) ∧
    watchCronJobs scriptEnv "ops" (1 + (0 + 1) + 1)
      ⟨[Selected.event ⟨EventType.Modified, RuntimeObject.cronJob managedJob⟩, Selected.closed,
        Selected.done], []⟩ =
      watchCronJobs scriptEnv "ops" (1 + (0 + 1))
        ⟨scriptEnv.Sleep 5 [Selected.done],
          ([Effect.clusterWatch "ops",
            Effect.remoteUpdate "m-1" (syncCronJob.monitorSpec managedJob)] ++
          [Effect.watchStop]) ++
            [Effect.logError ("Watch error: " ++ "watch channel closed"), Effect.sleep 5]⟩ :=
  ⟨by decide,
   (watch_resilience scriptEnv "ops" scriptEnv_ctx).2.2.2.2.2.2.2.1
    ⟨[Selected.event ⟨EventType.Modified, RuntimeObject.cronJob managedJob⟩, Selected.closed,
        Selected.done], []⟩
    ⟨[], [Effect.clusterWatch "ops",
        Effect.remoteUpdate "m-1" (syncCronJob.monitorSpec managedJob),
        Effect.watchStop,
        Effect.logError "Watch error: watch channel closed",
        Effect.sleep 5,
        Effect.clusterWatch "ops",
        Effect.watchStop]⟩ 6 (by rfl),
   (watch_resilience scriptEnv "ops" scriptEnv_ctx).2.2.2.2.2.2.2.2.2.1
    ⟨[Selected.event ⟨EventType.Modified, RuntimeObject.cronJob managedJob⟩, Selected.closed,
        Selected.done], []⟩
    [Selected.event ⟨EventType.Modified, RuntimeObject.cronJob managedJob⟩, Selected.closed,
        Selected.done] 1
    ⟨[Selected.closed, Selected.done], [Effect.clusterWatch "ops",
        Effect.remoteUpdate "m-1" (syncCronJob.monitorSpec managedJob)]⟩
    [Selected.done] 0 rfl (by rfl) rfl,
   (watch_resilience scriptEnv "ops" scriptEnv_ctx).2.2.2.2.2.2.2.2.2.2.2.2.2.1
    ⟨[Selected.event ⟨EventType.Modified, RuntimeObject.cronJob managedJob⟩, Selected.closed,
        Selected.done], []⟩
    [Selected.event ⟨EventType.Modified, RuntimeObject.cronJob managedJob⟩, Selected.closed,
        Selected.done] 1
    ⟨[Selected.closed, Selected.done], [Effect.clusterWatch "ops",
        Effect.remoteUpdate "m-1" (syncCronJob.monitorSpec managedJob)]⟩
    [Selected.done] 0 rfl rfl (by rfl) rfl⟩


/-! ### Retry of a failed create, payloads and names -/

theorem upsertCall_of_no_id (cronJob : CronJob)
    (hno : cronJob.Annotations.get AnnotationMonitorID = "") :
    upsertCall cronJob = Effect.remoteCreate (syncCronJob.monitorSpec cronJob) := by
  unfold upsertCall
  rw [if_pos hno]

/-- C21: for every object without a recorded monitor-id, when the remote create fails with
`err`, `syncCronJob` returns an error that wraps it, and the remote create is the only action of
the cycle: no cluster get, no cluster update, so no monitor-id annotation is written and the
object is as before.  Hence the next reconcile of the object, in whatever world, starts again
with the remote create. -/
theorem create_failure_retried {σ : Type} (E : Env σ) (cronJob : CronJob) (w : World σ)
    (err : String) (s1 : σ)
    (hno : cronJob.Annotations.get AnnotationMonitorID = "")
    (hfail : E.CreateMonitor (syncCronJob.monitorSpec cronJob) w.state = (Except.error err, s1)) :
    syncCronJob E cronJob w =
      (some ("failed to create monitor: " ++ err),
        ⟨s1, w.trace ++ [Effect.remoteCreate (syncCronJob.monitorSpec cronJob)]⟩) ∧
    ∀ w2 : World σ, ∃ ext, (syncCronJob E cronJob w2).2.trace =
      w2.trace ++ Effect.remoteCreate (syncCronJob.monitorSpec cronJob) :: ext := by
  constructor
  · unfold syncCronJob
    simp only [hno, hfail]
    have hb : ¬ (("" : String) != "") = true := by decide
    rw [if_neg hb]
  · intro w2
    obtain ⟨ext, hext, -⟩ := syncCronJob_trace E cronJob w2
    rw [upsertCall_of_no_id cronJob hno] at hext
    exact ⟨ext, hext⟩

/-- C21 (witness): the pending example object while the remote API is down. -/
theorem create_failure_retried_witness :
    syncCronJob (remoteDownEnv []) pendingJob ⟨0, []⟩ =
      (some ("failed to create monitor: " ++ "API error 503: unavailable"),
        ⟨1, [] ++ [Effect.remoteCreate (syncCronJob.monitorSpec pendingJob)]⟩) ∧
    ∀ w2 : World Nat, ∃ ext, (syncCronJob (remoteDownEnv []) pendingJob w2).2.trace =
      w2.trace ++ Effect.remoteCreate (syncCronJob.monitorSpec pendingJob) :: ext :=
  create_failure_retried (remoteDownEnv []) pendingJob ⟨0, []⟩ "API error 503: unavailable" 1
    (by decide) rfl

/-- C22: for every monitor specification, the `Monitor` that `UpdateMonitor` encodes is equal to
the one that `CreateMonitor` encodes: the name, schedule type, cron expression, grace period and
tags of the specification, its time zone when it is set and the empty string otherwise, and the
empty identifier.  The two requests have the same body and the same headers; they differ in the
method (`PATCH`, `POST`) and in the path, to which `UpdateMonitor` appends the identifier. -/
theorem update_payload_eq_create (config : Config) (id : String) (spec : MonitorSpec) :
    Manager.UpdateMonitor.monitor spec = Manager.CreateMonitor.monitor spec ∧
    Manager.CreateMonitor.monitor spec =
      { ID := "", Name := spec.Name, ScheduleType := spec.ScheduleType,
        CronExpr := spec.CronExpr, Timezone := spec.Timezone.getD "",
        GraceSec := spec.GraceSec, Tags := spec.Tags } ∧
    (Manager.UpdateMonitor.request config id spec).Body =
      (Manager.CreateMonitor.request config spec).Body ∧
    (Manager.UpdateMonitor.request config id spec).Header =
      (Manager.CreateMonitor.request config spec).Header ∧
    (Manager.CreateMonitor.request config spec).Method = "POST" ∧
    (Manager.UpdateMonitor.request config id spec).Method = "PATCH" ∧
    (Manager.CreateMonitor.request config spec).URL = config.Endpoint ++ "/api/monitors" ∧
    (Manager.UpdateMonitor.request config id spec).URL =
      config.Endpoint ++ "/api/monitors" ++ "/" ++ id := by
  have h1 : Manager.UpdateMonitor.monitor spec = Manager.CreateMonitor.monitor spec := by
    unfold Manager.UpdateMonitor.monitor Manager.CreateMonitor.monitor
    cases spec.Timezone <;> rfl
  refine ⟨h1, ?_, ?_, rfl, rfl, rfl, rfl, ?_⟩
  · unfold Manager.CreateMonitor.monitor
    cases spec.Timezone <;> rfl
  · show some (Manager.UpdateMonitor.monitor spec).marshal =
      some (Manager.CreateMonitor.monitor spec).marshal
    rw [h1]
  · show config.Endpoint ++ "/api/monitors/" ++ id = config.Endpoint ++ "/api/monitors" ++ "/" ++ id
    have : config.Endpoint ++ "/api/monitors/" = config.Endpoint ++ "/api/monitors" ++ "/" := by
      rw [String.append_assoc]
      rfl
    rw [this]

theorem append_sep_inj (c : Char) (l1 l2 r1 r2 : List Char) (h1 : c ∉ l1) (h2 : c ∉ l2)
    (h : l1 ++ c :: r1 = l2 ++ c :: r2) : l1 = l2 ∧ r1 = r2 := by
  induction l1 generalizing l2 with
  | nil =>
    cases l2 with
    | nil => exact ⟨rfl, by simpa using h⟩
    | cons y ys =>
      simp only [List.nil_append, List.cons_append, List.cons.injEq] at h
      exact absurd (h.1 ▸ List.mem_cons_self y ys) h2
  | cons x xs ih =>
    cases l2 with
    | nil =>
      simp only [List.nil_append, List.cons_append, List.cons.injEq] at h
      exact absurd (h.1 ▸ List.mem_cons_self x xs) h1
    | cons y ys =>
      simp only [List.cons_append, List.cons.injEq] at h
      obtain ⟨hxy, hrest⟩ := h
      have := ih ys (fun hm => h1 (List.mem_cons_of_mem x hm))
        (fun hm => h2 (List.mem_cons_of_mem y hm)) hrest
      exact ⟨by rw [hxy, this.1], this.2⟩

/-- C24: for any two objects whose namespaces contain no `/`, the monitor names that
`syncCronJob` builds are equal only if the namespaces are equal and the names are equal. -/
theorem monitorName_injective (a b : CronJob) (ha : '/' ∉ a.Namespace.toList)
    (hb : '/' ∉ b.Namespace.toList)
    (h : (syncCronJob.monitorSpec a).Name = (syncCronJob.monitorSpec b).Name) :
    a.Namespace = b.Namespace ∧ a.Name = b.Name := by
  have h1 : a.Namespace ++ "/" ++ a.Name = b.Namespace ++ "/" ++ b.Name := h
  have h2 := congrArg String.data h1
  simp only [String.data_append] at h2
  have h3 : a.Namespace.data ++ '/' :: a.Name.data = b.Namespace.data ++ '/' :: b.Name.data := by
    simpa using h2
  obtain ⟨hn, hm⟩ := append_sep_inj '/' _ _ _ _ ha hb h3
  exact ⟨String.ext hn, String.ext hm⟩

/-- C24 (witness): the pending and the managed example objects have the same monitor name, and
indeed the same namespace and name. -/
theorem monitorName_injective_witness :
    pendingJob.Namespace = managedJob.Namespace ∧ pendingJob.Name = managedJob.Name :=
  monitorName_injective pendingJob managedJob (by decide) (by decide) (by decide)


/-! ### The Kubernetes sidecar -/

/-- With a limit that is not negative, the truncation of the sidecar does not panic and keeps
the last bytes. -/
theorem truncate_eq_lastBytes (output : List UInt8) (limit : Int) (h : 0 ≤ limit) :
    (if (output.length : Int) > limit then
        goSliceFrom output ((output.length : Int) - limit)
      else some output) = some (lastBytes output limit.toNat) := by
  obtain ⟨n, rfl⟩ := Int.eq_ofNat_of_zero_le h
  simp only [Int.toNat_ofNat]
  unfold lastBytes goSliceFrom
  by_cases hlt : (output.length : Int) > (n : Int)
  · have hlt1 : n < output.length := by exact_mod_cast hlt
    have hr : 0 ≤ (output.length : Int) - (n : Int) ∧
        (output.length : Int) - (n : Int) ≤ (output.length : Int) := by omega
    rw [if_pos hlt, if_pos hr]
    have hmin : min output.length n = n := by omega
    have hto : ((output.length : Int) - (n : Int)).toNat = output.length - n := by omega
    rw [hmin, hto]
  · have hle : output.length ≤ n := by
      have : ¬ (n < output.length) := fun hc => hlt (by exact_mod_cast hc)
      omega
    rw [if_neg hlt]
    have hmin : min output.length n = output.length := by omega
    rw [hmin, Nat.sub_self, List.drop_zero]

theorem lastBytes_props (s : List UInt8) (n : Nat) :
    lastBytes s n <:+ s ∧ (lastBytes s n).length = min s.length n ∧
      (lastBytes s n).length ≤ n ∧ (s.length ≤ n → lastBytes s n = s) := by
  unfold lastBytes
  refine ⟨List.drop_suffix _ _, ?_, ?_, ?_⟩
  · rw [List.length_drop]
    omega
  · rw [List.length_drop]
    omega
  · intro h
    have : min s.length n = s.length := by omega
    rw [this, Nat.sub_self, List.drop_zero]

/-- A request that `sendPing` has built and `http.NewRequest` accepts is sent, once, and
the result is an error unless the round trip gives a response with a status from 200 to 299. -/
theorem Sidecar.sendPing_sends {σ : Type} (H : Sidecar.HTTP σ) (config : Sidecar.Config)
    (state : String) (exitCode : Int) (output : List UInt8) (durationMs : Option Int)
    (w : σ × List Sidecar.PingRequest) (req : Sidecar.PingRequest)
    (hreq : Sidecar.sendPing.request config state exitCode output durationMs = some req)
    (hre : H.RequestError req = none) :
    ∃ r, Sidecar.sendPing H config state exitCode output durationMs w =
        some (r, ((H.Do req w.1).2, w.2 ++ [req])) ∧
      (r = none ↔ ∃ resp, (H.Do req w.1).1 = Except.ok resp ∧
        200 ≤ resp.StatusCode ∧ resp.StatusCode < 300) := by
  unfold Sidecar.sendPing
  rw [hreq]
  simp only [hre]
  cases hdo : (H.Do req w.1).1 with
  | error e => exact ⟨_, rfl, by simp⟩
  | ok resp =>
    simp only
    by_cases hs : resp.StatusCode < 200 ∨ resp.StatusCode ≥ 300
    · rw [if_pos hs]
      refine ⟨_, rfl, ?_⟩
      constructor
      · intro h
        exact absurd h (by simp)
      · rintro ⟨resp1, h1, h2, h3⟩
        have e : resp = resp1 := Except.ok.inj h1
        rw [← e] at h2 h3
        omega
    · rw [if_neg hs]
      refine ⟨none, rfl, ?_⟩
      constructor
      · intro _
        exact ⟨resp, rfl, by omega, by omega⟩
      · intro _
        rfl

/-- A request that `sendPing` has built and `http.NewRequest` refuses is not sent. -/
theorem Sidecar.sendPing_refused {σ : Type} (H : Sidecar.HTTP σ) (config : Sidecar.Config)
    (state : String) (exitCode : Int) (output : List UInt8) (durationMs : Option Int)
    (w : σ × List Sidecar.PingRequest) (req : Sidecar.PingRequest) (err : String)
    (hreq : Sidecar.sendPing.request config state exitCode output durationMs = some req)
    (hre : H.RequestError req = some err) :
    Sidecar.sendPing H config state exitCode output durationMs w =
      some (some ("failed to create " ++ req.Method ++ " request: " ++ err), w) := by
  unfold Sidecar.sendPing
  rw [hreq]
  simp only [hre]

/-- The request of a ping that posts output, for a limit that is not negative. -/
theorem Sidecar.request_posted (config : Sidecar.Config) (state : String) (exitCode : Int)
    (output : List UInt8) (durationMs : Option Int) (hmax : 0 ≤ config.MaxOutputBytes)
    (h : output ≠ [] ∧ config.CaptureOutput = true ∧ (state = "fail" ∨ state = "success")) :
    Sidecar.sendPing.request config state exitCode output durationMs =
      some ⟨"POST", config.SaturnAPI ++ "/api/ping/" ++ config.MonitorToken,
        Sidecar.sendPing.params state exitCode durationMs,
        [("Content-Type", "text/plain"), ("User-Agent", "Saturn-K8s-Sidecar/1.0")],
        some (lastBytes output config.MaxOutputBytes.toNat)⟩ := by
  unfold Sidecar.sendPing.request
  simp only [truncate_eq_lastBytes output config.MaxOutputBytes hmax]
  rw [if_pos h]

/-- The request of a ping that posts no output. -/
theorem Sidecar.request_plain (config : Sidecar.Config) (state : String) (exitCode : Int)
    (output : List UInt8) (durationMs : Option Int)
    (h : ¬ (output ≠ [] ∧ config.CaptureOutput = true ∧ (state = "fail" ∨ state = "success"))) :
    Sidecar.sendPing.request config state exitCode output durationMs =
      some ⟨"GET", config.SaturnAPI ++ "/api/ping/" ++ config.MonitorToken,
        Sidecar.sendPing.params state exitCode durationMs,
        [("User-Agent", "Saturn-K8s-Sidecar/1.0")], none⟩ := by
  unfold Sidecar.sendPing.request
  simp only
  rw [if_neg h]

/-- Whenever `sendPing` has built its request, it returns. -/
theorem Sidecar.sendPing_returns {σ : Type} (H : Sidecar.HTTP σ) (config : Sidecar.Config)
    (state : String) (exitCode : Int) (output : List UInt8) (durationMs : Option Int)
    (w : σ × List Sidecar.PingRequest) (req : Sidecar.PingRequest)
    (hreq : Sidecar.sendPing.request config state exitCode output durationMs = some req) :
    ∃ r w1, Sidecar.sendPing H config state exitCode output durationMs w = some (r, w1) ∧
      (w1.2 = w.2 ∨ w1.2 = w.2 ++ [req]) := by
  cases hre : H.RequestError req with
  | some err =>
    exact ⟨_, _, Sidecar.sendPing_refused H config state exitCode output durationMs w req err
      hreq hre, Or.inl rfl⟩
  | none =>
    obtain ⟨r, hr, -⟩ :=
      Sidecar.sendPing_sends H config state exitCode output durationMs w req hreq hre
    exact ⟨r, _, hr, Or.inr rfl⟩

/-- C25: for every captured output and every `MaxOutputBytes ≥ 0`, `sendPing` never panics,
and when the output is posted (it is not empty, capture is enabled and the state is `"fail"` or
`"success"`) the request that `sendPing` sends is a POST request whose body is the last
`min(len(output), MaxOutputBytes)` bytes of the output: it is sent once when `http.NewRequest`
accepts it and not at all otherwise, and no request with another body is sent; when the output
is not posted the request has no body.  `captureContainerLogs` never panics and returns the last
`min(len, MaxOutputBytes)` bytes of the output of `kubectl`.  These bytes are a suffix of the
original, at most `MaxOutputBytes` long, and the original when it fits. -/
theorem output_truncation {σ : Type} (H : Sidecar.HTTP σ) (config : Sidecar.Config)
    (state : String) (exitCode : Int) (output : List UInt8) (durationMs : Option Int)
    (kubectl : List String → Except String (List UInt8))
    (w : σ × List Sidecar.PingRequest)
    (hmax : 0 ≤ config.MaxOutputBytes) :
    Sidecar.sendPing.request config state exitCode output durationMs ≠ none ∧
    (output ≠ [] → config.CaptureOutput = true → (state = "fail" ∨ state = "success") →
      ∃ req, Sidecar.sendPing.request config state exitCode output durationMs = some req ∧
        req.Method = "POST" ∧
        req.Body = some (lastBytes output config.MaxOutputBytes.toNat)) ∧
    Sidecar.captureContainerLogs kubectl config ≠ none ∧
    (∀ logs, kubectl ["logs", config.PodName, "-n", config.Namespace, "-c",
        config.MainContainerName,
        "--tail=" ++ toString (Int.tdiv config.MaxOutputBytes 100)] = Except.ok logs →
      Sidecar.captureContainerLogs kubectl config =
        some (Except.ok (lastBytes logs config.MaxOutputBytes.toNat))) ∧
    (∀ s : List UInt8, lastBytes s config.MaxOutputBytes.toNat <:+ s ∧
      (lastBytes s config.MaxOutputBytes.toNat).length = min s.length config.MaxOutputBytes.toNat ∧
      ((lastBytes s config.MaxOutputBytes.toNat).length : Int) ≤ config.MaxOutputBytes ∧
      ((s.length : Int) ≤ config.MaxOutputBytes →
        lastBytes s config.MaxOutputBytes.toNat = s)) ∧
    Sidecar.sendPing H config state exitCode output durationMs w ≠ none ∧
    (output ≠ [] → config.CaptureOutput = true → (state = "fail" ∨ state = "success") →
      ∀ req : Sidecar.PingRequest,
        req = ⟨"POST", config.SaturnAPI ++ "/api/ping/" ++ config.MonitorToken,
          Sidecar.sendPing.params state exitCode durationMs,
          [("Content-Type", "text/plain"), ("User-Agent", "Saturn-K8s-Sidecar/1.0")],
          some (lastBytes output config.MaxOutputBytes.toNat)⟩ →
        (H.RequestError req = none →
          ∃ r, Sidecar.sendPing H config state exitCode output durationMs w =
            some (r, ((H.Do req w.1).2, w.2 ++ [req]))) ∧
        (∀ err, H.RequestError req = some err →
          Sidecar.sendPing H config state exitCode output durationMs w =
            some (some ("failed to create " ++ "POST" ++ " request: " ++ err), w))) ∧
    (∀ r w1, Sidecar.sendPing H config state exitCode output durationMs w = some (r, w1) →
      w1.2 = w.2 ∨ ∃ req, w1.2 = w.2 ++ [req] ∧
        req.Body =
          (if output ≠ [] ∧ config.CaptureOutput = true ∧ (state = "fail" ∨ state = "success")
            then some (lastBytes output config.MaxOutputBytes.toNat) else none)) := by
  have htr := truncate_eq_lastBytes output config.MaxOutputBytes hmax
  have hreq : ∃ req, Sidecar.sendPing.request config state exitCode output durationMs =
      some req ∧ req.Body =
        (if output ≠ [] ∧ config.CaptureOutput = true ∧ (state = "fail" ∨ state = "success")
          then some (lastBytes output config.MaxOutputBytes.toNat) else none) := by
    by_cases hc : output ≠ [] ∧ config.CaptureOutput = true ∧
        (state = "fail" ∨ state = "success")
    · exact ⟨_, Sidecar.request_posted config state exitCode output durationMs hmax hc, by
        rw [if_pos hc]⟩
    · exact ⟨_, Sidecar.request_plain config state exitCode output durationMs hc, by
        rw [if_neg hc]⟩
  refine ⟨?_, ?_, ?_, ?_, ?_, ?_, ?_, ?_⟩
  · unfold Sidecar.sendPing.request
    simp only [htr]
    split <;> simp
  · intro h1 h2 h3
    unfold Sidecar.sendPing.request
    simp only [htr]
    rw [if_pos ⟨h1, h2, h3⟩]
    exact ⟨_, rfl, rfl, rfl⟩
  · unfold Sidecar.captureContainerLogs
    cases hk : kubectl ["logs", config.PodName, "-n", config.Namespace, "-c",
        config.MainContainerName,
        "--tail=" ++ toString (Int.tdiv config.MaxOutputBytes 100)] with
    | error err => simp
    | ok logs =>
      simp only [truncate_eq_lastBytes logs config.MaxOutputBytes hmax]
      simp
  · intro logs hk
    unfold Sidecar.captureContainerLogs
    simp only [hk, truncate_eq_lastBytes logs config.MaxOutputBytes hmax]
  · intro s
    obtain ⟨h1, h2, h3, h4⟩ := lastBytes_props s config.MaxOutputBytes.toNat
    refine ⟨h1, h2, ?_, ?_⟩
    · omega
    · intro hle
      exact h4 (by omega)
  · obtain ⟨req, hr, -⟩ := hreq
    obtain ⟨r, w1, hs, -⟩ :=
      Sidecar.sendPing_returns H config state exitCode output durationMs w req hr
    rw [hs]
    simp
  · intro h1 h2 h3 req hreq1
    have hr := Sidecar.request_posted config state exitCode output durationMs hmax ⟨h1, h2, h3⟩
    rw [← hreq1] at hr
    constructor
    · intro hre
      obtain ⟨r, hs, -⟩ :=
        Sidecar.sendPing_sends H config state exitCode output durationMs w req hr hre
      exact ⟨r, hs⟩
    · intro err hre
      have hs := Sidecar.sendPing_refused H config state exitCode output durationMs w req err
        hr hre
      rw [hs, hreq1]
  · intro r w1 hs
    obtain ⟨req, hr, hbody⟩ := hreq
    obtain ⟨r2, w2, hs2, hw2⟩ :=
      Sidecar.sendPing_returns H config state exitCode output durationMs w req hr
    rw [hs2] at hs
    have e : w2 = w1 := (Prod.mk.inj (Option.some.inj hs)).2
    rw [← e]
    rcases hw2 with hw2 | hw2
    · exact Or.inl hw2
    · exact Or.inr ⟨req, hw2, hbody⟩

/-- C25 (witness): with a limit of 4 bytes, the six bytes 1..6 are posted as 3, 4, 5, 6: the
call of `sendPing` sends one POST request with these four bytes as its body. -/
theorem output_truncation_witness :
    (∃ r, Sidecar.sendPing Sidecar.okHTTP Sidecar.exampleConfig "fail" 2 [1, 2, 3, 4, 5, 6]
        (some 1500) (0, []) =
      some (r, (1, [] ++ [⟨"POST", "https://api.saturnmonitor.com/api/ping/tok",
        [("state", "fail"), ("exitCode", "2"), ("durationMs", "1500")],
        [("Content-Type", "text/plain"), ("User-Agent", "Saturn-K8s-Sidecar/1.0")],
        some [3, 4, 5, 6]⟩]))) ∧
    lastBytes [1, 2, 3, 4, 5, 6] Sidecar.exampleConfig.MaxOutputBytes.toNat = [3, 4, 5, 6] :=
  ⟨((output_truncation Sidecar.okHTTP Sidecar.exampleConfig "fail" 2 [1, 2, 3, 4, 5, 6]
    (some 1500) (fun _ => Except.ok [1, 2, 3, 4, 5, 6]) (0, []) (by decide)).2.2.2.2.2.2.1
      (by decide) rfl (Or.inl rfl) _ (by decide)).1 rfl,
   by decide⟩


/-- The state that `main` decides on is `"fail"` or `"success"`. -/
theorem Sidecar.outcome_state (exitCode : Int) (err : Option String) :
    (Sidecar.main.outcome exitCode err).1 = "fail" ∨
      (Sidecar.main.outcome exitCode err).1 = "success" := by
  unfold Sidecar.main.outcome
  cases err with
  | some e => exact Or.inl rfl
  | none =>
    by_cases h0 : exitCode = 0
    · simp [h0]
    · simp [h0]

/-- In the query values of a ping, the value `exitCode` is left out exactly when the exit code
is 0 and the state is not `"fail"`, and it is the exit code in decimal otherwise. -/
theorem Sidecar.params_exitCode (state : String) (exitCode : Int) (durationMs : Option Int) :
    ((Sidecar.sendPing.params state exitCode durationMs).lookup "exitCode" = none ↔
      (exitCode = 0 ∧ state ≠ "fail")) ∧
    ((exitCode ≠ 0 ∨ state = "fail") →
      (Sidecar.sendPing.params state exitCode durationMs).lookup "exitCode" =
        some (toString exitCode)) := by
  have h1 : (("exitCode" : String) == "state") = false := by decide
  have h2 : (("exitCode" : String) == "exitCode") = true := by decide
  have h3 : (("exitCode" : String) == "durationMs") = false := by decide
  unfold Sidecar.sendPing.params
  by_cases hc : exitCode ≠ 0 ∨ state = "fail"
  · rw [if_pos hc]
    constructor
    · constructor
      · intro h
        simp [List.lookup, h1, h2] at h
      · rintro ⟨h0, hf⟩
        rcases hc with hc | hc
        · exact absurd h0 hc
        · exact absurd hc hf
    · intro _
      simp [List.lookup, h1, h2]
  · rw [if_neg hc]
    constructor
    · constructor
      · intro _
        constructor
        · by_contra h0
          exact hc (Or.inl h0)
        · intro hf
          exact hc (Or.inr hf)
      · intro _
        cases durationMs with
        | none => simp [List.lookup, h1]
        | some d => simp [List.lookup, h1, h3]
    · intro h
      exact absurd h hc

/-- With a negative limit, a ping that posts output panics in the slice expression. -/
theorem Sidecar.request_panics (config : Sidecar.Config) (state : String) (exitCode : Int)
    (output : List UInt8) (durationMs : Option Int) (hmax : config.MaxOutputBytes < 0)
    (h : output ≠ [] ∧ config.CaptureOutput = true ∧ (state = "fail" ∨ state = "success")) :
    Sidecar.sendPing.request config state exitCode output durationMs = none := by
  unfold Sidecar.sendPing.request goSliceFrom
  simp only
  have h1 : (output.length : Int) > config.MaxOutputBytes := by omega
  have h2 : ¬ (0 ≤ (output.length : Int) - config.MaxOutputBytes ∧
      (output.length : Int) - config.MaxOutputBytes ≤ (output.length : Int)) := by omega
  rw [if_pos h, if_pos h1, if_neg h2]

/-- C26: for every exit code and error returned by `WatchMainContainer`, the state of the final
ping is `"success"` if and only if the exit code passed to that ping is 0, and it is `"fail"`
otherwise; an error or an exit code other than 0 gives the state `"fail"` with an exit code
other than 0, which is 1 for an error with exit code 0 and the exit code of the container in
every other case.  The final ping is built unless output is captured under a negative limit
(the one case in which the slice expression of `sendPing` panics; `loadConfig` sets the limit
to 10240), and it is sent, once, when `http.NewRequest` accepts it.  Its query values are the
state, for a `"fail"` ping the exit code, and the duration: a `"fail"` ping carries the exit
code, which is not 0, as the value `exitCode`, and a `"success"` ping carries no value
`exitCode`, which is how `sendPing` encodes the exit code 0 of a ping that is not a `"fail"`
ping. -/
theorem final_ping_state {σ : Type} (H : Sidecar.HTTP σ) (config : Sidecar.Config)
    (exitCode : Int) (output : List UInt8) (err : Option String) (durationMs : Int)
    (w : σ × List Sidecar.PingRequest) :
    ((Sidecar.main.outcome exitCode err).1 = "success" ↔
      (Sidecar.main.outcome exitCode err).2 = 0) ∧
    ((Sidecar.main.outcome exitCode err).1 = "fail" ↔
      (Sidecar.main.outcome exitCode err).2 ≠ 0) ∧
    ((err ≠ none ∨ exitCode ≠ 0) →
      (Sidecar.main.outcome exitCode err).1 = "fail" ∧
      (Sidecar.main.outcome exitCode err).2 ≠ 0 ∧
      (Sidecar.main.outcome exitCode err).2 = (if exitCode = 0 then 1 else exitCode)) ∧
    ((err = none ∧ exitCode = 0) → Sidecar.main.outcome exitCode err = ("success", 0)) ∧
    (∀ req, Sidecar.main.finalPing config exitCode output err durationMs = some req →
      req.Params =
        [("state", (Sidecar.main.outcome exitCode err).1)] ++
        (if (Sidecar.main.outcome exitCode err).1 = "fail" then
          [("exitCode", toString (Sidecar.main.outcome exitCode err).2)] else []) ++
        [("durationMs", toString durationMs)]) ∧
    ((0 ≤ config.MaxOutputBytes ∨ output = [] ∨ config.CaptureOutput = false) →
      ∃ req, Sidecar.main.finalPing config exitCode output err durationMs = some req ∧
        req.URL = config.SaturnAPI ++ "/api/ping/" ++ config.MonitorToken ∧
        req.Params =
          [("state", (Sidecar.main.outcome exitCode err).1)] ++
          (if (Sidecar.main.outcome exitCode err).1 = "fail" then
            [("exitCode", toString (Sidecar.main.outcome exitCode err).2)] else []) ++
          [("durationMs", toString durationMs)] ∧
        (req.Params.lookup "state" = some "success" ↔
          req.Params.lookup "exitCode" = none) ∧
        (req.Params.lookup "state" = some "fail" ↔
          req.Params.lookup "exitCode" =
            some (toString (Sidecar.main.outcome exitCode err).2)) ∧
        (H.RequestError req = none →
          ∃ r, Sidecar.main.finish H config exitCode output err durationMs w =
            some (r, ((H.Do req w.1).2, w.2 ++ [req]))) ∧
        (∀ e, H.RequestError req = some e →
          Sidecar.main.finish H config exitCode output err durationMs w =
            some (some ("failed to create " ++ req.Method ++ " request: " ++ e), w))) ∧
    ((Sidecar.main.finalPing config exitCode output err durationMs = none ↔
      (output ≠ [] ∧ config.CaptureOutput = true ∧ config.MaxOutputBytes < 0)) ∧
     (Sidecar.main.finish H config exitCode output err durationMs w = none ↔
      (output ≠ [] ∧ config.CaptureOutput = true ∧ config.MaxOutputBytes < 0))) ∧
    (∀ (state : String) (code : Int) (d : Option Int),
      (Sidecar.sendPing.params state code d).lookup "exitCode" = none ↔
        (code = 0 ∧ state ≠ "fail")) := by
  have hsf : ("success" : String) ≠ "fail" := by decide
  have hfs : ("fail" : String) ≠ "success" := by decide
  have hst := Sidecar.outcome_state exitCode err
  have hiff : ((Sidecar.main.outcome exitCode err).1 = "success" ↔
      (Sidecar.main.outcome exitCode err).2 = 0) := by
    unfold Sidecar.main.outcome
    cases err with
    | some e =>
      by_cases h0 : exitCode = 0
      · simp [h0]
      · simp [h0]
    | none =>
      by_cases h0 : exitCode = 0
      · simp [h0]
      · simp [h0]
  have hpar : Sidecar.sendPing.params (Sidecar.main.outcome exitCode err).1
      (Sidecar.main.outcome exitCode err).2 (some durationMs) =
      [("state", (Sidecar.main.outcome exitCode err).1)] ++
        (if (Sidecar.main.outcome exitCode err).1 = "fail" then
          [("exitCode", toString (Sidecar.main.outcome exitCode err).2)] else []) ++
        [("durationMs", toString durationMs)] := by
    unfold Sidecar.sendPing.params
    rcases hst with hf | hs
    · have hc : (Sidecar.main.outcome exitCode err).2 ≠ 0 ∨
          (Sidecar.main.outcome exitCode err).1 = "fail" := Or.inr hf
      rw [if_pos hc, if_pos hf]
    · have h0 := hiff.1 hs
      have hnf : ¬ (Sidecar.main.outcome exitCode err).1 = "fail" := by
        rw [hs]
        exact hsf
      have hc : ¬ ((Sidecar.main.outcome exitCode err).2 ≠ 0 ∨
          (Sidecar.main.outcome exitCode err).1 = "fail") := by
        rintro (h | h)
        · exact h h0
        · exact hnf h
      rw [if_neg hc, if_neg hnf]
  have hparams : ∀ req, Sidecar.main.finalPing config exitCode output err durationMs = some req →
      req.Params = Sidecar.sendPing.params (Sidecar.main.outcome exitCode err).1
        (Sidecar.main.outcome exitCode err).2 (some durationMs) := by
    intro req hreq
    unfold Sidecar.main.finalPing Sidecar.sendPing.request at hreq
    simp only at hreq
    split at hreq
    · split at hreq
      · exact absurd hreq (by simp)
      · rw [← Option.some.inj hreq]
    · rw [← Option.some.inj hreq]
  have hurl : ∀ req, Sidecar.main.finalPing config exitCode output err durationMs = some req →
      req.URL = config.SaturnAPI ++ "/api/ping/" ++ config.MonitorToken := by
    intro req hreq
    unfold Sidecar.main.finalPing Sidecar.sendPing.request at hreq
    simp only at hreq
    split at hreq
    · split at hreq
      · exact absurd hreq (by simp)
      · rw [← Option.some.inj hreq]
    · rw [← Option.some.inj hreq]
  have hnone : Sidecar.main.finalPing config exitCode output err durationMs = none ↔
      (output ≠ [] ∧ config.CaptureOutput = true ∧ config.MaxOutputBytes < 0) := by
    unfold Sidecar.main.finalPing
    constructor
    · intro h
      by_cases hc : output ≠ [] ∧ config.CaptureOutput = true ∧
          ((Sidecar.main.outcome exitCode err).1 = "fail" ∨
            (Sidecar.main.outcome exitCode err).1 = "success")
      · by_cases hmax : 0 ≤ config.MaxOutputBytes
        · rw [Sidecar.request_posted config _ _ output _ hmax hc] at h
          exact absurd h (by simp)
        · exact ⟨hc.1, hc.2.1, by omega⟩
      · rw [Sidecar.request_plain config _ _ output _ hc] at h
        exact absurd h (by simp)
    · rintro ⟨h1, h2, h3⟩
      exact Sidecar.request_panics config _ _ output _ h3 ⟨h1, h2, hst⟩
  have hlook : ∀ l : List (String × String),
      (([("state", (Sidecar.main.outcome exitCode err).1)] ++ l).lookup "state") =
        some (Sidecar.main.outcome exitCode err).1 := by
    intro l
    have : (("state" : String) == "state") = true := by decide
    simp [List.lookup, this]
  refine ⟨hiff, ?_, ?_, ?_, ?_, ?_, ⟨hnone, ?_⟩, ?_⟩
  · constructor
    · intro hf h0
      have := hiff.2 h0
      rw [hf] at this
      exact hfs this
    · intro hne
      rcases hst with hf | hs
      · exact hf
      · exact absurd (hiff.1 hs) hne
  · intro hc
    unfold Sidecar.main.outcome
    cases err with
    | some e =>
      by_cases h0 : exitCode = 0
      · simp [h0]
      · simp [h0]
    | none =>
      have h0 : exitCode ≠ 0 := by
        rcases hc with hc | hc
        · exact absurd rfl hc
        · exact hc
      simp [h0]
  · rintro ⟨he, h0⟩
    rw [he, h0]
    rfl
  · intro req hreq
    rw [hparams req hreq, hpar]
  · intro hc
    have hsome : Sidecar.main.finalPing config exitCode output err durationMs ≠ none := by
      intro h
      obtain ⟨h1, h2, h3⟩ := hnone.1 h
      rcases hc with hc | hc | hc
      · omega
      · exact h1 hc
      · rw [h2] at hc
        exact absurd hc (by simp)
    obtain ⟨req, hreq⟩ := Option.ne_none_iff_exists'.1 hsome
    have hp := hparams req hreq
    have hex := Sidecar.params_exitCode (Sidecar.main.outcome exitCode err).1
      (Sidecar.main.outcome exitCode err).2 (some durationMs)
    refine ⟨req, hreq, hurl req hreq, by rw [hp, hpar], ?_, ?_, ?_, ?_⟩
    · rw [hp]
      rw [hex.1]
      nth_rewrite 1 [hpar]
      rw [List.append_assoc, hlook]
      constructor
      · intro h
        have hs : (Sidecar.main.outcome exitCode err).1 = "success" := Option.some.inj h
        refine ⟨hiff.1 hs, ?_⟩
        rw [hs]
        exact hsf
      · rintro ⟨h0, -⟩
        rw [hiff.2 h0]
    · rw [hp]
      nth_rewrite 1 [hpar]
      rw [List.append_assoc, hlook]
      constructor
      · intro h
        have hf : (Sidecar.main.outcome exitCode err).1 = "fail" := Option.some.inj h
        exact hex.2 (Or.inr hf)
      · intro h
        rcases hst with hf | hs
        · rw [hf]
        · have h0 := hiff.1 hs
          have hn := (hex.1).2 ⟨h0, by rw [hs]; exact hsf⟩
          rw [hn] at h
          exact absurd h (by simp)
    · intro hre
      obtain ⟨r, hs, -⟩ := Sidecar.sendPing_sends H config _ _ output _ w req hreq hre
      exact ⟨r, hs⟩
    · intro e hre
      exact Sidecar.sendPing_refused H config _ _ output _ w req e hreq hre
  · constructor
    · intro h
      by_contra hn
      have hsome : Sidecar.main.finalPing config exitCode output err durationMs ≠ none :=
        fun h1 => hn (hnone.1 h1)
      obtain ⟨req, hreq⟩ := Option.ne_none_iff_exists'.1 hsome
      obtain ⟨r, w1, hs, -⟩ := Sidecar.sendPing_returns H config _ _ output _ w req hreq
      unfold Sidecar.main.finish at h
      rw [hs] at h
      exact absurd h (by simp)
    · intro h
      have hn := hnone.2 h
      unfold Sidecar.main.finalPing at hn
      unfold Sidecar.main.finish Sidecar.sendPing
      rw [hn]
  · intro state code d
    exact (Sidecar.params_exitCode state code d).1

/-- C26 (witness): with the example configuration, a container that exits with code 0 while
`WatchMainContainer` reports an error gives a final ping with the state `"fail"` and the exit
code 1, which is sent, and a container that exits with code 0 without error gives a final ping
with the state `"success"` and no value `exitCode`. -/
theorem final_ping_state_witness :
    (∃ r, Sidecar.main.finish Sidecar.okHTTP Sidecar.exampleConfig 0 [1, 2, 3, 4, 5, 6]
        (some "context cancelled") 1500 (0, []) =
      some (r, (1, [] ++ [⟨"POST", "https://api.saturnmonitor.com/api/ping/tok",
        [("state", "fail"), ("exitCode", "1"), ("durationMs", "1500")],
        [("Content-Type", "text/plain"), ("User-Agent", "Saturn-K8s-Sidecar/1.0")],
        some [3, 4, 5, 6]⟩]))) ∧
    (∃ req, Sidecar.main.finalPing Sidecar.exampleConfig 0 [] none 1500 = some req ∧
      req.Params = [("state", "success"), ("durationMs", "1500")]) :=
  ⟨by
    obtain ⟨req, hreq, -, -, -, -, hsend, -⟩ :=
      (final_ping_state Sidecar.okHTTP Sidecar.exampleConfig 0 [1, 2, 3, 4, 5, 6]
        (some "context cancelled") 1500 (0, [])).2.2.2.2.2.1 (Or.inl (by decide))
    have e : req = ⟨"POST", "https://api.saturnmonitor.com/api/ping/tok",
        [("state", "fail"), ("exitCode", "1"), ("durationMs", "1500")],
        [("Content-Type", "text/plain"), ("User-Agent", "Saturn-K8s-Sidecar/1.0")],
        some [3, 4, 5, 6]⟩ := by
      have h2 : Sidecar.main.finalPing Sidecar.exampleConfig 0 [1, 2, 3, 4, 5, 6]
          (some "context cancelled") 1500 = some ⟨"POST",
            "https://api.saturnmonitor.com/api/ping/tok",
            [("state", "fail"), ("exitCode", "1"), ("durationMs", "1500")],
            [("Content-Type", "text/plain"), ("User-Agent", "Saturn-K8s-Sidecar/1.0")],
            some [3, 4, 5, 6]⟩ := by decide
      rw [h2] at hreq
      exact (Option.some.inj hreq).symm
    obtain ⟨r, hr⟩ := hsend rfl
    rw [e] at hr
    exact ⟨r, hr⟩,
   by
    obtain ⟨req, hreq, -, hp, -⟩ :=
      (final_ping_state Sidecar.okHTTP Sidecar.exampleConfig 0 [] none 1500
        (0, [])).2.2.2.2.2.1 (Or.inl (by decide))
    exact ⟨req, hreq, by rw [hp]; decide⟩⟩


/-! ### The job-polling sidecar -/

theorem JobSidecar.sendPing_pings {σ : Type} (E : JobSidecar.Env σ)
    (config : JobSidecar.Config) (status : String) (duration exitCode : Int) (output : String)
    (w : JobSidecar.World σ) :
    (JobSidecar.sendPing E config status duration exitCode output w).2.pings =
      w.pings ++ (if E.RequestError (config.SaturnURL ++ "/api/ping") = none then
        [⟨config.MonitorToken, status, duration, exitCode, output, E.Now w.state⟩] else []) := by
  unfold JobSidecar.sendPing
  simp only
  cases hreq : E.RequestError (config.SaturnURL ++ "/api/ping") with
  | some err => simp
  | none =>
    simp only [if_true]
    cases (E.Do (config.SaturnURL ++ "/api/ping")
      ⟨config.MonitorToken, status, duration, exitCode, output, E.Now w.state⟩ w.state).1 with
    | error err => rfl
    | ok resp =>
      simp only
      split <;> rfl

theorem JobSidecar.getJobStatus_class {σ : Type} (E : JobSidecar.Env σ)
    (config : JobSidecar.Config) (w : JobSidecar.World σ) (job : JobSidecar.Job) (s1 : σ)
    (hget : E.GetJob config.Namespace config.JobName w.state = (Except.ok job, s1)) :
    ∃ status, (JobSidecar.getJobStatus E config w).1 = Except.ok status ∧
      status.Status = (if job.Succeeded > 0 then "success" else if job.Failed > 0 then "failed"
        else if job.Active > 0 then "running" else "pending") ∧
      status.ExitCode = (if job.Succeeded > 0 then 0 else if job.Failed > 0 then 1 else 0) := by
  have hsf : ("running" : String) ≠ "success" := by decide
  have hrf : ("running" : String) ≠ "failed" := by decide
  have hps : ("pending" : String) ≠ "success" := by decide
  have hpf : ("pending" : String) ≠ "failed" := by decide
  unfold JobSidecar.getJobStatus
  simp only [hget]
  by_cases h1 : job.Succeeded > 0
  · simp only [h1, if_true]
    cases job.StartTime <;> cases job.CompletionTime <;> simp only [true_or, if_true] <;>
      cases (E.JobOutput s1).1 <;> exact ⟨_, rfl, rfl, rfl⟩
  · by_cases h2 : job.Failed > 0
    · simp only [h1, h2, if_true, if_false]
      cases job.StartTime <;> cases job.CompletionTime <;> simp only [or_true, if_true] <;>
        cases (E.JobOutput s1).1 <;> exact ⟨_, rfl, rfl, rfl⟩
    · by_cases h3 : job.Active > 0
      · simp only [h1, h2, h3, if_true, if_false]
        cases job.StartTime <;> cases job.CompletionTime <;>
          simp only [hsf, hrf, or_self, if_false] <;> exact ⟨_, rfl, rfl, rfl⟩
      · simp only [h1, h2, h3, if_false]
        cases job.StartTime <;> cases job.CompletionTime <;>
          simp only [hps, hpf, or_self, if_false] <;> exact ⟨_, rfl, rfl, rfl⟩


/-- C27: when the job can be fetched, `getJobStatus` returns a status that is `"success"` with
exit code 0 when `Succeeded > 0`, else `"failed"` with exit code 1 when `Failed > 0`, else
`"running"` when `Active > 0`, else `"pending"`, hence one of these four values; and for every
job status `handleJobStatus` is the call of `sendPing` with that status when the status is
`"success"` or `"failed"`, which sends exactly one ping when the request can be built, and it
does nothing and returns no error for every other status. -/
theorem job_status_classification {σ : Type} (E : JobSidecar.Env σ)
    (config : JobSidecar.Config) (w : JobSidecar.World σ) (job : JobSidecar.Job) (s1 : σ)
    (hget : E.GetJob config.Namespace config.JobName w.state = (Except.ok job, s1)) :
    (∃ status, (JobSidecar.getJobStatus E config w).1 = Except.ok status ∧
      status.Status = (if job.Succeeded > 0 then "success" else if job.Failed > 0 then "failed"
        else if job.Active > 0 then "running" else "pending") ∧
      status.ExitCode = (if job.Succeeded > 0 then 0 else if job.Failed > 0 then 1 else 0) ∧
      (status.Status = "success" ∨ status.Status = "failed" ∨ status.Status = "running" ∨
        status.Status = "pending")) ∧
    (∀ (st : JobSidecar.JobStatus) (w2 : JobSidecar.World σ),
      (st.Status = "success" ∨ st.Status = "failed") →
      JobSidecar.handleJobStatus E config st w2 =
        JobSidecar.sendPing E config st.Status st.Duration st.ExitCode st.Output w2) ∧
    (∀ (st : JobSidecar.JobStatus) (w2 : JobSidecar.World σ),
      ¬ (st.Status = "success" ∨ st.Status = "failed") →
      JobSidecar.handleJobStatus E config st w2 = (none, w2)) ∧
    (∀ (st : JobSidecar.JobStatus) (w2 : JobSidecar.World σ),
      (JobSidecar.handleJobStatus E config st w2).2.pings =
        w2.pings ++
          (if (st.Status = "success" ∨ st.Status = "failed") ∧
              E.RequestError (config.SaturnURL ++ "/api/ping") = none then
            [⟨config.MonitorToken, st.Status, st.Duration, st.ExitCode, st.Output,
              E.Now w2.state⟩]
          else [])) := by
  have hfs : ("failed" : String) ≠ "success" := by decide
  have hsend : ∀ (st : JobSidecar.JobStatus) (w2 : JobSidecar.World σ),
      (st.Status = "success" ∨ st.Status = "failed") →
      JobSidecar.handleJobStatus E config st w2 =
        JobSidecar.sendPing E config st.Status st.Duration st.ExitCode st.Output w2 := by
    intro st w2 h
    unfold JobSidecar.handleJobStatus
    rcases h with h | h
    · rw [if_pos h, h]
    · rw [if_neg (by rw [h]; exact hfs), if_pos h, h]
  have hnone : ∀ (st : JobSidecar.JobStatus) (w2 : JobSidecar.World σ),
      ¬ (st.Status = "success" ∨ st.Status = "failed") →
      JobSidecar.handleJobStatus E config st w2 = (none, w2) := by
    intro st w2 h
    unfold JobSidecar.handleJobStatus
    rw [if_neg (fun hc => h (Or.inl hc)), if_neg (fun hc => h (Or.inr hc))]
    split
    · rfl
    · split <;> rfl
  refine ⟨?_, hsend, hnone, ?_⟩
  · obtain ⟨status, hst, hclass, hcode⟩ := JobSidecar.getJobStatus_class E config w job s1 hget
    refine ⟨status, hst, hclass, hcode, ?_⟩
    rw [hclass]
    by_cases h1 : job.Succeeded > 0
    · simp [h1]
    · by_cases h2 : job.Failed > 0
      · simp [h1, h2]
      · by_cases h3 : job.Active > 0
        · simp [h1, h2, h3]
        · simp [h1, h2, h3]
  · intro st w2
    by_cases h : st.Status = "success" ∨ st.Status = "failed"
    · rw [hsend st w2 h, JobSidecar.sendPing_pings]
      by_cases hr : E.RequestError (config.SaturnURL ++ "/api/ping") = none
      · rw [if_pos hr, if_pos ⟨h, hr⟩]
      · rw [if_neg hr, if_neg (fun hc => hr hc.2)]
    · rw [hnone st w2 h, if_neg (fun hc => h hc.1)]
      simp

/-- C27 (witness): a job with one succeeded and one failed pod is classified as a success with
exit code 0, and a ping is sent for it. -/
theorem job_status_classification_witness :
    (∃ status, (JobSidecar.getJobStatus (JobSidecar.okEnv ⟨"backup", "default", 1, 1, 0,
          some 1000, some 61000⟩) JobSidecar.exampleConfig ⟨0, []⟩).1 = Except.ok status ∧
      status.Status = (if (1 : Int) > 0 then "success" else if (1 : Int) > 0 then "failed"
        else if (0 : Int) > 0 then "running" else "pending") ∧
      status.ExitCode = (if (1 : Int) > 0 then 0 else if (1 : Int) > 0 then 1 else 0) ∧
      (status.Status = "success" ∨ status.Status = "failed" ∨ status.Status = "running" ∨
        status.Status = "pending")) ∧
    (JobSidecar.getJobStatus (JobSidecar.okEnv ⟨"backup", "default", 1, 1, 0,
          some 1000, some 61000⟩) JobSidecar.exampleConfig ⟨0, []⟩).1 =
      Except.ok ⟨"backup", "default", "success", some 1000, some 61000, 60000, 0, "done"⟩ ∧
    (JobSidecar.handleJobStatus (JobSidecar.okEnv ⟨"backup", "default", 1, 1, 0,
          some 1000, some 61000⟩) JobSidecar.exampleConfig
        ⟨"backup", "default", "success", some 1000, some 61000, 60000, 0, "done"⟩
        ⟨2, []⟩).2.pings =
      [⟨"tok", "success", 60000, 0, "done", "2024-01-01T00:00:00Z"⟩] :=
  ⟨(job_status_classification (JobSidecar.okEnv ⟨"backup", "default", 1, 1, 0,
      some 1000, some 61000⟩) JobSidecar.exampleConfig ⟨0, []⟩ ⟨"backup", "default", 1, 1, 0,
      some 1000, some 61000⟩ 1 rfl).1, rfl, by decide⟩


/-! ### The controller -/


theorem isList_of_remote_or_local {e : Effect} (h : e.isRemote = true ∨ e.isLocal = true) :
    e.isList = false := by
  cases e <;> simp_all [Effect.isLocal, Effect.isRemote, Effect.isList]

theorem isWatchStep_of_remote_or_local {e : Effect}
    (h : e.isRemote = true ∨ e.isLocal = true) : e.isWatchStep = false := by
  cases e <;> simp_all [Effect.isLocal, Effect.isRemote, Effect.isWatchStep]

theorem listCalls_of_effects (ext : List Effect)
    (h : ∀ e ∈ ext, e.isRemote = true ∨ e.isLocal = true) : listCalls ext = [] := by
  unfold listCalls
  rw [List.filter_eq_nil_iff]
  intro e he
  simp [isList_of_remote_or_local (h e he)]

theorem watchSteps_of_effects (ext : List Effect)
    (h : ∀ e ∈ ext, e.isRemote = true ∨ e.isLocal = true) : watchSteps ext = [] := by
  unfold watchSteps
  rw [List.filter_eq_nil_iff]
  intro e he
  simp [isWatchStep_of_remote_or_local (h e he)]

/-- The actions of one pass of the `syncAll` loop are remote calls, reads and writes of the
object and log lines. -/
theorem syncAll_body_effects {σ : Type} (E : Env σ) (st : Nat × World σ) (cronJob : CronJob) :
    ∃ ext, (syncAll.body E st cronJob).2.trace = st.2.trace ++ ext ∧
      ∀ e ∈ ext, e.isRemote = true ∨ e.isLocal = true := by
  unfold syncAll.body
  by_cases hs : shouldSync cronJob = true
  · simp only [hs, if_true]
    obtain ⟨ext, hext, hloc⟩ := syncCronJob_trace E cronJob st.2
    have hall : ∀ e ∈ upsertCall cronJob :: ext, e.isRemote = true ∨ e.isLocal = true := by
      intro e he
      rcases List.mem_cons.1 he with he | he
      · rw [he]
        exact Or.inl (upsertCall_isRemote cronJob)
      · exact Or.inr (hloc e he)
    split
    · rename_i err _
      refine ⟨upsertCall cronJob :: ext ++ [Effect.logError ("Failed to sync CronJob " ++
        cronJob.Namespace ++ "/" ++ cronJob.Name ++ ": " ++ err)], by simp [hext], ?_⟩
      intro e he
      rcases List.mem_append.1 he with he | he
      · exact hall e he
      · rw [List.mem_singleton.1 he]
        exact Or.inr rfl
    · exact ⟨upsertCall cronJob :: ext, hext, hall⟩
  · simp only [hs]
    exact ⟨[], by simp, by simp⟩

theorem syncAll_loop_effects {σ : Type} (E : Env σ) (items : List CronJob)
    (st : Nat × World σ) :
    ∃ ext, (syncAll.loop E items st).2.trace = st.2.trace ++ ext ∧
      ∀ e ∈ ext, e.isRemote = true ∨ e.isLocal = true := by
  induction items generalizing st with
  | nil => exact ⟨[], by simp [syncAll.loop], by simp⟩
  | cons cronJob rest ih =>
    obtain ⟨ext1, h1, hp1⟩ := syncAll_body_effects E st cronJob
    obtain ⟨ext2, h2, hp2⟩ := ih (syncAll.body E st cronJob)
    refine ⟨ext1 ++ ext2, ?_, ?_⟩
    · have : syncAll.loop E (cronJob :: rest) st =
          syncAll.loop E rest (syncAll.body E st cronJob) := rfl
      rw [this, h2, h1, List.append_assoc]
    · intro e he
      rcases List.mem_append.1 he with he | he
      · exact hp1 e he
      · exact hp2 e he

/-- A resync lists the cluster once, first, and then makes only remote calls, reads and writes
of objects and log lines. -/
theorem syncAll_effects {σ : Type} (E : Env σ) (ns : String) (w : World σ) :
    ∃ ext, (syncAll E ns w).2.trace = w.trace ++ Effect.clusterList ns :: ext ∧
      ∀ e ∈ ext, e.isRemote = true ∨ e.isLocal = true := by
  unfold syncAll
  simp only
  cases (E.List ns w.state).1 with
  | error err => exact ⟨[], by simp, by simp⟩
  | ok items =>
    simp only
    obtain ⟨ext, hext, hp⟩ := syncAll_loop_effects E items
      (0, ⟨(E.List ns w.state).2, w.trace ++ [Effect.clusterList ns]⟩)
    exact ⟨ext, by simp [hext], hp⟩

theorem Run_initial_effects {σ : Type} (E : WatchEnv σ) (ns : String) (w : World σ) :
    ∃ ext, (Run.initial E ns w).trace = w.trace ++ Effect.clusterList ns :: ext ∧
      ∀ e ∈ ext, e.isRemote = true ∨ e.isLocal = true := by
  obtain ⟨ext, hext, hp⟩ := syncAll_effects E.toEnv ns w
  unfold Run.initial
  simp only
  cases (syncAll E.toEnv ns w).1 with
  | none => exact ⟨ext, hext, hp⟩
  | some err =>
    refine ⟨ext ++ [Effect.logError ("Initial sync failed: " ++ err)], by simp [hext], ?_⟩
    intro e he
    rcases List.mem_append.1 he with he | he
    · exact hp e he
    · rw [List.mem_singleton.1 he]
      exact Or.inr rfl

/-- Handling an event only adds actions to the trace. -/
theorem handleEvent_extends {σ : Type} (E : Env σ) (e : Event) (w : World σ) :
    ∃ ext, (handleEvent E e w).trace = w.trace ++ ext := by
  obtain ⟨typ, obj⟩ := e
  cases obj with
  | other kind => exact ⟨_, rfl⟩
  | cronJob cronJob =>
    have hup : ∃ ext, (handleEvent E ⟨EventType.Added, RuntimeObject.cronJob cronJob⟩ w).trace =
        w.trace ++ ext := by
      by_cases hs : shouldSync cronJob = true
      · obtain ⟨-, tail, htail, -, -⟩ := handleEvent_upsert E cronJob w hs
        obtain ⟨ext, hext, -⟩ := syncCronJob_trace E cronJob w
        exact ⟨upsertCall cronJob :: ext ++ tail, by rw [htail, hext, List.append_assoc]⟩
      · refine ⟨[], ?_⟩
        simp [handleEvent, hs]
    cases typ with
    | Added => exact hup
    | Modified => exact hup
    | Deleted =>
      obtain ⟨ext, hext, -, -⟩ := handleEvent_deleted_trace E cronJob w
      exact ⟨ext, hext⟩
    | Bookmark => exact ⟨[], by simp [handleEvent]⟩
    | Error => exact ⟨[], by simp [handleEvent]⟩

theorem watchOnce_loop_extends {σ : Type} (E : WatchEnv σ) (fuel : Nat) (w : World σ)
    (r : Option String) (w1 : World σ) (h : watchOnce.loop E fuel w = some (r, w1)) :
    ∃ ext, w1.trace = w.trace ++ ext := by
  induction fuel generalizing w with
  | zero => simp [watchOnce.loop] at h
  | succ fuel ih =>
    rw [watchOnce.loop] at h
    rcases hsel : E.Select w.state with ⟨c, s⟩
    rw [hsel] at h
    cases c with
    | done =>
      simp only [Option.some.injEq, Prod.mk.injEq] at h
      exact ⟨[Effect.watchStop], by rw [← h.2]⟩
    | closed =>
      simp only [Option.some.injEq, Prod.mk.injEq] at h
      exact ⟨[Effect.watchStop], by rw [← h.2]⟩
    | event e =>
      simp only at h
      obtain ⟨ext, hext⟩ := ih _ h
      obtain ⟨ext0, hext0⟩ := handleEvent_extends E.toEnv e ⟨s, w.trace⟩
      exact ⟨ext0 ++ ext, by rw [hext, hext0, List.append_assoc]⟩

/-- The first action of `watchOnce` is the subscription attempt. -/
theorem watchOnce_extends {σ : Type} (E : WatchEnv σ) (ns : String) (fuel : Nat)
    (w : World σ) (r : Option String) (w1 : World σ)
    (h : watchOnce E ns fuel w = some (r, w1)) :
    ∃ ext, w1.trace = w.trace ++ Effect.clusterWatch ns :: ext := by
  unfold watchOnce at h
  simp only at h
  cases hw : (E.Watch ns w.state).1 with
  | some err =>
    rw [hw] at h
    simp only [Option.some.injEq, Prod.mk.injEq] at h
    exact ⟨[], by rw [← h.2]⟩
  | none =>
    rw [hw] at h
    simp only at h
    obtain ⟨ext, hext⟩ := watchOnce_loop_extends E fuel _ r w1 h
    exact ⟨ext, by rw [hext]; simp⟩


theorem watchCronJobs_iteration_extends {σ : Type} (E : WatchEnv σ) (ns : String)
    (fuel : Nat) (w : World σ) (b : Bool) (w1 : World σ)
    (h : watchCronJobs.iteration E ns fuel w = some (b, w1)) :
    ∃ ext, w1.trace = w.trace ++ ext := by
  unfold watchCronJobs.iteration at h
  by_cases hd : E.Done w.state = true
  · rw [if_pos hd] at h
    simp only [Option.some.injEq, Prod.mk.injEq] at h
    exact ⟨[], by rw [← h.2]; simp⟩
  · rw [if_neg hd] at h
    cases ho : watchOnce E ns fuel w with
    | none =>
      rw [ho] at h
      exact absurd h (by simp)
    | some x =>
      rw [ho] at h
      obtain ⟨r, w2⟩ := x
      obtain ⟨ext, hext⟩ := watchOnce_extends E ns fuel w r w2 ho
      cases r with
      | none =>
        simp only [Option.some.injEq, Prod.mk.injEq] at h
        exact ⟨_, by rw [← h.2, hext]⟩
      | some err =>
        simp only [Option.some.injEq, Prod.mk.injEq] at h
        exact ⟨Effect.clusterWatch ns :: ext ++
          [Effect.logError ("Watch error: " ++ err), Effect.sleep 5], by rw [← h.2, hext]; simp⟩

/-- The loop of `watchCronJobs` is the repetition of `watchCronJobs.iteration`. -/
theorem watchCronJobs_eq_iteration {σ : Type} (E : WatchEnv σ) (ns : String) (fuel : Nat)
    (w : World σ) :
    watchCronJobs E ns (fuel + 1) w =
      (match watchCronJobs.iteration E ns fuel w with
        | none => none
        | some (true, w1) => some w1
        | some (false, w1) => watchCronJobs E ns fuel w1) := by
  rw [watchCronJobs]
  unfold watchCronJobs.iteration
  by_cases hd : E.Done w.state = true
  · rw [if_pos hd, if_pos hd]
  · rw [if_neg hd, if_neg hd]
    cases ho : watchOnce E ns fuel w with
    | none => rfl
    | some x =>
      obtain ⟨r, w2⟩ := x
      cases r <;> rfl

theorem Run_loop_extends {σ : Type} (E : WatchEnv σ) (ns : String) (schedule : List Turn)
    (watching : Bool) (w w1 : World σ) (h : Run.loop E ns schedule watching w = some w1) :
    ∃ ext, w1.trace = w.trace ++ ext := by
  induction schedule generalizing watching w with
  | nil =>
    simp only [Run.loop, Option.some.injEq] at h
    exact ⟨[], by rw [h]; simp⟩
  | cons turn rest ih =>
    cases turn with
    | stop =>
      simp only [Run.loop, Option.some.injEq] at h
      exact ⟨[], by rw [h]; simp⟩
    | tick =>
      simp only [Run.loop] at h
      obtain ⟨ext, hext⟩ := ih _ _ h
      obtain ⟨ext0, hext0, -⟩ := syncAll_effects E.toEnv ns w
      rw [hext]
      cases hr : (syncAll E.toEnv ns w).1 with
      | none =>
        simp only [hr]
        exact ⟨Effect.clusterList ns :: ext0 ++ ext, by rw [hext0]; simp⟩
      | some err =>
        simp only [hr]
        exact ⟨Effect.clusterList ns :: ext0 ++
          [Effect.logError ("Periodic sync failed: " ++ err)] ++ ext, by rw [hext0]; simp⟩
    | watch fuel =>
      simp only [Run.loop] at h
      cases watching with
      | false =>
        simp only [Bool.false_eq_true, if_false] at h
        exact ih _ _ h
      | true =>
        simp only [if_true] at h
        cases hi : watchCronJobs.iteration E ns fuel w with
        | none =>
          rw [hi] at h
          exact absurd h (by simp)
        | some x =>
          rw [hi] at h
          obtain ⟨b, w2⟩ := x
          simp only at h
          obtain ⟨ext, hext⟩ := ih _ _ h
          obtain ⟨ext0, hext0⟩ := watchCronJobs_iteration_extends E ns fuel w b w2 hi
          exact ⟨ext0 ++ ext, by rw [hext, hext0, List.append_assoc]⟩


/-- C23 (counterexample): two runs in which more than one resync completes before the first
watch subscription is opened.  In the first the call of `Watch` is refused once, the ticker
fires during the backoff, and the second call of `Watch` opens the first subscription after two
completed resyncs.  In the second the ticker fires before the watcher goroutine makes its first
call of `Watch`. -/
theorem second_resync_before_subscription_counterexample :
    (flakyWatchEnv.Watch "ops" 0).1 = some "forbidden" ∧
    (flakyWatchEnv.Watch "ops" 1).1 = none ∧
    Option.map World.trace
      (Run flakyWatchEnv "ops" [Turn.watch 1, Turn.tick, Turn.watch 1] ⟨0, []⟩) =
      some [Effect.clusterList "ops",
        Effect.clusterWatch "ops",
        Effect.logError "Watch error: failed to create watcher: forbidden",
        Effect.sleep 5,
        Effect.clusterList "ops",
        Effect.clusterWatch "ops",
        Effect.watchStop] ∧
    Option.map World.trace (Run flakyWatchEnv "ops" [Turn.tick, Turn.watch 1] ⟨1, []⟩) =
      some [Effect.clusterList "ops",
        Effect.clusterList "ops",
        Effect.clusterWatch "ops",
        Effect.watchStop] := by
  decide

/-- C23 (amended): in every run of the controller, the initial resync, which lists the cluster
once and reconciles every eligible listed object, runs to completion before the event watcher
is started: the trace of every run starts with the whole trace of that resync, which holds one
listing and no subscription attempt, so that every subscription attempt comes after it and it
is the only resync before the watcher is started.  The watcher is started from the world the
resync leaves, whether it succeeded or failed: when the context is not done, the first action
after the resync in a run whose first turn is the watcher's is the subscription attempt. -/
theorem initial_resync_before_watcher {σ : Type} (E : WatchEnv σ) (ns : String) (w : World σ) :
    (∃ ext, (Run.initial E ns w).trace = w.trace ++ Effect.clusterList ns :: ext ∧
      listCalls ext = [] ∧ watchSteps ext = []) ∧
    (∀ (items : List CronJob) (s1 : σ), E.List ns w.state = (Except.ok items, s1) →
      ∃ ext, (Run.initial E ns w).trace = w.trace ++ Effect.clusterList ns :: ext ∧
        remoteCalls ext = (items.filter shouldSync).map upsertCall) ∧
    (Run.initial E ns w).state = (syncAll E.toEnv ns w).2.state ∧
    (∀ (schedule : List Turn) (w1 : World σ), Run E ns schedule w = some w1 →
      ∃ rest, w1.trace = (Run.initial E ns w).trace ++ rest) ∧
    (∀ (fuel : Nat) (r : Option String) (w1 : World σ),
      E.Done (Run.initial E ns w).state = false →
      watchOnce E ns fuel (Run.initial E ns w) = some (r, w1) →
      ∃ w2 ext, Run E ns [Turn.watch fuel] w = some w2 ∧
        w2.trace = (Run.initial E ns w).trace ++ Effect.clusterWatch ns :: ext) := by
  refine ⟨?_, ?_, ?_, ?_, ?_⟩
  · obtain ⟨ext, hext, hp⟩ := Run_initial_effects E ns w
    exact ⟨ext, hext, listCalls_of_effects ext hp, watchSteps_of_effects ext hp⟩
  · intro items s1 hlist
    obtain ⟨ext, hext, hr, -⟩ :=
      syncAll_loop_trace E.toEnv items (0, ⟨s1, w.trace ++ [Effect.clusterList ns]⟩)
    have hval : syncAll E.toEnv ns w =
        (none, (syncAll.loop E.toEnv items (0, ⟨s1, w.trace ++ [Effect.clusterList ns]⟩)).2) := by
      unfold syncAll
      simp only [hlist]
    refine ⟨ext, ?_, hr⟩
    unfold Run.initial
    simp only [hval]
    rw [hext]
    simp
  · unfold Run.initial
    simp only
    cases (syncAll E.toEnv ns w).1 <;> rfl
  · intro schedule w1 h
    exact Run_loop_extends E ns schedule true _ w1 h
  · intro fuel r w1 hd ho
    have hd1 : ¬ (E.Done (Run.initial E ns w).state = true) := by simp [hd]
    obtain ⟨ext, hext⟩ := watchOnce_extends E ns fuel _ r w1 ho
    cases r with
    | none =>
      refine ⟨w1, ext, ?_, hext⟩
      simp [Run, Run.loop, watchCronJobs.iteration, hd1, ho]
    | some err =>
      refine ⟨⟨E.Sleep 5 w1.state,
        w1.trace ++ [Effect.logError ("Watch error: " ++ err), Effect.sleep 5]⟩,
        ext ++ [Effect.logError ("Watch error: " ++ err), Effect.sleep 5], ?_, ?_⟩
      · simp [Run, Run.loop, watchCronJobs.iteration, hd1, ho]
      · simp [hext]

end Saturn
